import Mathlib

/-!
# Verification of the pautanews ingest-to-event pipeline

Shallow embedding, in Lean 4, of the parts of the `pautanews` backend that the
specification's testable properties talk about, together with proofs (or
refutations) of those properties.

Conventions used throughout:
* Python floats are modelled as rationals (`ℚ`) where the code only performs
  field arithmetic and comparisons, and as reals (`ℝ`) where the code calls
  transcendental functions (`math.log1p`, `math.sqrt`, `math.exp`).
* Timestamps (`datetime`) are modelled as integers (seconds, or minutes where
  noted); `datetime.now(timezone.utc)` becomes an explicit `now` parameter.
* Database rows are modelled as structures, a session/database as lists of
  rows; SQLAlchemy row mutation becomes functional update.
* Python strings are modelled as `List Char`.  Case mapping and the
  `\\d`/`\\s`/`[^a-z0-9]` character classes are modelled at the ASCII level;
  on ASCII input these coincide with Python's Unicode semantics (in
  particular `unicodedata.normalize("NFKD", ·)` followed by removal of
  combining marks is the identity on ASCII text).
* Fallible code returns `Except String ·`; a raised Python exception is the
  `.error` case.
-/

namespace PautaNews

/-! ## Evidence pack (`backend/app/regex_pack.py`)

`compute_evidence_score` receives the list of anchor dicts produced by
`extract_anchors`; each dict has keys `type`, `value`, `ptr`. -/

/-- One anchor dict `{type, value, ptr}` as produced by `extract_anchors`. -/
structure Anchor where
  atype : String
  value : String
  ptr : String
deriving DecidableEq, Repr

/-- The `weights` dict inside `compute_evidence_score` (regex_pack.py:115-119). -/
def codeWeights : List (String × ℚ) :=
  [("CNPJ", 3/2), ("CNJ", 2), ("SEI", 6/5), ("TCU", 2),
   ("PL", 3/2), ("ATO", 1), ("VALOR", 1/2), ("DATA", 1/5), ("HORA", 1/5),
   ("LINK_GOV", 4/5), ("PDF", 6/5), ("CPF", 6/5)]

/-- `weights.get(anchor["type"], 0.1)` (regex_pack.py:123). -/
def codeWeight (t : String) : ℚ := ((codeWeights.lookup t).getD (1/10))

/-- The loop of `compute_evidence_score` (regex_pack.py:120-124): fold over the
anchors keeping a `seen_values` set, adding the weight of the anchor's type the
first time each value is seen.  Returns the accumulated score and seen set. -/
def evidenceFold : List Anchor → ℚ → List String → ℚ × List String
  | [], score, seen => (score, seen)
  | a :: rest, score, seen =>
    if a.value ∈ seen then evidenceFold rest score seen
    else evidenceFold rest (score + codeWeight a.atype) (a.value :: seen)

/-- `compute_evidence_score` (regex_pack.py:112-126): weighted sum over
first occurrences of each anchor value, capped at 15. -/
def compute_evidence_score (anchors : List Anchor) : ℚ :=
  min (evidenceFold anchors 0 []).1 15

/-- The weight table as the specification states it (spec §4.5): CNJ 2.0,
TCU 2.0, PL 1.5, CNPJ 1.5, CPF 1.2, PDF 1.2, SEI 1.2, LINK_GOV 0.8,
VALOR 0.5, DATA 0.2, HORA 0.2.  Types outside this list get 0 so that any
mismatch with the code would be visible. -/
def specWeight (t : String) : ℚ :=
  if t = "CNJ" then 2
  else if t = "TCU" then 2
  else if t = "PL" then 3/2
  else if t = "CNPJ" then 3/2
  else if t = "CPF" then 6/5
  else if t = "PDF" then 6/5
  else if t = "SEI" then 6/5
  else if t = "LINK_GOV" then 4/5
  else if t = "VALOR" then 1/2
  else if t = "DATA" then 1/5
  else if t = "HORA" then 1/5
  else 0

/-- The anchor types whose weights the specification lists. -/
def specListedTypes : List String :=
  ["CNJ", "TCU", "PL", "CNPJ", "CPF", "PDF", "SEI", "LINK_GOV", "VALOR", "DATA", "HORA"]

/-- Keep only the first anchor carrying each distinct value (relative to an
already-seen set of values). -/
def dedupByValueFrom : List String → List Anchor → List Anchor
  | _, [] => []
  | seen, a :: rest =>
    if a.value ∈ seen then dedupByValueFrom seen rest
    else a :: dedupByValueFrom (a.value :: seen) rest

/-- First anchor per distinct value, over the whole list. -/
def dedupByValue (anchors : List Anchor) : List Anchor := dedupByValueFrom [] anchors

/-- Sum of spec weights over a list of anchors. -/
def sumSpecWeights (anchors : List Anchor) : ℚ := (anchors.map (fun a => specWeight a.atype)).sum

/-- Python `str.strip()` whitespace class (ASCII part). -/
def pyIsSpace (c : Char) : Bool :=
  c = ' ' || c = '\t' || c = '\n' || c = '\r' || c = '\x0b' || c = '\x0c'

/-- Python `str.strip()`. -/
def pyStrip (l : List Char) : List Char :=
  ((l.dropWhile pyIsSpace).reverse.dropWhile pyIsSpace).reverse

/-- ASCII lower-casing, the effect of Python `str.lower()` on ASCII text. -/
def toLowerAscii (c : Char) : Char :=
  if 65 ≤ c.toNat ∧ c.toNat ≤ 90 then Char.ofNat (c.toNat + 32) else c

/-- Membership in the `[a-z0-9]` character class of `normalize_text`. -/
def isLowerAlnum (c : Char) : Bool :=
  (97 ≤ c.toNat && c.toNat ≤ 122) || (48 ≤ c.toNat && c.toNat ≤ 57)

/-- One pass of `re.sub(r"[^a-z0-9]+", " ", ·)`; `inRun` records whether the
previous character was part of a non-`[a-z0-9]` run whose space was already
emitted. -/
def squashGo (inRun : Bool) : List Char → List Char
  | [] => []
  | c :: rest =>
    if isLowerAlnum c then c :: squashGo false rest
    else if inRun then squashGo true rest
    else ' ' :: squashGo true rest

/-- `re.sub(r"[^a-z0-9]+", " ", ·)`: each maximal run of characters outside
`[a-z0-9]` becomes one space. -/
def squashNonAlnum (l : List Char) : List Char := squashGo false l

/-- One pass of `re.sub(r"\s+", " ", ·)`; `inRun` records whether the
previous character belonged to a whitespace run whose space was already
emitted. -/
def collapseGo (inRun : Bool) : List Char → List Char
  | [] => []
  | c :: rest =>
    if pyIsSpace c then
      if inRun then collapseGo true rest else ' ' :: collapseGo true rest
    else c :: collapseGo false rest

/-- `re.sub(r"\s+", " ", ·)`: each maximal whitespace run becomes one space. -/
def collapseSpaces (l : List Char) : List Char := collapseGo false l

/-- `normalize_text` (similarity.py:20-26), modelled for ASCII input
(`unicodedata.normalize("NFKD", ·)` followed by dropping combining marks is
the identity there). -/
def normalize_text (l : List Char) : List Char :=
  collapseSpaces (pyStrip (squashNonAlnum ((pyStrip l).map toLowerAscii)))

/-- One pass of `str.split()`; `cur` holds the characters of the token being
read, in reverse. -/
def splitGo (cur : List Char) : List Char → List (List Char)
  | [] => if cur = [] then [] else [cur.reverse]
  | c :: rest =>
    if pyIsSpace c then
      if cur = [] then splitGo [] rest else cur.reverse :: splitGo [] rest
    else splitGo (c :: cur) rest

/-- `str.split()` with no separator: split on whitespace runs, no empties. -/
def pySplit (l : List Char) : List (List Char) := splitGo [] l

/-- `SIMHASH_STOPWORDS` (similarity.py:13-18). -/
def SIMHASH_STOPWORDS : List (List Char) :=
  (["a", "ao", "aos", "as", "com", "como", "contra", "da", "das", "de", "do", "dos",
    "e", "em", "entre", "na", "nas", "no", "nos", "o", "os", "ou", "para", "pela",
    "pelas", "pelo", "pelos", "por", "que", "sem", "sob", "sobre", "uma", "um",
    "uns", "umas", "daquele", "daquela", "este", "esta", "isso", "esse", "essa"]).map
    String.data

/-- The `tokens` binding of `_build_features` (similarity.py:34): tokens of
the normalised text of length ≥ 3 that are not stop words. -/
def simTokens (text : List Char) : List (List Char) :=
  (pySplit (normalize_text text)).filter
    (fun t => 3 ≤ t.length && !(SIMHASH_STOPWORDS.contains t))

/-- 3-token shingles joined by single spaces (similarity.py:39). -/
def shingles3 : List (List Char) → List (List Char)
  | a :: b :: c :: rest =>
    (a ++ ' ' :: (b ++ ' ' :: c)) :: shingles3 (b :: c :: rest)
  | _ => []

/-- The feature list of `_build_features` computed from an already-normalised
text (similarity.py:30-43): empty when there is no token, otherwise the
3-shingles followed by the first 30 unigrams (`tokens[:30]`). -/
def featuresOfNorm (norm : List Char) : List (List Char) :=
  if norm = [] then []
  else
    let tokens := (pySplit norm).filter
      (fun t => 3 ≤ t.length && !(SIMHASH_STOPWORDS.contains t))
    if tokens = [] then []
    else shingles3 tokens ++ tokens.take 30

/-- `_build_features` (similarity.py:28-43). -/
def build_features (text : List Char) : List (List Char) :=
  featuresOfNorm (normalize_text text)

/-! ### blake2b with 8-byte digest, on `Nat` -/

/-- `x % 2^64` as used on every 64-bit word operation below. -/
def m64 : Nat := 18446744073709551616

def add64 (a b : Nat) : Nat := (a + b) % m64

def xor64 (a b : Nat) : Nat := Nat.xor a b

/-- Rotate a 64-bit word right by `n` (0 < n < 64). -/
def rotr64 (x n : Nat) : Nat := x / 2 ^ n + x % 2 ^ n * 2 ^ (64 - n)

/-- A 16-word vector (the blake2b working vector, a message block's words,
or one SIGMA permutation row), kept as a structure so that kernel reduction
of the hash is by direct projection. -/
structure BVec where
  (y0 y1 y2 y3 y4 y5 y6 y7 y8 y9 y10 y11 y12 y13 y14 y15 : Nat)

/-- Index into a 16-word vector. -/
def BVec.get (v : BVec) : Nat → Nat
  | 0 => v.y0 | 1 => v.y1 | 2 => v.y2 | 3 => v.y3
  | 4 => v.y4 | 5 => v.y5 | 6 => v.y6 | 7 => v.y7
  | 8 => v.y8 | 9 => v.y9 | 10 => v.y10 | 11 => v.y11
  | 12 => v.y12 | 13 => v.y13 | 14 => v.y14 | _ => v.y15

/-- Functional update of a 16-word vector. -/
def BVec.set (v : BVec) (i x : Nat) : BVec :=
  match i with
  | 0 => { v with y0 := x } | 1 => { v with y1 := x }
  | 2 => { v with y2 := x } | 3 => { v with y3 := x }
  | 4 => { v with y4 := x } | 5 => { v with y5 := x }
  | 6 => { v with y6 := x } | 7 => { v with y7 := x }
  | 8 => { v with y8 := x } | 9 => { v with y9 := x }
  | 10 => { v with y10 := x } | 11 => { v with y11 := x }
  | 12 => { v with y12 := x } | 13 => { v with y13 := x }
  | 14 => { v with y14 := x } | _ => { v with y15 := x }

/-- The blake2b message schedule SIGMA (10 rows). -/
def blakeSigma : List BVec :=
  [⟨0, 1, 2, 3, 4, 5, 6, 7, 8, 9, 10, 11, 12, 13, 14, 15⟩,
   ⟨14, 10, 4, 8, 9, 15, 13, 6, 1, 12, 0, 2, 11, 7, 5, 3⟩,
   ⟨11, 8, 12, 0, 5, 2, 15, 13, 10, 14, 3, 6, 7, 1, 9, 4⟩,
   ⟨7, 9, 3, 1, 13, 12, 11, 14, 2, 6, 5, 10, 4, 0, 15, 8⟩,
   ⟨9, 0, 5, 7, 2, 4, 10, 15, 14, 1, 11, 12, 6, 8, 3, 13⟩,
   ⟨2, 12, 6, 10, 0, 11, 8, 3, 4, 13, 7, 5, 15, 14, 1, 9⟩,
   ⟨12, 5, 1, 15, 14, 13, 4, 10, 0, 7, 6, 3, 9, 2, 8, 11⟩,
   ⟨13, 11, 7, 14, 12, 1, 3, 9, 5, 0, 15, 4, 8, 6, 2, 10⟩,
   ⟨6, 15, 14, 9, 11, 3, 0, 8, 12, 2, 13, 7, 1, 4, 10, 5⟩,
   ⟨10, 2, 8, 4, 7, 6, 1, 5, 15, 11, 9, 14, 3, 12, 13, 0⟩]

/-- The 12 rounds use SIGMA rows 0..9, 0, 1. -/
def blakeRounds : List BVec := blakeSigma ++ blakeSigma.take 2

/-- The blake2b G mixing function on the 16-word working vector. -/
def gMix (v : BVec) (a b c d : Nat) (x y : Nat) : BVec :=
  let va := (v.get a + v.get b + x) % m64
  let vd := rotr64 (xor64 (v.get d) va) 32
  let vc := (v.get c + vd) % m64
  let vb := rotr64 (xor64 (v.get b) vc) 24
  let va2 := (va + vb + y) % m64
  let vd2 := rotr64 (xor64 vd va2) 16
  let vc2 := (vc + vd2) % m64
  let vb2 := rotr64 (xor64 vb vc2) 63
  (((v.set a va2).set b vb2).set c vc2).set d vd2

/-- One blake2b round with message words `m` and SIGMA row `s`. -/
def blakeRound (m : BVec) (s : BVec) (v : BVec) : BVec :=
  let mi : Nat → Nat := fun i => m.get (s.get i)
  let v := gMix v 0 4 8 12 (mi 0) (mi 1)
  let v := gMix v 1 5 9 13 (mi 2) (mi 3)
  let v := gMix v 2 6 10 14 (mi 4) (mi 5)
  let v := gMix v 3 7 11 15 (mi 6) (mi 7)
  let v := gMix v 0 5 10 15 (mi 8) (mi 9)
  let v := gMix v 1 6 11 12 (mi 10) (mi 11)
  let v := gMix v 2 7 8 13 (mi 12) (mi 13)
  gMix v 3 4 9 14 (mi 14) (mi 15)

/-- 8 little-endian bytes to one 64-bit word. -/
def le64ofBytes (bs : List Nat) : Nat := bs.foldr (fun b acc => b + 256 * acc) 0

/-- A 128-byte block as 16 little-endian 64-bit words. -/
def wordsOfBlock (bs : List Nat) : BVec :=
  ⟨le64ofBytes (bs.take 8), le64ofBytes ((bs.drop 8).take 8),
   le64ofBytes ((bs.drop 16).take 8), le64ofBytes ((bs.drop 24).take 8),
   le64ofBytes ((bs.drop 32).take 8), le64ofBytes ((bs.drop 40).take 8),
   le64ofBytes ((bs.drop 48).take 8), le64ofBytes ((bs.drop 56).take 8),
   le64ofBytes ((bs.drop 64).take 8), le64ofBytes ((bs.drop 72).take 8),
   le64ofBytes ((bs.drop 80).take 8), le64ofBytes ((bs.drop 88).take 8),
   le64ofBytes ((bs.drop 96).take 8), le64ofBytes ((bs.drop 104).take 8),
   le64ofBytes ((bs.drop 112).take 8), le64ofBytes ((bs.drop 120).take 8)⟩

/-- The blake2b compression function: `h` the 8-word state (indices 0..7 of a
`BVec`, the rest unused and zero), `block` a 128-byte block, `t` the byte
counter, `last` the final-block flag. -/
def blakeCompress (h : BVec) (block : List Nat) (t : Nat) (last : Bool) : BVec :=
  let m := wordsOfBlock block
  let v : BVec :=
    ⟨h.y0, h.y1, h.y2, h.y3, h.y4, h.y5, h.y6, h.y7,
     0x6a09e667f3bcc908, 0xbb67ae8584caa73b, 0x3c6ef372fe94f82b, 0xa54ff53a5f1d36f1,
     xor64 0x510e527fade682d1 (t % m64), xor64 0x9b05688c2b3e6c1f (t / m64),
     if last then xor64 0x1f83d9abfb41bd6b (m64 - 1) else 0x1f83d9abfb41bd6b,
     0x5be0cd19137e2179⟩
  let v := blakeRounds.foldl (fun acc s => blakeRound m s acc) v
  ⟨xor64 h.y0 (xor64 v.y0 v.y8), xor64 h.y1 (xor64 v.y1 v.y9),
   xor64 h.y2 (xor64 v.y2 v.y10), xor64 h.y3 (xor64 v.y3 v.y11),
   xor64 h.y4 (xor64 v.y4 v.y12), xor64 h.y5 (xor64 v.y5 v.y13),
   xor64 h.y6 (xor64 v.y6 v.y14), xor64 h.y7 (xor64 v.y7 v.y15),
   0, 0, 0, 0, 0, 0, 0, 0⟩

/-- Initial state for an unkeyed blake2b with an 8-byte digest:
`IV[0] ^ 0x01010000 ^ digest_size`, then `IV[1..7]`. -/
def blakeInit : BVec :=
  ⟨xor64 0x6a09e667f3bcc908 0x01010008,
   0xbb67ae8584caa73b, 0x3c6ef372fe94f82b, 0xa54ff53a5f1d36f1,
   0x510e527fade682d1, 0x9b05688c2b3e6c1f, 0x1f83d9abfb41bd6b, 0x5be0cd19137e2179,
   0, 0, 0, 0, 0, 0, 0, 0⟩

/-- Process the message 128 bytes at a time, padding the (always present)
last block with zeros; `off` counts the bytes already consumed.  `fuel` is an
upper bound on the number of blocks, making the recursion structural; callers
pass `data.length + 1`, which always suffices since each step consumes 128
bytes. -/
def blakeLoopGo : Nat → BVec → List Nat → Nat → BVec
  | 0, h, _, _ => h
  | fuel + 1, h, data, off =>
    if data.length ≤ 128 then
      blakeCompress h (data ++ List.replicate (128 - data.length) 0) (off + data.length) true
    else
      blakeLoopGo fuel (blakeCompress h (data.take 128) (off + 128) false) (data.drop 128) (off + 128)

/-- Process the whole message. -/
def blakeLoop (h : BVec) (data : List Nat) (off : Nat) : BVec :=
  blakeLoopGo (data.length + 1) h data off

/-- Little-endian byte decomposition of a 64-bit word. -/
def leBytes8 (x : Nat) : List Nat := (List.range 8).map (fun i => x / 2 ^ (8 * i) % 256)

/-- `int.from_bytes(hashlib.blake2b(data, digest_size=8).digest(), "big")`:
the 8-byte digest is the little-endian encoding of the first state word, and
reading it big-endian is a byte swap. -/
def blake2b64 (data : List Nat) : Nat :=
  let h := if data = [] then blakeCompress blakeInit (List.replicate 128 0) 0 true
           else blakeLoop blakeInit data 0
  le64ofBytes (leBytes8 h.y0).reverse

/-- UTF-8 bytes of a feature string; features produced by `normalize_text`
only contain `[a-z0-9 ]`, for which UTF-8 is the code point itself. -/
def strBytes (l : List Char) : List Nat := l.map Char.toNat

/-- The per-feature 64-bit digest of `compute_simhash64` (similarity.py:54). -/
def simhashHash (f : List Char) : Nat := blake2b64 (strBytes f)

/-- One feature's contribution to the vote vector (similarity.py:55-59):
`v[i] += 1` if bit `i` of the digest is set, else `v[i] -= 1`. -/
def updVote : List Int → Nat → Nat → List Int
  | [], _, _ => []
  | x :: xs, h, i => (x + if h.testBit i then 1 else -1) :: updVote xs h (i + 1)

/-- Reassemble the fingerprint (similarity.py:61-64): bit `i` is set when
`v[i] >= 0`. -/
def bitsOfVotes : List Int → Nat → Nat
  | [], _ => 0
  | x :: xs, i => (if 0 ≤ x then 2 ^ i else 0) + bitsOfVotes xs (i + 1)

/-- The voting core of `compute_simhash64` over a feature list. -/
def simhashVote (features : List (List Char)) : Nat :=
  bitsOfVotes (features.foldl (fun v f => updVote v (simhashHash f) 0) (List.replicate 64 0)) 0

/-- `compute_simhash64` (similarity.py:45-66). -/
def compute_simhash64 (text : List Char) : Option Nat :=
  let features := build_features text
  if features = [] then none else some (simhashVote features)

/-- Binary digit sum with explicit fuel (`fuel ≥ n` suffices, since `n`
halves at every step). -/
def popGo : Nat → Nat → Nat
  | 0, _ => 0
  | fuel + 1, n => if n = 0 then 0 else n % 2 + popGo fuel (n / 2)

/-- Python `int.bit_count()` for a natural number. -/
def natPopCount (n : Nat) : Nat := popGo n n

/-- `hamming_distance64` (similarity.py:68-73): 64 when either side is
`None`, else the popcount of the XOR. -/
def hamming_distance64 (a b : Option Nat) : Nat :=
  match a, b with
  | some a, some b => natPopCount (Nat.xor a b)
  | _, _ => 64

/-- `is_near_duplicate` (similarity.py:75-79). -/
def is_near_duplicate (a b : Option Nat) (threshold : Nat := 12) : Bool :=
  match a, b with
  | some a', some b' => hamming_distance64 (some a') (some b') ≤ threshold
  | _, _ => false

/-- Python truthiness of an optional integer (`if target_event_id:`,
`if ... and shash:`): `None` and `0` are falsy. -/
def pyTruthyOptNat : Option Nat → Bool
  | none => false
  | some n => n ≠ 0

/-- The candidate scan of the organizer's SimHash linkage
(organizer.py:261-267): best candidate with Hamming distance ≤ 12,
earlier candidates winning ties. -/
def bestSimhashCandidate (shash : Option Nat) (cands : List (Nat × Option Nat)) :
    Option Nat :=
  (cands.foldl
    (fun (acc : Option Nat × Nat) c =>
      let dist := hamming_distance64 shash c.2
      if dist ≤ 12 ∧ dist < acc.2 then (some c.1, dist) else acc)
    (none, 64)).1

/-- Priority 3 of the organizer's event linkage (organizer.py:250-274): runs
only when no target was found yet and the document has a (truthy) SimHash;
`eventOfDoc` models the `EventDoc` lookup for the best candidate document. -/
def linkageStep3 (targetSoFar : Option Nat) (shash : Option Nat)
    (cands : List (Nat × Option Nat)) (eventOfDoc : Nat → Option Nat) : Option Nat :=
  if pyTruthyOptNat targetSoFar then targetSoFar
  else if pyTruthyOptNat shash then
    match bestSimhashCandidate shash cands with
    | some best => if best ≠ 0 then eventOfDoc best else targetSoFar
    | none => targetSoFar
  else targetSoFar

/-! ### C4 / C10: SimHash theorems -/

/-- The fingerprint as the specification describes it: identical to
`compute_simhash64` except that the feature set takes the first **24**
unigrams (`tokens[:24]`) instead of the code's `tokens[:30]`. -/
def specSimhash64 (text : List Char) : Option Nat :=
  if simTokens text = [] then none
  else some (simhashVote (shingles3 (simTokens text) ++ (simTokens text).take 24))

/-- A normalised text with 25 tokens (24 copies of `abc` followed by `bcd`),
on which `tokens[:24]` and `tokens[:30]` differ. -/
def exText : List Char :=
  ("abc abc abc abc abc abc abc abc abc abc abc abc abc "
    ++ "abc abc abc abc abc abc abc abc abc abc abc bcd").data

/-- The shingles plus the first 24 unigrams of `exText` (the feature set the
specification describes). -/
def exSpecFeats : List (List Char) :=
  shingles3 (simTokens exText) ++ (simTokens exText).take 24

/-- The vote vector accumulated over `exSpecFeats` (checked below from the
four distinct blake2b digests occurring in the feature set). -/
def exSpecVoteVec : List Int :=
  [45, -1, -3, 47, 47, -1, 1, -1, 47, -1, 3, -45, 47, -47, -47, 47, 47, -47, 1, -47, 45, -45, 1, 47, 47, 3, -3, -1, 1, 47, -47, -45, -47, -1, -47, 1, 1, -47, 45, 1, -1, -47, 1, -45, 1, -47, -3, -1, 3, 47, -1, 45, 3, 3, -47, 47, -45, -3, -47, 1, 47, -3, 3, 47]

/-! ## Yield monitor (`backend/app/health.py`)

One history entry of the per-source yield ring, already parsed (the code
skips rows whose timestamp fails to parse, so the model receives the parsed
rows).  Timestamps are minutes; `tsHour`/`tsWeekday` model `ts.hour` and
`ts.weekday()` for the calendar branch. -/

structure YieldPoint where
  ts : ℤ
  tsHour : ℕ
  tsWeekday : ℕ
  anchors : ℤ
  status : ℤ
deriving DecidableEq, Repr

/-- `datetime.now(timezone.utc)` with the fields the monitor reads. -/
structure NowInfo where
  t : ℤ
  hour : ℕ
  weekday : ℕ
deriving DecidableEq, Repr

/-- Entries at or after the window cutoff (health.py:91-92). -/
def recentOf (history : List YieldPoint) (now : NowInfo) (windowMins : ℤ) : List YieldPoint :=
  history.filter (fun r => decide (now.t - windowMins ≤ r.ts))

/-- Entries before the window cutoff (health.py:93-94). -/
def olderOf (history : List YieldPoint) (now : NowInfo) (windowMins : ℤ) : List YieldPoint :=
  history.filter (fun r => decide (r.ts < now.t - windowMins))

/-- The HTTP-200 subset of the recent entries (health.py:98). -/
def recent200Of (history : List YieldPoint) (now : NowInfo) (windowMins : ℤ) : List YieldPoint :=
  (recentOf history now windowMins).filter (fun r => r.status == 200)

/-- The HTTP-200 subset of the historical entries (health.py:103). -/
def hist200Of (history : List YieldPoint) (now : NowInfo) (windowMins : ℤ) : List YieldPoint :=
  (olderOf history now windowMins).filter (fun r => r.status == 200)

/-- `recent_avg` (health.py:102). -/
def recentAvgOf (history : List YieldPoint) (now : NowInfo) (windowMins : ℤ) : ℚ :=
  (((recent200Of history now windowMins).map YieldPoint.anchors).sum : ℤ)
    / (max (recent200Of history now windowMins).length 1 : ℚ)

/-- `historical_avg` (health.py:108). -/
def histAvgOf (history : List YieldPoint) (now : NowInfo) (windowMins : ℤ) : ℚ :=
  (((hist200Of history now windowMins).map YieldPoint.anchors).sum : ℤ)
    / (max (hist200Of history now windowMins).length 1 : ℚ)

/-- `YieldMonitor.check_starvation` (health.py:51-134) on an explicit history
list and `now`.  The Redis/in-memory retrieval and the per-row timestamp
parsing are upstream of the argument; floats are modelled as `ℚ`. -/
def check_starvation (history : List YieldPoint) (now : NowInfo) (windowMins : ℤ)
    (calendarProfile : Option String) : Bool :=
  if history.isEmpty then false
  else
    let recent := recentOf history now windowMins
    if recent.length < 5 then false
    else
      let recent200 := recent200Of history now windowMins
      if recent200.length < 5 then false
      else
        let recentAvg := recentAvgOf history now windowMins
        let historical200 := hist200Of history now windowMins
        if historical200.length < 10 then
          recent200.all (fun r => r.anchors == 0)
        else
          let historicalAvg := histAvgOf history now windowMins
          if recentAvg ≤ 1/10 ∧ 1 ≤ historicalAvg then true
          else
            match calendarProfile with
            | none => false
            | some prof =>
              if prof = "" then false
              else
                let sameHour := now.hour
                let isWeekend := decide (5 ≤ now.weekday)
                if prof = "business_hours_br"
                    && (isWeekend || !(decide (7 ≤ sameHour) && decide (sameHour ≤ 20))) then
                  false
                else
                  let calendarBaseline :=
                    if prof = "business_hours_br" then
                      historical200.filter
                        (fun r => r.tsHour == sameHour && (decide (5 ≤ r.tsWeekday) == isWeekend))
                    else historical200.filter (fun r => r.tsHour == sameHour)
                  if 8 ≤ calendarBaseline.length then
                    let calendarAvg : ℚ :=
                      ((calendarBaseline.map YieldPoint.anchors).sum : ℤ)
                        / (calendarBaseline.length : ℚ)
                    if 1 ≤ calendarAvg ∧ recentAvg ≤ max (1/10) (calendarAvg * (1/10)) then
                      true
                    else false
                  else false

/-! ## Breaking score (`backend/app/scoring/plantao.py`)

`calculate_plantao_score` uses `math.log1p`, `math.sqrt` and `math.exp`, so
floats are modelled as reals here.  `datetime.now(timezone.utc)` and
`first_seen_at` enter as the two timestamp parameters (seconds). -/

/-- The dict returned by `calculate_plantao_score`. -/
structure PlantaoResult where
  score : ℝ
  reasons : List String

/-- Python `round(x, 2)`, modelled on `ℝ` as round-half-up to two decimals
(Python rounds the underlying binary double half-to-even; the two agree
except at exact `.005` ties, which none of the theorems below touch). -/
noncomputable def pyRound2 (x : ℝ) : ℝ := (⌊x * 100 + 1/2⌋ : ℤ) / 100

open Classical in
/-- `calculate_plantao_score` (plantao.py:21-63). -/
noncomputable def calculate_plantao_score (tier velocity source_count : ℝ)
    (nowS firstSeenS : ℝ) (impact_signal : ℝ := 0) (trust_penalty : ℝ := 0)
    (base_weight : ℝ := 10) : PlantaoResult :=
  let tier_weight := (4 - tier) * 2
  let velocity_boost := Real.log (1 + velocity) * 5
  let diversity_boost := Real.sqrt source_count * 3
  let impact_boost := max 0 (min 10 impact_signal) * 0.8
  let raw_score := base_weight + tier_weight + velocity_boost + diversity_boost
      + impact_boost - max 0 (min 20 trust_penalty)
  let age_hours := (nowS - firstSeenS) / 3600
  let decay_factor := Real.exp (-(age_hours / 2))
  let final_score := raw_score * decay_factor
  let reasons :=
    (if 5 < velocity then ["PLANTAO_VELOCITY_SPIKE"] else [])
    ++ (if tier = 1 then ["PLANTAO_TIER_WEIGHT"] else [])
    ++ (if 2 < source_count then ["PLANTAO_DIVERSITY"] else [])
    ++ (if 1/2 < impact_boost then ["PLANTAO_IMPACT_HEURISTIC"] else [])
    ++ (if 0 < trust_penalty then ["PLANTAO_TRUST_PENALTY"] else [])
    ++ (if decay_factor < 0.8 then ["PLANTAO_DECAY"] else [])
  ⟨pyRound2 final_score, reasons⟩

/-! ## Events, settings and action gating
(`backend/app/models/event.py`, `backend/app/config.py`,
`backend/app/state_engine.py`) -/

/-- The `EventStatus` enum (models/event.py). -/
inductive EventStatus where
  | NEW | HYDRATING | PARTIAL_ENRICH | FAILED_ENRICH | QUARANTINE
  | HOT | MERGED | IGNORED | EXPIRED
deriving DecidableEq, Repr

/-- `EventStatus.value` / `_status_name` (state_engine.py:17-23). -/
def statusName : EventStatus → String
  | .NEW => "NEW"
  | .HYDRATING => "HYDRATING"
  | .PARTIAL_ENRICH => "PARTIAL_ENRICH"
  | .FAILED_ENRICH => "FAILED_ENRICH"
  | .QUARANTINE => "QUARANTINE"
  | .HOT => "HOT"
  | .MERGED => "MERGED"
  | .IGNORED => "IGNORED"
  | .EXPIRED => "EXPIRED"

/-- One `events` row (models/event.py).  Timestamps are seconds; `flags_json`
is an association list; floats are rationals. -/
structure EventRow where
  id : ℕ
  status : EventStatus
  canonical_event_id : Option ℕ := none
  lane : Option String := none
  summary : Option String := none
  flags_json : Option (List (String × String)) := none
  score_plantao : Option ℚ := none
  first_seen_at : Option ℤ := none
  last_seen_at : Option ℤ := none
  updated_at : Option ℤ := none
deriving DecidableEq, Repr

/-- The integer fields of `Settings` (config.py:36-44), with their declared
defaults.  (The string-valued connection fields play no role in the claims
and are omitted.) -/
structure Settings where
  SLO_FAST_PATH_S : ℤ := 60
  SLO_RENDER_PATH_S : ℤ := 120
  SLO_DEEP_PATH_S : ℤ := 300
  QUARANTINE_TTL_S : ℤ := 900
  ALERT_COOLDOWN_S : ℤ := 300
deriving DecidableEq, Repr

/-- Python attribute access on the pydantic `Settings` object: `config.py`
declares exactly the fields above (with `extra="ignore"`), so reading any
other attribute raises `AttributeError` — modelled as `none`. -/
def Settings.intAttr (s : Settings) (name : String) : Option ℤ :=
  if name = "SLO_FAST_PATH_S" then some s.SLO_FAST_PATH_S
  else if name = "SLO_RENDER_PATH_S" then some s.SLO_RENDER_PATH_S
  else if name = "SLO_DEEP_PATH_S" then some s.SLO_DEEP_PATH_S
  else if name = "QUARANTINE_TTL_S" then some s.QUARANTINE_TTL_S
  else if name = "ALERT_COOLDOWN_S" then some s.ALERT_COOLDOWN_S
  else none

/-- ASCII upper-casing, the effect of Python `str.upper()` on ASCII text. -/
def toUpperAscii (c : Char) : Char :=
  if 97 ≤ c.toNat ∧ c.toNat ≤ 122 then Char.ofNat (c.toNat - 32) else c

/-- Python `str.upper()` on a whole string (ASCII model). -/
def pyUpperStr (s : String) : String := ⟨s.data.map toUpperAscii⟩

/-- `evaluate_state_transition` (state_engine.py:25-51).  `now` models the
`datetime.now(timezone.utc)` read on line 38; the `settings` attribute
accesses on lines 42/44 go through `Settings.intAttr` and raising
`AttributeError` is the `.error` case. -/
def evaluate_state_transition (settings : Settings) (e : EventRow)
    (current_pool : String) (hydration_start_at : Option ℤ) (now : ℤ) :
    Except String EventStatus :=
  if e.status = .NEW then .ok .HYDRATING
  else if e.status = .HYDRATING then
    match hydration_start_at with
    | some t =>
      let elapsed := now - t
      let attrName := if current_pool = "FAST_POOL"
        then "HYDRATION_TIMEOUT_FAST_S" else "HYDRATION_TIMEOUT_RENDER_S"
      match settings.intAttr attrName with
      | none => .error ("AttributeError: 'Settings' object has no attribute '"
          ++ attrName ++ "'")
      | some timeout =>
        if timeout < elapsed then .ok .PARTIAL_ENRICH else .ok e.status
    | none => .ok e.status
  else .ok e.status

/-- `action_gating_decision` (state_engine.py:67-97).  `now_utc` is the
optional caller-supplied clock, `now` the `datetime.now(timezone.utc)`
fallback (also used inside `evaluate_state_transition`). -/
def action_gating_decision (settings : Settings) (e : EventRow) (action : String)
    (current_pool : String := "FAST_POOL") (now_utc : Option ℤ := none)
    (now : ℤ := 0) : Except String (Bool × Option String) :=
  let actionU := pyUpperStr action
  let nowv := now_utc.getD now
  if e.status = .MERGED then .ok (false, some "ACTION_BLOCKED_MERGED_TOMBSTONE")
  else if (e.status = .IGNORED ∨ e.status = .EXPIRED)
      ∧ actionU ∈ ["MERGE", "SPLIT", "PAUTAR"] then
    .ok (false, some ("ACTION_BLOCKED_" ++ statusName e.status))
  else if e.status = .HYDRATING ∧ actionU ∈ ["MERGE", "SPLIT", "PAUTAR"] then
    let hydration_start := e.first_seen_at.getD nowv
    match evaluate_state_transition settings e current_pool (some hydration_start) now with
    | .error err => .error err
    | .ok next =>
      if next = .HYDRATING then .ok (false, some "ACTION_BLOCKED_HYDRATING")
      else .ok (true, none)
  else .ok (true, none)

/-! ## Fetch preflight limits (`backend/app/workers/fetch.py`)

The Redis counters are modelled as an association list keyed by a structured
key type; the f-string keys `radar:rl:source:{pk}:{bucket}`,
`radar:cb:source:{pk}:open` and `radar:concurrency:{host}` are injective in
their parameters and pairwise distinct, which the constructors encode.
`EXPIRE` calls are dropped: all the claims play out inside one minute
bucket, where no TTL fires. -/

/-- Structured Redis key. -/
inductive RKey where
  | rlSource (pk : ℕ) (bucket : String)
  | cbOpen (pk : ℕ)
  | cbFails (pk : ℕ)
  | conc (host : String)
deriving DecidableEq, Repr

/-- The Redis keyspace; later writes shadow earlier ones. -/
structure RedisState where
  kv : List (RKey × ℤ) := []
deriving DecidableEq, Repr

def RedisState.get? (r : RedisState) (k : RKey) : Option ℤ := r.kv.lookup k

/-- Redis `SET` (functional override). -/
def RedisState.setk (r : RedisState) (k : RKey) (v : ℤ) : RedisState :=
  ⟨(k, v) :: r.kv⟩

/-- Redis `INCR`: missing keys count as 0; returns the new value. -/
def RedisState.incr (r : RedisState) (k : RKey) : ℤ × RedisState :=
  let v := (r.get? k).getD 0 + 1
  (v, r.setk k v)

/-- Redis `DECR`. -/
def RedisState.decr (r : RedisState) (k : RKey) : ℤ × RedisState :=
  let v := (r.get? k).getD 0 - 1
  (v, r.setk k v)

/-- The `limits` block of a source profile (schemas/source_profile.py:37-41). -/
structure LimitsM where
  rate_limit_req_per_min : ℤ := 10
  concurrency_per_domain : ℤ := 1
  timeout_seconds : ℤ := 30
  max_bytes : ℤ := 5000000
deriving DecidableEq, Repr

/-- The fields of `SourceProfile` that the fetcher's URL selection and
preflight read (schemas/source_profile.py:51-67); `strategy` and `pool` are
the enum `.value` strings. -/
structure SourceProfileM where
  id : Option ℕ := none
  source_id : String := ""
  source_domain : Option String := none
  tier : ℤ := 3
  is_official : Bool := false
  strategy : String := "RSS"
  pool : String := "FAST_POOL"
  endpoints : List (String × String) := []
  limits : LimitsM := {}
deriving DecidableEq, Repr

/-- Python `a or b` on optional strings (`""` and `None` are falsy). -/
def pyOrStr : Option String → Option String → Option String
  | some s, b => if s = "" then b else some s
  | none, b => b

/-- Python truthiness of an optional string. -/
def pyTruthyStrOpt : Option String → Bool
  | some s => s ≠ ""
  | none => false

/-- `_select_fetch_url` (fetch.py:165-170). -/
def select_fetch_url (p : SourceProfileM) : Option String :=
  let get := fun k => p.endpoints.lookup k
  if p.strategy = "SPA_API" ∨ p.strategy = "API" then
    pyOrStr (get "api") (pyOrStr (get "latest") (get "feed"))
  else if p.strategy = "PDF" then
    pyOrStr (get "latest") (pyOrStr (get "feed") (get "api"))
  else
    pyOrStr (get "feed") (pyOrStr (get "latest") (get "api"))

/-- Scan for the `://` scheme separator. -/
def afterSchemeSep : List Char → Option (List Char)
  | [] => none
  | ':' :: '/' :: '/' :: rest => some rest
  | _ :: rest => afterSchemeSep rest

/-- `(urlparse(url).hostname or "").lower()` (fetch.py:114): the netloc up to
`/?#`, with userinfo and port removed, lower-cased (ASCII model; IPv6
bracket notation is not modelled). -/
def urlHostname (url : String) : String :=
  match afterSchemeSep url.data with
  | none => ""
  | some rest =>
    let netloc := rest.takeWhile (fun c => !(c = '/' || c = '?' || c = '#'))
    let hostport := (netloc.reverse.takeWhile (fun c => c != '@')).reverse
    ⟨(hostport.takeWhile (fun c => c != ':')).map toLowerAscii⟩

/-- `_preflight_limits` (fetch.py:90-126) with Redis available: returns the
blocking error class (or `none`) and the updated counters.  A present
`cb:open` key is truthy whatever its value (Redis returns it as a non-empty
string). -/
def preflight_limits (p : SourceProfileM) (url : String) (r : RedisState)
    (bucket : String) : Option String × RedisState :=
  match p.id with
  | none => (some "MissingSourceId", r)
  | some pk =>
    if (r.get? (.cbOpen pk)).isSome then (some "CircuitOpen", r)
    else
      let (cnt, r1) := r.incr (.rlSource pk bucket)
      if p.limits.rate_limit_req_per_min < cnt then (some "RateLimited", r1)
      else
        let host := urlHostname url
        if host ≠ "" then
          let (cur, r2) := r1.incr (.conc host)
          if p.limits.concurrency_per_domain < cur then
            (some "DomainConcurrencyLimited", (r2.decr (.conc host)).2)
          else (none, r2)
        else (none, r1)

/-- `_release_domain_concurrency` (fetch.py:129-140). -/
def release_domain_concurrency (url : String) (r : RedisState) : RedisState :=
  let host := urlHostname url
  if host ≠ "" then (r.decr (.conc host)).2 else r

/-- One `fetch_attempts` row (models/fetch_attempt.py). -/
structure FetchAttemptRow where
  source_id : ℕ
  url : String
  status_code : ℤ
  error_class : Option String
  latency_ms : ℤ
  bytes : ℤ
  pool : String
  snapshot_hash : Option String
deriving DecidableEq, Repr

/-- One `snapshots` row (models/snapshot.py), reduced to the hash fields. -/
structure SnapshotRow where
  url : String
  content_hash : String
  snapshot_hash : String
deriving DecidableEq, Repr

/-- The fetch-side persistent state. -/
structure FetchDB where
  attempts : List FetchAttemptRow := []
  snapshots : List SnapshotRow := []
deriving DecidableEq, Repr

/-- Outcome of one fetch tick up to (and including) the preflight. -/
inductive FetchOutcome where
  | noUrl
  | ssrfBlocked
  | blocked (errorClass : String)
  | proceeded
deriving DecidableEq, Repr

/-- `_async_run_fetch` up to the preflight decision (fetch.py:221-259):
URL selection, SSRF guard (`is_ssrf_safe` resolves DNS, so it enters as the
oracle `ssrfSafe`), preflight, and — on a preflight block — the persisted
`FetchAttempt` with `status_code=0` and the error class, with no snapshot.
On `proceeded` the tick goes on to the HTTP fetch (outside this model) and
its `finally` releases the per-domain concurrency slot. -/
def fetch_tick (ssrfSafe : String → Bool) (p : SourceProfileM) (bucket : String)
    (r : RedisState) (db : FetchDB) : FetchOutcome × RedisState × FetchDB :=
  let urlOpt := select_fetch_url p
  if ¬ (pyTruthyStrOpt urlOpt = true) then (.noUrl, r, db)
  else
    let url := urlOpt.getD ""
    if ¬ (ssrfSafe url = true) then (.ssrfBlocked, r, db)
    else
      match preflight_limits p url r bucket with
      | (some err, r') =>
        let db' := match p.id with
          | some pk =>
            { db with attempts := db.attempts
                ++ [⟨pk, url, 0, some err, 0, 0, p.pool, none⟩] }
          | none => db
        (.blocked err, r', db')
      | (none, r') => (.proceeded, release_domain_concurrency url r', db)

/-- `k` consecutive fetch ticks in the same minute bucket. -/
def fetch_ticks (ssrfSafe : String → Bool) (p : SourceProfileM) (bucket : String) :
    ℕ → RedisState → FetchDB → List FetchOutcome × RedisState × FetchDB
  | 0, r, db => ([], r, db)
  | k + 1, r, db =>
    let (o, r', db') := fetch_tick ssrfSafe p bucket r db
    let (os, r'', db'') := fetch_ticks ssrfSafe p bucket k r' db'
    (o :: os, r'', db'')

/-- The rate-limit scenario profile of spec §8 (rate_per_min = 2). -/
def c6Profile : SourceProfileM :=
  { id := some 7, source_id := "gov-exemplo", strategy := "RSS", pool := "FAST_POOL",
    endpoints := [("feed", "https://exemplo.gov.br/feed")],
    limits := { rate_limit_req_per_min := 2, concurrency_per_domain := 1 } }

/-! ## Merge, split and organizer state
(`backend/app/merge_service.py`, `backend/app/split_service.py`,
`backend/app/workers/organizer.py`, `backend/app/event_state_service.py`)

`EventRow` (defined with the gating section) carries `summary`, `lane` and
`score_plantao`.  Those attributes are read and written throughout
`merge_service.py`, `split_service.py`, `organizer.py` and `main.py`, and the
specification's §3 lists them as Event attributes, but `models/event.py`
omits their column declarations — the row type here follows the services and
the specification. -/

/-- One `event_docs` row (models/event.py). -/
structure EventDocRow where
  event_id : ℕ
  doc_id : ℕ
  source_id : ℕ
  seen_at : Option ℤ := none
  is_primary : Bool := false
deriving DecidableEq, Repr

/-- One `event_state` history row (models/event.py). -/
structure EventStateRow where
  event_id : ℕ
  status : EventStatus
  status_reason : Option String := none
  updated_at : ℤ
deriving DecidableEq, Repr

/-- One `event_scores` row (models/score.py). -/
structure EventScoreRow where
  event_id : ℕ
  score_plantao : Option ℚ := none
  score_oceano_azul : Option ℚ := none
  reasons_json : Option String := none
deriving DecidableEq, Repr

/-- One `merge_audit` row (models/merge.py); the `evidence_json` dict is
split into the caller-supplied part and the `moved_docs`/`deduped_docs`
counters merged in by `merge_event_into`. -/
structure MergeAuditRow where
  from_event_id : ℕ
  to_event_id : ℕ
  reason_code : String
  evidence_extra : List (String × String) := []
  moved_docs : ℕ := 0
  deduped_docs : ℕ := 0
deriving DecidableEq, Repr

/-- The relational state the merge/split/organizer services touch. -/
structure DB where
  events : List EventRow := []
  event_docs : List EventDocRow := []
  event_states : List EventStateRow := []
  event_scores : List EventScoreRow := []
  merge_audits : List MergeAuditRow := []
deriving DecidableEq, Repr

/-- `select(Event).where(Event.id == eid)` — first matching row. -/
def findEvent (db : DB) (eid : ℕ) : Option EventRow :=
  db.events.find? (fun e => e.id == eid)

/-- Row mutation of the event with id `eid`. -/
def updateEvents (events : List EventRow) (eid : ℕ) (f : EventRow → EventRow) :
    List EventRow :=
  events.map (fun e => if e.id = eid then f e else e)

/-- `MergeResult` (merge_service.py:21-28). -/
structure MergeResult where
  merged : Bool
  from_event_id : ℕ
  to_event_id : ℕ
  moved_docs : ℕ := 0
  deduped_docs : ℕ := 0
  reason_code : String := "HARD_ANCHOR_MATCH"
deriving DecidableEq, Repr

/-- `transition_event_status` (event_state_service.py:39-69): update
`events.status`/`updated_at` and append one `event_state` row when the
status changes (or `force_history` is set). -/
def transition_event_status (db : DB) (eid : ℕ) (new_status : EventStatus)
    (status_reason : Option String) (force_history : Bool) (now : ℤ) : Bool × DB :=
  match findEvent db eid with
  | none => (false, db)
  | some e =>
    let changed := statusName e.status ≠ statusName new_status
    if ¬ changed ∧ ¬ force_history then (false, db)
    else
      (true,
       { db with
         events := updateEvents db.events eid
           (fun ev => { ev with status := new_status, updated_at := some now }),
         event_states := db.event_states ++ [⟨eid, new_status, status_reason, now⟩] })

/-- `ensure_event_has_initial_state` (event_state_service.py:72-91). -/
def ensure_event_has_initial_state (db : DB) (eid : ℕ) (now : ℤ) : DB :=
  if db.event_states.any (fun s => s.event_id == eid) then db
  else
    match findEvent db eid with
    | some e =>
      { db with event_states := db.event_states
          ++ [⟨eid, e.status, some "INITIAL_STATE_BACKFILL", now⟩] }
    | none => db

/-- Stable insertion into a sorted list: `x` goes before the first element
it compares `le` to, so earlier elements win ties (a stable sort, matching
Python's `list.sort` and the deterministic reading of SQL `ORDER BY`). -/
def insertSorted {α : Type} (le : α → α → Bool) (x : α) : List α → List α
  | [] => [x]
  | y :: ys => if le x y then x :: y :: ys else y :: insertSorted le x ys

/-- Stable insertion sort. -/
def stableSort {α : Type} (le : α → α → Bool) : List α → List α
  | [] => []
  | x :: xs => insertSorted le x (stableSort le xs)

/-- The `ORDER BY is_primary DESC, seen_at ASC` of merge_service.py:75
(`NULL` timestamps last, as in PostgreSQL ascending order). -/
def absorbedRelLE (a b : EventDocRow) : Bool :=
  if a.is_primary ≠ b.is_primary then a.is_primary
  else
    match a.seen_at, b.seen_at with
    | some x, some y => x ≤ y
    | some _, none => true
    | none, some _ => false
    | none, none => true

/-- The `ORDER BY seen_at ASC, doc_id ASC` of split_service.py:87. -/
def seenDocLE (a b : EventDocRow) : Bool :=
  match a.seen_at, b.seen_at with
  | some x, some y => if x = y then a.doc_id ≤ b.doc_id else x ≤ y
  | some _, none => true
  | none, some _ => false
  | none, none => a.doc_id ≤ b.doc_id

/-- Python `a or b` for dict payloads (`{}` is falsy). -/
def pyOrDict (a b : List (String × String)) : List (String × String) :=
  if a = [] then b else a

/-- `dict(c); merged.update(dict(a))`: `a`'s values win, `a`'s new keys are
appended. -/
def dictUpdate (c a : List (String × String)) : List (String × String) :=
  (c.map (fun p => match a.lookup p.1 with | some v => (p.1, v) | none => p))
    ++ a.filter (fun q => !((c.map Prod.fst).contains q.1))

/-- The accumulator of the `for rel in absorbed_rels` loop of
merge_service.py:85-105. -/
structure MergeLoopState where
  newRels : List EventDocRow := []
  canonicalDocIds : List ℕ
  canonicalHasPrimary : Bool
  promoted : Bool := false
  moved : ℕ := 0
  deduped : ℕ := 0
deriving Repr

/-- One iteration of the reassignment loop (merge_service.py:85-105):
duplicates are deleted and counted; moved rels are repointed, with primaries
demoted when the canonical event already has one, kept when it does not, and
a first non-primary promoted as fallback when neither side has one yet. -/
def mergeLoopStep (canonicalId : ℕ) (st : MergeLoopState) (rel : EventDocRow) :
    MergeLoopState :=
  if rel.doc_id ∈ st.canonicalDocIds then
    { st with deduped := st.deduped + 1 }
  else
    let was_primary := rel.is_primary
    if was_primary ∧ st.canonicalHasPrimary then
      { st with
        newRels := st.newRels ++ [{ rel with event_id := canonicalId, is_primary := false }],
        canonicalDocIds := st.canonicalDocIds ++ [rel.doc_id],
        moved := st.moved + 1 }
    else if was_primary ∧ ¬ st.canonicalHasPrimary then
      { st with
        newRels := st.newRels ++ [{ rel with event_id := canonicalId }],
        canonicalHasPrimary := true, promoted := true,
        canonicalDocIds := st.canonicalDocIds ++ [rel.doc_id],
        moved := st.moved + 1 }
    else if ¬ st.canonicalHasPrimary ∧ ¬ st.promoted then
      { st with
        newRels := st.newRels ++ [{ rel with event_id := canonicalId, is_primary := true }],
        canonicalHasPrimary := true, promoted := true,
        canonicalDocIds := st.canonicalDocIds ++ [rel.doc_id],
        moved := st.moved + 1 }
    else
      { st with
        newRels := st.newRels ++ [{ rel with event_id := canonicalId }],
        canonicalDocIds := st.canonicalDocIds ++ [rel.doc_id],
        moved := st.moved + 1 }

/-- The final accumulator of the reassignment loop
(merge_service.py:68-105). -/
def mergeLoopStateOf (db : DB) (absorbed canonical : EventRow) : MergeLoopState :=
  let canonical_rels := db.event_docs.filter (fun r => r.event_id == canonical.id)
  (stableSort absorbedRelLE
    (db.event_docs.filter (fun r => r.event_id == absorbed.id))).foldl
    (mergeLoopStep canonical.id)
    { canonicalDocIds := canonical_rels.map EventDocRow.doc_id,
      canonicalHasPrimary := canonical_rels.any EventDocRow.is_primary }

/-- Doc reassignment plus canonical-event timeline/summary/lane/flags/score
update (merge_service.py:68-136): rewrite the canonical `Event` row and
replace the two events' `event_docs` by the (possibly primary-promoted)
canonical relations followed by the repointed absorbed relations. -/
def mergeTimelineStep (db : DB) (absorbed canonical : EventRow)
    (now aLast : ℤ) : DB :=
  let canonical_rels := db.event_docs.filter (fun r => r.event_id == canonical.id)
  let st := mergeLoopStateOf db absorbed canonical
  let canonical_rels' :=
    if ¬ st.canonicalHasPrimary then
      match canonical_rels with
      | [] => []
      | r :: rs => { r with is_primary := true } :: rs
    else canonical_rels
  let newFirst : ℤ := min (canonical.first_seen_at.getD now) (absorbed.first_seen_at.getD now)
  let newLast : ℤ := max (canonical.last_seen_at.getD newFirst) aLast
  let mergedFlags := dictUpdate (canonical.flags_json.getD [])
    (absorbed.flags_json.getD [])
  { db with
    events := updateEvents db.events canonical.id (fun e =>
      { e with
        first_seen_at := some newFirst,
        last_seen_at := some newLast,
        updated_at := some now,
        summary := pyOrStr e.summary absorbed.summary,
        lane := pyOrStr e.lane absorbed.lane,
        flags_json := if mergedFlags = [] then none else some mergedFlags,
        score_plantao := some (max (e.score_plantao.getD 0)
          (absorbed.score_plantao.getD 0)) }),
    event_docs :=
      db.event_docs.filter (fun r =>
        !(r.event_id == canonical.id) && !(r.event_id == absorbed.id))
      ++ canonical_rels' ++ st.newRels }

/-- `EventScore` merge (merge_service.py:138-156): max the two scores onto
the canonical row, or copy the absorbed row over when the canonical event
has none. -/
def scoreMergeStep (db1 : DB) (canonicalId absorbedId : ℕ) : DB :=
  match db1.event_scores.find? (fun s => s.event_id == canonicalId),
        db1.event_scores.find? (fun s => s.event_id == absorbedId) with
  | some _, some asc =>
    { db1 with event_scores := db1.event_scores.map (fun s =>
        if s.event_id = canonicalId then
          { s with
            score_plantao := some (max (s.score_plantao.getD 0)
              (asc.score_plantao.getD 0)),
            score_oceano_azul := some (max (s.score_oceano_azul.getD 0)
              (asc.score_oceano_azul.getD 0)),
            reasons_json :=
              if ¬ pyTruthyStrOpt s.reasons_json = true
                  ∧ pyTruthyStrOpt asc.reasons_json = true then
                asc.reasons_json
              else s.reasons_json }
        else s) }
  | none, some asc =>
    { db1 with event_scores := db1.event_scores
        ++ [⟨canonicalId, some (asc.score_plantao.getD 0),
            some (asc.score_oceano_azul.getD 0), asc.reasons_json⟩] }
  | _, _ => db1

/-- Tombstone pointer (merge_service.py:158-159): set the absorbed event's
`canonical_event_id`. -/
def mergePointerStep (db2 : DB) (absorbedId canonicalId : ℕ) : DB :=
  { db2 with events := updateEvents db2.events absorbedId (fun e =>
      { e with canonical_event_id := some canonicalId }) }

/-- The success path of `merge_event_into` (merge_service.py:68-182), after
the identity/tombstone/duplicate-audit guards have passed and
`absorbed.last_seen_at or absorbed.first_seen_at` produced `aLast`:
reassign the docs, merge the timeline/summary/lane/flags/scores, tombstone
the absorbed event and append the audit row. -/
def mergeSuccess (db : DB) (absorbed canonical : EventRow) (rc sr : String)
    (ev : List (String × String)) (now aLast : ℤ) : MergeResult × DB :=
  let st := mergeLoopStateOf db absorbed canonical
  let db1 := mergeTimelineStep db absorbed canonical now aLast
  let db2 := scoreMergeStep db1 canonical.id absorbed.id
  let db3 := mergePointerStep db2 absorbed.id canonical.id
  let db4 := (transition_event_status db3 absorbed.id .MERGED
    (some sr) false now).2
  let db5 : DB :=
    { db4 with merge_audits := db4.merge_audits
        ++ [⟨absorbed.id, canonical.id, rc, ev, st.moved, st.deduped⟩] }
  ({ merged := true, from_event_id := absorbed.id, to_event_id := canonical.id,
     moved_docs := st.moved, deduped_docs := st.deduped, reason_code := rc }, db5)

/-- `merge_event_into` (merge_service.py:31-182).  Raised `ValueError` /
`TypeError` are the `.error` cases; `datetime.now(timezone.utc)` is `now`. -/
def merge_event_into (db : DB) (absorbedId canonicalId : ℕ) (reason_code : String)
    (status_reason : String) (evidence_extra : List (String × String)) (now : ℤ) :
    Except String (MergeResult × DB) :=
  match findEvent db absorbedId, findEvent db canonicalId with
  | some absorbed, some canonical =>
    if absorbed.id = canonical.id then
      .ok ({ merged := false, from_event_id := absorbed.id,
             to_event_id := canonical.id, reason_code := reason_code }, db)
    else if pyTruthyOptNat absorbed.canonical_event_id = true
        ∧ absorbed.canonical_event_id.getD 0 = canonical.id then
      .ok ({ merged := false, from_event_id := absorbed.id,
             to_event_id := canonical.id, reason_code := reason_code }, db)
    else if pyTruthyOptNat canonical.canonical_event_id = true then
      .error "ValueError: canonical target is already merged"
    else if db.merge_audits.any (fun a =>
        a.from_event_id == absorbed.id && a.to_event_id == canonical.id
          && a.reason_code == reason_code) then
      .ok ({ merged := false, from_event_id := absorbed.id,
             to_event_id := canonical.id, reason_code := reason_code }, db)
    else
      match absorbed.last_seen_at <|> absorbed.first_seen_at with
      | none => .error "TypeError: comparison of datetime and NoneType"
      | some aLast =>
        .ok (mergeSuccess db absorbed canonical reason_code status_reason
          evidence_extra now aLast)
  | _, _ => .error "EventNotFound"


/-- `SplitResult` (split_service.py:18-24). -/
structure SplitResult where
  split : Bool
  source_event_id : ℕ
  new_event_id : Option ℕ := none
  moved_docs : ℕ := 0
  remaining_docs : ℕ := 0
deriving DecidableEq, Repr

/-- `_normalize_doc_ids` (split_service.py:36-48): keep positive ints,
drop duplicates, preserve order. -/
def normalize_doc_ids (docIds : List ℤ) : List ℕ :=
  go [] docIds
where
  go (seen : List ℤ) : List ℤ → List ℕ
    | [] => []
    | v :: rest =>
      if v ≤ 0 ∨ v ∈ seen then go seen rest
      else v.toNat :: go (v :: seen) rest

/-- Demote every primary after the first (`_ensure_single_primary`'s
"primaries" branch, split_service.py:54-59). -/
def demoteExtraPrimaries : Bool → List EventDocRow → List EventDocRow
  | _, [] => []
  | seen, r :: rest =>
    if r.is_primary then
      (if seen then { r with is_primary := false } else r)
        :: demoteExtraPrimaries true rest
    else r :: demoteExtraPrimaries seen rest

/-- The `(seen_at or now, doc_id)` sort key of split_service.py:61. -/
def ensureKeyLE (now : ℤ) (a b : EventDocRow) : Bool :=
  if a.seen_at.getD now = b.seen_at.getD now then a.doc_id ≤ b.doc_id
  else a.seen_at.getD now ≤ b.seen_at.getD now

/-- `_ensure_single_primary` (split_service.py:51-62): keep the first
primary and demote the rest, or — when none is marked — promote the rel
that sorts first by `(seen_at or now, doc_id)`. -/
def ensure_single_primary (now : ℤ) (rels : List EventDocRow) : List EventDocRow :=
  if rels = [] then rels
  else if rels.any EventDocRow.is_primary then demoteExtraPrimaries false rels
  else
    match stableSort (ensureKeyLE now) rels with
    | [] => []
    | r :: rs => { r with is_primary := true } :: rs

/-- `min`/`max` over the present `seen_at` values with a default
(split_service.py:103-106). -/
def seenMinD (rels : List EventDocRow) (d : ℤ) : ℤ :=
  match rels.filterMap EventDocRow.seen_at with
  | [] => d
  | x :: xs => xs.foldl min x

def seenMaxD (rels : List EventDocRow) (d : ℤ) : ℤ :=
  match rels.filterMap EventDocRow.seen_at with
  | [] => d
  | x :: xs => xs.foldl max x

/-- The autoincrement id the database hands a freshly flushed event row:
strictly larger than every existing id. -/
def freshEventId (db : DB) : ℕ :=
  (db.events.map EventRow.id).foldl max 0 + 1

/-- `split_event_by_docs` (split_service.py:65-148).  `ValueError` is the
`.error` case. -/
def split_event_by_docs (db : DB) (sourceEventId : ℕ) (docIds : List ℤ)
    (newSummary newLane : Option String) (now : ℤ) :
    Except String (SplitResult × DB) :=
  match findEvent db sourceEventId with
  | none => .error "EventNotFound"
  | some source =>
    if pyTruthyOptNat source.canonical_event_id = true then
      .error "ValueError: source event is tombstoned"
    else if statusName source.status = "MERGED" then
      .error "ValueError: source event is already MERGED"
    else
      let target_doc_ids := normalize_doc_ids docIds
      if target_doc_ids = [] then .error "ValueError: SPLIT requires payload.doc_ids"
      else
        let all_rels := stableSort seenDocLE
          (db.event_docs.filter (fun r => r.event_id == source.id))
        if all_rels.length < 2 then
          .error "ValueError: cannot split an event with less than 2 docs"
        else
          let target_rels := all_rels.filter (fun r => target_doc_ids.contains r.doc_id)
          if target_rels = [] then
            .error "ValueError: none of payload.doc_ids belong to the source event"
          else if all_rels.length ≤ target_rels.length then
            .error "ValueError: SPLIT must leave at least one document in the source event"
          else
            let source_remaining := all_rels.filter
              (fun r => !(target_doc_ids.contains r.doc_id))
            let source_remaining' := ensure_single_primary now source_remaining
            let target_rels' := ensure_single_primary now target_rels
            let source_seen_min := seenMinD source_remaining' now
            let source_seen_max := seenMaxD source_remaining' source_seen_min
            let split_seen_min := seenMinD target_rels' now
            let split_seen_max := seenMaxD target_rels' split_seen_min
            let newId := freshEventId db
            let newEvent : EventRow :=
              { id := newId, status := .PARTIAL_ENRICH,
                summary := pyOrStr newSummary source.summary,
                lane := pyOrStr newLane source.lane,
                score_plantao := some 0,
                flags_json := if (source.flags_json.getD []) = [] then none
                  else some (source.flags_json.getD []),
                first_seen_at := some split_seen_min,
                last_seen_at := some split_seen_max }
            let db1 := { db with events := db.events ++ [newEvent] }
            let db2 := (transition_event_status db1 newId .PARTIAL_ENRICH
              (some "EDITORIAL_SPLIT_CREATED") true now).2
            let db3 := ensure_event_has_initial_state db2 source.id now
            let db4 := { db3 with events := updateEvents db3.events source.id (fun e =>
              { e with first_seen_at := some source_seen_min,
                       last_seen_at := some source_seen_max,
                       updated_at := some now }) }
            let db5 := (transition_event_status db4 source.id source.status
              (some "EDITORIAL_SPLIT_SOURCE_UPDATED") true now).2
            let db6 : DB :=
              { db5 with event_docs :=
                  db5.event_docs.filter (fun r => !(r.event_id == source.id))
                  ++ source_remaining'
                  ++ target_rels'.map (fun r => { r with event_id := newId }) }
            .ok ({ split := true, source_event_id := source.id,
                   new_event_id := some newId,
                   moved_docs := target_rels'.length,
                   remaining_docs := source_remaining'.length }, db6)

/-- The organizer's event-association step (organizer.py:276-334): link the
new document to the matched event with `is_primary = False`, or create a new
HYDRATING event (base score 40, 75 for tier 1) whose `EventDoc` is primary.
Returns the updated state and the event id the document was linked to. -/
def organizer_finalize (db : DB) (targetEventId : Option ℕ) (docId sourceId : ℕ)
    (lane : Option String) (title : Option String) (sourceDomain : String)
    (tier : ℤ) (now : ℤ) : DB × ℕ :=
  if pyTruthyOptNat targetEventId = true then
    let tid := targetEventId.getD 0
    let db1 :=
      match findEvent db tid with
      | some _ =>
        let dbU : DB :=
          { db with events := (updateEvents db.events tid
              (fun e => { e with last_seen_at := some now })) }
        ensure_event_has_initial_state dbU tid now
      | none => db
    ({ db1 with event_docs := db1.event_docs
        ++ [⟨tid, docId, sourceId, some now, false⟩] }, tid)
  else
    let newId := freshEventId db
    let p_score : ℚ := if tier = 1 then 75 else 40
    let ev : EventRow :=
      { id := newId, status := .HYDRATING, lane := lane,
        summary := pyOrStr title (some ("Novo sinal em " ++ sourceDomain)),
        score_plantao := some p_score,
        first_seen_at := some now, last_seen_at := some now }
    let db1 := { db with events := db.events ++ [ev] }
    let db2 := (transition_event_status db1 newId .HYDRATING
      (some "FAST_PATH_EVENT_CREATED") true now).2
    ({ db2 with event_docs := db2.event_docs
        ++ [⟨newId, docId, sourceId, some now, true⟩] }, newId)

/-- Number of primary `event_docs` rows of one event. -/
def primaryCount (db : DB) (eid : ℕ) : ℕ :=
  (db.event_docs.filter (fun r => r.event_id == eid && r.is_primary)).length

/-- The C2 invariant: at most one primary doc per event. -/
def singlePrimaryInv (db : DB) : Prop := ∀ eid, primaryCount db eid ≤ 1

/-- Referential integrity of `event_docs.event_id` (a foreign key). -/
def docsRefEvents (db : DB) : Prop :=
  ∀ r ∈ db.event_docs, ∃ e ∈ db.events, r.event_id = e.id


/-- Number of merge-audit rows with the given `(from, to, reason)`. -/
def auditCount (db : DB) (B A : ℕ) (rc : String) : ℕ :=
  (db.merge_audits.filter (fun a =>
    a.from_event_id == B && a.to_event_id == A && a.reason_code == rc)).length


def c1DB : DB :=
  { events :=
      [ { id := 1, status := .HOT, first_seen_at := some 10, last_seen_at := some 50 },
        { id := 2, status := .HOT, first_seen_at := some 20, last_seen_at := some 60 } ],
    event_docs :=
      [ ⟨1, 100, 7, some 10, true⟩, ⟨2, 200, 8, some 20, true⟩ ],
    event_states := [], event_scores := [], merge_audits := [] }

def c1Run : MergeResult × DB :=
  match merge_event_into c1DB 2 1 "HARD_ANCHOR_MATCH" "MERGED_INTO_CANONICAL" [] 100 with
  | .ok p => p
  | .error _ => ({ merged := false, from_event_id := 0, to_event_id := 0 }, c1DB)

def c2DB : DB :=
  { events :=
      [ { id := 1, status := .HOT, first_seen_at := some 10, last_seen_at := some 50 },
        { id := 2, status := .HOT, first_seen_at := some 20, last_seen_at := some 60 },
        { id := 3, status := .HOT, first_seen_at := some 30, last_seen_at := some 31 } ],
    event_docs :=
      [ ⟨1, 100, 7, some 10, true⟩, ⟨2, 200, 8, some 20, true⟩,
        ⟨3, 300, 9, some 30, true⟩, ⟨3, 301, 9, some 31, false⟩ ],
    event_states := [], event_scores := [], merge_audits := [] }

def c2Merge : MergeResult × DB :=
  match merge_event_into c2DB 2 1 "HARD_ANCHOR_MATCH" "MERGED_INTO_CANONICAL" [] 100 with
  | .ok p => p
  | .error _ => ({ merged := false, from_event_id := 0, to_event_id := 0 }, c2DB)

def c2Split : SplitResult × DB :=
  match split_event_by_docs c2DB 3 [301] none none 100 with
  | .ok p => p
  | .error _ => ({ split := false, source_event_id := 0 }, c2DB)

/-! ## Anchor-value normalization (`regex_pack.py:44-69`, `extract_anchors._normalize`)

Python strings are `List Char`; `str.strip` / `str.upper` / `str.lower` are the
ASCII models used throughout this file.  `float()` is modelled as the decimal
literal grammar (optional sign, digits with one optional dot, optional
exponent, surrounding whitespace); CPython additionally accepts
`inf`/`nan`/underscore separators and formats through binary doubles — those
inputs take the same two branches (`BRL:` on success, the stripped value on
failure), so they do not affect the idempotence question, and the digits
emitted by `fmt2` stand for the `f"{...:.2f}"` rendering. -/

/-- The twelve anchor types of `PATTERNS` plus the link anchors. -/
inductive AnchorType where
  | CNPJ | CPF | CNJ | SEI | TCU | PL | ATO | VALOR | DATA | HORA
  | LINK_GOV | PDF
deriving DecidableEq, Repr

/-- One pass of `re.sub(r"\s+", " ", ·)`: each maximal whitespace run becomes
one space; `inRun` records whether the previous character was whitespace. -/
def wsCollapseGo (inRun : Bool) : List Char → List Char
  | [] => []
  | c :: rest =>
    if pyIsSpace c then
      if inRun then wsCollapseGo true rest
      else ' ' :: wsCollapseGo true rest
    else c :: wsCollapseGo false rest

def wsCollapse (l : List Char) : List Char := wsCollapseGo false l

/-- `value.replace("R$", "")` — left-to-right, non-overlapping. -/
def removeRS : List Char → List Char
  | [] => []
  | [c] => [c]
  | a :: b :: rest =>
    if a = 'R' ∧ b = '$' then removeRS rest
    else a :: removeRS (b :: rest)

/-- `·.replace(".", "")`. -/
def dropDots (l : List Char) : List Char := l.filter (fun c => !(c == '.'))

/-- `·.replace(",", ".")`. -/
def commaToDot (l : List Char) : List Char :=
  l.map (fun c => if c = ',' then '.' else c)

/-- `value.rstrip(".,;)]}>")`'s character set. -/
def punctSet : List Char := ['.', ',', ';', ')', ']', '}', '>']

/-- Python `str.rstrip(chars)`. -/
def rstripSet (set : List Char) (l : List Char) : List Char :=
  (l.reverse.dropWhile (fun c => set.contains c)).reverse

/-- Digit run → number (`int(...)` on a digit string). -/
def digitsToNat (l : List Char) : ℕ :=
  l.foldl (fun n c => 10 * n + (c.toNat - 48)) 0

def digitChar (d : ℕ) : Char := Char.ofNat (48 + d)

def pad2 (n : ℕ) : List Char := [digitChar (n / 10 % 10), digitChar (n % 10)]

def pad4 (n : ℕ) : List Char :=
  [digitChar (n / 1000 % 10), digitChar (n / 100 % 10),
   digitChar (n / 10 % 10), digitChar (n % 10)]

def natDigitsGo : ℕ → ℕ → List Char
  | 0, _ => []
  | fuel + 1, n =>
    if n < 10 then [digitChar n]
    else natDigitsGo fuel (n / 10) ++ [digitChar (n % 10)]

/-- Decimal rendering of a natural number. -/
def natToDigits (n : ℕ) : List Char := natDigitsGo (n + 1) n

/-- Gregorian leap year (`datetime`'s calendar). -/
def isLeap (y : ℕ) : Prop := (y % 4 = 0 ∧ y % 100 ≠ 0) ∨ y % 400 = 0

instance (y : ℕ) : Decidable (isLeap y) := by unfold isLeap; infer_instance

def daysInMonth (y mo : ℕ) : ℕ :=
  if mo = 2 then (if isLeap y then 29 else 28)
  else if mo = 4 ∨ mo = 6 ∨ mo = 9 ∨ mo = 11 then 30
  else 31

/-- `re.match(r"^(\d{1,2})/(\d{1,2})/(\d{2,4})$", value)`, returning
`(day, month, year)`. -/
def parseDate (l : List Char) : Option (ℕ × ℕ × ℕ) :=
  let d1 := l.takeWhile Char.isDigit
  match l.dropWhile Char.isDigit with
  | '/' :: r2 =>
    let d2 := r2.takeWhile Char.isDigit
    match r2.dropWhile Char.isDigit with
    | '/' :: r4 =>
      let d3 := r4.takeWhile Char.isDigit
      if r4.dropWhile Char.isDigit = [] ∧ 1 ≤ d1.length ∧ d1.length ≤ 2
          ∧ 1 ≤ d2.length ∧ d2.length ≤ 2 ∧ 2 ≤ d3.length ∧ d3.length ≤ 4 then
        some (digitsToNat d1, digitsToNat d2, digitsToNat d3)
      else none
    | _ => none
  | _ => none

/-- `datetime(...).strftime("%Y-%m-%d")` (zero-padded). -/
def fmtDate (y mo d : ℕ) : List Char :=
  pad4 y ++ '-' :: (pad2 mo ++ '-' :: pad2 d)

/-- Python `float()` on the cleaned VALOR string: optional surrounding
whitespace, optional sign, digits with at most one dot (at least one digit),
optional exponent. -/
def parseFloat (l : List Char) : Option ℚ :=
  let t := pyStrip l
  let st : ℚ × List Char :=
    match t with
    | '-' :: r => (-1, r)
    | '+' :: r => (1, r)
    | r => (1, r)
  let ip := st.2.takeWhile Char.isDigit
  let r1 := st.2.dropWhile Char.isDigit
  let fpr : List Char × List Char :=
    match r1 with
    | '.' :: r => (r.takeWhile Char.isDigit, r.dropWhile Char.isDigit)
    | r => ([], r)
  if ip.length + fpr.1.length = 0 then none
  else
    let mant : ℚ := (digitsToNat (ip ++ fpr.1) : ℚ) / (10 : ℚ) ^ fpr.1.length
    match fpr.2 with
    | [] => some (st.1 * mant)
    | 'e' :: r3 =>
      parseExp (st.1 * mant) r3
    | 'E' :: r3 =>
      parseExp (st.1 * mant) r3
    | _ => none
where
  parseExp (m : ℚ) (r3 : List Char) : Option ℚ :=
    let esr : Bool × List Char :=
      match r3 with
      | '-' :: r => (true, r)
      | '+' :: r => (false, r)
      | r => (false, r)
    let ed := esr.2.takeWhile Char.isDigit
    if ed = [] ∨ esr.2.dropWhile Char.isDigit ≠ [] then none
    else some (m * (if esr.1 then (1 / 10 : ℚ) else 10) ^ digitsToNat ed)

/-- Round to the nearest integer, ties to even (the rounding of `:.2f`). -/
def roundHalfEven (q : ℚ) : ℤ :=
  let f := ⌊q⌋
  if q - f < 1 / 2 then f
  else if q - f > 1 / 2 then f + 1
  else if f % 2 = 0 then f else f + 1

/-- `f"{x:.2f}"` (decimal idealization; see the section docstring). -/
def fmt2 (q : ℚ) : List Char :=
  let c := roundHalfEven (q * 100)
  (if c < 0 then ['-'] else []) ++ natToDigits (c.natAbs / 100)
    ++ '.' :: pad2 (c.natAbs % 100)

/-- `extract_anchors._normalize` (regex_pack.py:44-69). -/
def normalizeAnchor (t : AnchorType) (raw : List Char) : List Char :=
  let value := pyStrip raw
  match t with
  | .CNPJ | .CPF => value.filter Char.isDigit
  | .VALOR =>
    let cleaned := commaToDot (dropDots (pyStrip (removeRS
      (value.map toUpperAscii))))
    match parseFloat cleaned with
    | some q => 'B' :: 'R' :: 'L' :: ':' :: fmt2 q
    | none => value
  | .DATA =>
    match parseDate value with
    | some (d, mo, y) =>
      let year := if y < 100 then y + 2000 else y
      if 1 ≤ mo ∧ mo ≤ 12 ∧ 1 ≤ d ∧ d ≤ daysInMonth year mo then
        fmtDate year mo d
      else value
    | none => value
  | .PL | .ATO | .TCU => pyStrip (wsCollapse (value.map toUpperAscii))
  | .LINK_GOV | .PDF => (rstripSet punctSet value).map toLowerAscii
  | .CNJ | .SEI | .HORA => value


/-- Python `str.rstrip()` (whitespace). -/
def rstripWs (l : List Char) : List Char :=
  (l.reverse.dropWhile pyIsSpace).reverse

/-- No whitespace anywhere in the string. -/
def noWs (l : List Char) : Prop := ∀ c ∈ l, pyIsSpace c = false

instance (l : List Char) : Decidable (noWs l) := by unfold noWs; infer_instance

/-- All whitespace in `l` is a plain space. -/
def wsOnlySpace (l : List Char) : Prop := ∀ c ∈ l, pyIsSpace c = true → c = ' '

/-- No two adjacent whitespace characters. -/
def noWsRun (l : List Char) : Prop :=
  l.Chain' (fun a b => ¬(pyIsSpace a = true ∧ pyIsSpace b = true))

lemma lookup_getD_pos (d : ℚ) (hd : 0 < d) :
    ∀ (l : List (String × ℚ)), (∀ p ∈ l, 0 < p.2) → ∀ t : String,
      0 < ((l.lookup t).getD d)
  | [], _, _ => by simpa using hd
  | p :: rest, h, t => by
    simp only [List.lookup]
    split
    · exact h p (List.mem_cons_self p rest)
    · exact lookup_getD_pos d hd rest (fun q hq => h q (List.mem_cons_of_mem p hq)) t

lemma codeWeight_pos (t : String) : 0 < codeWeight t := by
  unfold codeWeight
  refine lookup_getD_pos (1/10) (by norm_num) codeWeights ?_ t
  intro p hp
  simp only [codeWeights, List.mem_cons, List.not_mem_nil, or_false] at hp
  rcases hp with h | h | h | h | h | h | h | h | h | h | h | h <;> subst h <;> norm_num

lemma codeWeight_eq_specWeight {t : String} (h : t ∈ specListedTypes) :
    codeWeight t = specWeight t := by
  simp only [specListedTypes, List.mem_cons, List.not_mem_nil, or_false] at h
  rcases h with h | h | h | h | h | h | h | h | h | h | h <;> subst h <;>
    simp [codeWeight, codeWeights, specWeight, List.lookup]

lemma evidenceFold_eq_sum (anchors : List Anchor) :
    ∀ (seen : List String) (score : ℚ),
      (∀ a ∈ anchors, a.atype ∈ specListedTypes) →
      (evidenceFold anchors score seen).1
        = score + sumSpecWeights (dedupByValueFrom seen anchors) := by
  induction anchors with
  | nil => intro seen score _; simp [evidenceFold, dedupByValueFrom, sumSpecWeights]
  | cons a rest ih =>
    intro seen score htypes
    have ha : a.atype ∈ specListedTypes := htypes a (List.mem_cons_self a rest)
    have hrest : ∀ x ∈ rest, x.atype ∈ specListedTypes :=
      fun x hx => htypes x (List.mem_cons_of_mem a hx)
    by_cases hmem : a.value ∈ seen
    · simp only [evidenceFold, dedupByValueFrom, if_pos hmem]
      exact ih seen score hrest
    · simp only [evidenceFold, dedupByValueFrom, if_neg hmem]
      rw [ih (a.value :: seen) (score + codeWeight a.atype) hrest]
      simp only [sumSpecWeights, List.map_cons, List.sum_cons,
        codeWeight_eq_specWeight ha]
      ring

lemma evidenceFold_append_le (l : List Anchor) (a : Anchor) :
    ∀ (seen : List String) (score : ℚ),
      (evidenceFold l score seen).1 ≤ (evidenceFold (l ++ [a]) score seen).1 := by
  induction l with
  | nil =>
    intro seen score
    simp only [List.nil_append, evidenceFold]
    split
    · exact le_refl _
    · simpa [evidenceFold] using le_of_lt (by linarith [codeWeight_pos a.atype])
  | cons b rest ih =>
    intro seen score
    simp only [List.cons_append, evidenceFold]
    split
    · exact ih _ _
    · exact ih _ _

/-- **C5.** `compute_evidence_score` equals, on anchor lists whose types all
appear in the specification's weight table, the spec-weighted sum over the
first anchor of each distinct value, capped at 15; appending a further anchor
whose value is new never decreases the score; and the function is
deterministic (equal inputs give equal scores). -/
theorem evidence_score_spec_sum_monotone_deterministic
    (l : List Anchor)
    (htypes : ∀ a ∈ l, a.atype ∈ specListedTypes) :
    compute_evidence_score l = min (sumSpecWeights (dedupByValue l)) 15
    ∧ (∀ a : Anchor, a.value ∉ l.map Anchor.value →
        compute_evidence_score l ≤ compute_evidence_score (l ++ [a]))
    ∧ (∀ l' : List Anchor, l = l' → compute_evidence_score l = compute_evidence_score l') := by
  refine ⟨?_, ?_, ?_⟩
  · unfold compute_evidence_score dedupByValue
    rw [evidenceFold_eq_sum l [] 0 htypes]
    ring_nf
  · intro a _
    unfold compute_evidence_score
    exact min_le_min (evidenceFold_append_le l a [] 0) (le_refl 15)
  · intro l' h; rw [h]

/-- Witness for C5 at a concrete anchor list: a CNJ anchor, a duplicate-valued
CNPJ anchor and a VALOR anchor score `2 + 1/2` (the duplicate is not
re-counted), and appending a fresh DATA anchor does not decrease the score. -/
theorem evidence_score_spec_sum_monotone_deterministic_witness :
    compute_evidence_score
        [⟨"CNJ", "0001", ""⟩, ⟨"CNPJ", "0001", ""⟩, ⟨"VALOR", "BRL:2.00", ""⟩]
      = min (sumSpecWeights (dedupByValue
        [⟨"CNJ", "0001", ""⟩, ⟨"CNPJ", "0001", ""⟩, ⟨"VALOR", "BRL:2.00", ""⟩])) 15
    ∧ compute_evidence_score
        [⟨"CNJ", "0001", ""⟩, ⟨"CNPJ", "0001", ""⟩, ⟨"VALOR", "BRL:2.00", ""⟩]
      ≤ compute_evidence_score
        ([⟨"CNJ", "0001", ""⟩, ⟨"CNPJ", "0001", ""⟩, ⟨"VALOR", "BRL:2.00", ""⟩]
          ++ [⟨"DATA", "2025-01-02", ""⟩]) := by
  have h := evidence_score_spec_sum_monotone_deterministic
    [⟨"CNJ", "0001", ""⟩, ⟨"CNPJ", "0001", ""⟩, ⟨"VALOR", "BRL:2.00", ""⟩]
    (by decide)
  exact ⟨h.1, h.2.1 ⟨"DATA", "2025-01-02", ""⟩ (by decide)⟩

/-! ## SimHash engine (`backend/app/core/similarity.py`)

Python strings are modelled as `List Char`.  The similarity module's
normalisation (`normalize_text`) lowercases, applies NFKD + combining-mark
removal (the identity on ASCII text, which is how it is modelled here),
replaces runs of characters outside `[a-z0-9]` by a single space and strips.
Features are hashed with `hashlib.blake2b(·, digest_size=8)`, which is
implemented below bit-for-bit (RFC 7693) on `Nat` with explicit `% 2^64`. -/

lemma length_dropWhile_le {α : Type} (p : α → Bool) (l : List α) :
    (l.dropWhile p).length ≤ l.length :=
  (List.dropWhile_sublist p).length_le

set_option maxRecDepth 20000 in
/-- Literal form of `exSpecFeats`: 22 copies of the shingle `abc abc abc`,
the shingle `abc abc bcd`, then 24 copies of the unigram `abc`. -/
lemma exSpecFeats_eq :
    exSpecFeats
      = ["abc abc abc".data, "abc abc abc".data, "abc abc abc".data, "abc abc abc".data,
     "abc abc abc".data, "abc abc abc".data, "abc abc abc".data, "abc abc abc".data,
     "abc abc abc".data, "abc abc abc".data, "abc abc abc".data, "abc abc abc".data,
     "abc abc abc".data, "abc abc abc".data, "abc abc abc".data, "abc abc abc".data,
     "abc abc abc".data, "abc abc abc".data, "abc abc abc".data, "abc abc abc".data,
     "abc abc abc".data, "abc abc abc".data, "abc abc bcd".data, "abc".data,
     "abc".data, "abc".data, "abc".data, "abc".data,
     "abc".data, "abc".data, "abc".data, "abc".data,
     "abc".data, "abc".data, "abc".data, "abc".data,
     "abc".data, "abc".data, "abc".data, "abc".data,
     "abc".data, "abc".data, "abc".data, "abc".data,
     "abc".data, "abc".data, "abc".data] := by
  decide

set_option maxRecDepth 20000 in
/-- Digest of the shingle `abc abc abc`, one blake2b evaluation in the kernel. -/
lemma exHashS1 : simhashHash "abc abc abc".data = 12866433675420603327 := by decide

set_option maxRecDepth 20000 in
/-- Digest of the shingle `abc abc bcd`, one blake2b evaluation in the kernel. -/
lemma exHashS2 : simhashHash "abc abc bcd".data = 15111697719227424698 := by decide

set_option maxRecDepth 20000 in
/-- Digest of the unigram `abc`, one blake2b evaluation in the kernel. -/
lemma exHashA : simhashHash "abc".data = 15617099051652453721 := by decide

set_option maxRecDepth 20000 in
/-- Digest of the unigram `bcd` (the 25th token, which `tokens[:24]` drops and
`tokens[:30]` keeps), one blake2b evaluation in the kernel. -/
lemma exHashB : simhashHash "bcd".data = 10620981063194242077 := by decide

set_option maxRecDepth 20000 in
set_option maxHeartbeats 1000000 in
/-- The vote vector over the 47 spec features, assembled from the four digest
lemmas so that no blake2b evaluation is repeated. -/
lemma exSpecFeats_vote :
    exSpecFeats.foldl (fun v f => updVote v (simhashHash f) 0) (List.replicate 64 0)
      = exSpecVoteVec := by
  rw [exSpecFeats_eq]
  simp only [List.foldl_cons, List.foldl_nil, exHashS1, exHashS2, exHashA]
  decide

set_option maxRecDepth 200000 in
/-- The code feature list of `exText` is the spec feature list plus the 25th
unigram `bcd`. -/
lemma ex_build_features : build_features exText = exSpecFeats ++ ["bcd".data] := by
  decide

/-- Fingerprint bits of the code vote vector (spec votes plus one `bcd` vote). -/
lemma ex_code_bits :
    bitsOfVotes (updVote exSpecVoteVec (simhashHash "bcd".data) 0) 0
      = 15618224951693514073 := by
  rw [exHashB]; decide

/-- Fingerprint bits of the spec vote vector. -/
lemma ex_spec_bits : bitsOfVotes exSpecVoteVec 0 = 15617099051652453721 := by
  decide

/-- **C4, counterexample.**  On `exText` (25 tokens: 24 copies of `abc`
followed by `bcd`), the fingerprint computed by `compute_simhash64` — whose
unigram part is `tokens[:30]` — differs from the fingerprint built over the
feature set the specification describes (3-shingles plus the first at most
**24** unigrams), so the claim is false as stated. -/
theorem simhash_spec24_counterexample :
    compute_simhash64 exText ≠ specSimhash64 exText := by
  have hcode : compute_simhash64 exText = some 15618224951693514073 := by
    show (if build_features exText = [] then none
      else some (simhashVote (build_features exText))) = _
    rw [ex_build_features]
    rw [if_neg (by simp)]
    unfold simhashVote
    rw [List.foldl_append, exSpecFeats_vote]
    simp only [List.foldl_cons, List.foldl_nil]
    rw [ex_code_bits]
  have hspec : specSimhash64 exText = some 15617099051652453721 := by
    unfold specSimhash64
    rw [if_neg (by decide)]
    show some (simhashVote exSpecFeats) = _
    unfold simhashVote
    rw [exSpecFeats_vote, ex_spec_bits]
  rw [hcode, hspec]
  simp

/-- **C4, amended.**  The fingerprint is computed by per-bit voting over the
3-token shingles of the normalised, stop-word-filtered tokens plus the first
at most **30** unigrams (`tokens[:30]`, not the specification's 24), each
feature hashed with the stable 64-bit blake2b digest; and the same normalised
text always yields the same fingerprint. -/
theorem simhash_features_take30_stability :
    (∀ text : List Char,
      compute_simhash64 text =
        if simTokens text = [] then none
        else some (simhashVote (shingles3 (simTokens text) ++ (simTokens text).take 30)))
    ∧ (∀ s t : List Char, normalize_text s = normalize_text t →
        compute_simhash64 s = compute_simhash64 t) := by
  constructor
  · intro text
    show (if build_features text = [] then none
      else some (simhashVote (build_features text))) = _
    unfold build_features featuresOfNorm
    by_cases hn : normalize_text text = []
    · rw [if_pos hn]
      have ht : simTokens text = [] := by
        unfold simTokens
        rw [hn]
        rfl
      simp [ht]
    · rw [if_neg hn]
      have htok : simTokens text
          = (pySplit (normalize_text text)).filter
              (fun t => 3 ≤ t.length && !(SIMHASH_STOPWORDS.contains t)) := rfl
      by_cases ht : simTokens text = []
      · rw [← htok, ht]
        simp
      · rw [← htok, if_neg ht]
        have hne : shingles3 (simTokens text) ++ (simTokens text).take 30 ≠ [] := by
          intro hx
          rcases List.append_eq_nil.mp hx with ⟨-, h2⟩
          cases htoks : simTokens text with
          | nil => exact ht htoks
          | cons a rest => rw [htoks] at h2; simp [List.take] at h2
        rw [if_neg hne, if_neg ht]
  · intro s t h
    show (if build_features s = [] then none else some (simhashVote (build_features s)))
      = (if build_features t = [] then none else some (simhashVote (build_features t)))
    unfold build_features
    rw [h]

/-- Witness for the stability half of the amended C4 theorem: two texts that
normalise identically receive identical fingerprints. -/
theorem simhash_features_take30_stability_witness :
    normalize_text "Abc, Def!".data = normalize_text " abc  def ".data
    ∧ compute_simhash64 "Abc, Def!".data = compute_simhash64 " abc  def ".data :=
  ⟨by decide, simhash_features_take30_stability.2 _ _ (by decide)⟩

/-- **C10.**  A text whose normalisation yields no usable token gets no
fingerprint (`None`); `hamming_distance64` is 64 as soon as either side is
`None`; `is_near_duplicate` is false as soon as either side is `None`; and
the organizer's SimHash linkage step leaves its target untouched when the
document has no fingerprint. -/
theorem simhash_none_no_tokens_never_matched :
    (∀ text : List Char, simTokens text = [] → compute_simhash64 text = none)
    ∧ (∀ b : Option Nat, hamming_distance64 none b = 64 ∧ hamming_distance64 b none = 64)
    ∧ (∀ b : Option Nat, is_near_duplicate none b = false ∧ is_near_duplicate b none = false)
    ∧ (∀ (target : Option Nat) (cands : List (Nat × Option Nat))
        (eventOfDoc : Nat → Option Nat),
        linkageStep3 target none cands eventOfDoc = target) := by
  refine ⟨?_, ?_, ?_, ?_⟩
  · intro text ht
    show (if build_features text = [] then none
      else some (simhashVote (build_features text))) = _
    unfold build_features featuresOfNorm
    by_cases hn : normalize_text text = []
    · rw [if_pos hn]
      simp
    · rw [if_neg hn]
      have htok : simTokens text
          = (pySplit (normalize_text text)).filter
              (fun t => 3 ≤ t.length && !(SIMHASH_STOPWORDS.contains t)) := rfl
      rw [← htok, if_pos ht]
      simp
  · intro b
    cases b <;> exact ⟨rfl, rfl⟩
  · intro b
    cases b <;> exact ⟨rfl, rfl⟩
  · intro target cands eventOfDoc
    unfold linkageStep3
    by_cases h : pyTruthyOptNat target
    · rw [if_pos h]
    · rw [if_neg h]
      rfl

/-- Witness for C10 at the text `"de a"` (one too-short token, one stop
word): no token survives and no fingerprint is produced. -/
theorem simhash_none_no_tokens_never_matched_witness :
    simTokens "de a".data = [] ∧ compute_simhash64 "de a".data = none :=
  ⟨by decide, simhash_none_no_tokens_never_matched.1 _ (by decide)⟩

/-- **C9, counterexample.**  A history of five recent HTTP-200 entries with
zero anchors plus one recent HTTP-404 entry (no historical entries) makes
`check_starvation` report starvation although not all recent entries have
status 200, refuting the claim's "all of the recent entries have HTTP
status 200" condition. -/
theorem starvation_counterexample :
    check_starvation
        [⟨0, 12, 1, 0, 200⟩, ⟨0, 12, 1, 0, 200⟩, ⟨0, 12, 1, 0, 200⟩,
         ⟨0, 12, 1, 0, 200⟩, ⟨0, 12, 1, 0, 200⟩, ⟨0, 12, 1, 0, 404⟩]
        ⟨0, 12, 1⟩ 60 none = true
    ∧ ¬ (∀ r ∈ recentOf
        [⟨0, 12, 1, 0, 200⟩, ⟨0, 12, 1, 0, 200⟩, ⟨0, 12, 1, 0, 200⟩,
         ⟨0, 12, 1, 0, 200⟩, ⟨0, 12, 1, 0, 200⟩, ⟨0, 12, 1, 0, 404⟩]
        ⟨0, 12, 1⟩ 60, r.status = 200) := by
  constructor
  · decide
  · decide

/-- **C9, amended.**  `check_starvation` reports starvation only when there
are at least 5 recent entries *of which at least 5 have HTTP status 200*
(non-200 recent entries are ignored, not forbidden); under those gates, when
fewer than 10 historical 200-entries exist it reports starvation exactly when
all recent 200-entries have zero anchors; and otherwise, with no calendar
profile, it reports a rolling collapse exactly when
`recent_avg ≤ 0.1 ∧ historical_avg ≥ 1.0`. -/
theorem starvation_gates_fallback_rolling
    (history : List YieldPoint) (now : NowInfo) (windowMins : ℤ)
    (calendarProfile : Option String) :
    (check_starvation history now windowMins calendarProfile = true →
      5 ≤ (recentOf history now windowMins).length
      ∧ 5 ≤ (recent200Of history now windowMins).length)
    ∧ ((hist200Of history now windowMins).length < 10 →
        5 ≤ (recentOf history now windowMins).length →
        5 ≤ (recent200Of history now windowMins).length →
        (check_starvation history now windowMins calendarProfile = true
          ↔ ∀ r ∈ recent200Of history now windowMins, r.anchors = 0))
    ∧ (10 ≤ (hist200Of history now windowMins).length →
        calendarProfile = none →
        5 ≤ (recentOf history now windowMins).length →
        5 ≤ (recent200Of history now windowMins).length →
        (check_starvation history now windowMins calendarProfile = true
          ↔ recentAvgOf history now windowMins ≤ 1/10
            ∧ 1 ≤ histAvgOf history now windowMins)) := by
  refine ⟨?_, ?_, ?_⟩
  · intro hc
    unfold check_starvation at hc
    by_cases hemp : history.isEmpty
    · rw [if_pos hemp] at hc; exact absurd hc (by simp)
    · rw [if_neg hemp] at hc
      by_cases h5 : (recentOf history now windowMins).length < 5
      · rw [if_pos h5] at hc; exact absurd hc (by simp)
      · rw [if_neg h5] at hc
        by_cases h5' : (recent200Of history now windowMins).length < 5
        · rw [if_pos h5'] at hc; exact absurd hc (by simp)
        · exact ⟨Nat.le_of_not_lt h5, Nat.le_of_not_lt h5'⟩
  · intro hh h5 h5'
    have hemp : ¬ history.isEmpty := by
      intro hx
      rw [List.isEmpty_iff.mp hx] at h5
      simp [recentOf] at h5
    unfold check_starvation
    rw [if_neg hemp, if_neg (Nat.not_lt.mpr h5), if_neg (Nat.not_lt.mpr h5'),
      if_pos hh]
    simp [List.all_eq_true]
  · intro hh hcal h5 h5'
    subst hcal
    have hemp : ¬ history.isEmpty := by
      intro hx
      rw [List.isEmpty_iff.mp hx] at h5
      simp [recentOf] at h5
    unfold check_starvation
    rw [if_neg hemp, if_neg (Nat.not_lt.mpr h5), if_neg (Nat.not_lt.mpr h5'),
      if_neg (Nat.not_lt.mpr hh)]
    by_cases hroll : recentAvgOf history now windowMins ≤ 1/10
        ∧ 1 ≤ histAvgOf history now windowMins
    · rw [if_pos hroll]
      exact ⟨fun _ => hroll, fun _ => rfl⟩
    · rw [if_neg hroll]
      exact ⟨fun h => absurd h (by simp), fun hp => absurd hp hroll⟩

/-- Witness for the amended C9 theorem on the counterexample history: the
fallback branch (fewer than 10 historical 200-entries) fires and reports
starvation because every recent 200-entry has zero anchors. -/
theorem starvation_gates_fallback_rolling_witness :
    (hist200Of
        [⟨0, 12, 1, 0, 200⟩, ⟨0, 12, 1, 0, 200⟩, ⟨0, 12, 1, 0, 200⟩,
         ⟨0, 12, 1, 0, 200⟩, ⟨0, 12, 1, 0, 200⟩, ⟨0, 12, 1, 0, 404⟩]
        ⟨0, 12, 1⟩ 60).length < 10
    ∧ (check_starvation
        [⟨0, 12, 1, 0, 200⟩, ⟨0, 12, 1, 0, 200⟩, ⟨0, 12, 1, 0, 200⟩,
         ⟨0, 12, 1, 0, 200⟩, ⟨0, 12, 1, 0, 200⟩, ⟨0, 12, 1, 0, 404⟩]
        ⟨0, 12, 1⟩ 60 none = true
      ↔ ∀ r ∈ recent200Of
        [⟨0, 12, 1, 0, 200⟩, ⟨0, 12, 1, 0, 200⟩, ⟨0, 12, 1, 0, 200⟩,
         ⟨0, 12, 1, 0, 200⟩, ⟨0, 12, 1, 0, 200⟩, ⟨0, 12, 1, 0, 404⟩]
        ⟨0, 12, 1⟩ 60, r.anchors = 0) :=
  ⟨by decide,
    (starvation_gates_fallback_rolling _ _ _ none).2.1 (by decide) (by decide) (by decide)⟩

lemma mem_ite_singleton {c : Prop} [Decidable c] {a b : String} :
    (a ∈ (if c then [b] else [])) ↔ (c ∧ a = b) := by
  split <;> simp_all

/-- **C3, counterexample.**  At tier 3, velocity 0, diversity 4, impact
signal 5.555, no trust penalty and age 0, the claimed closed-form value is
22.444 but `calculate_plantao_score` returns `round(·, 2) = 22.44`: the
returned score is the formula rounded to two decimals, not the formula
itself. -/
theorem plantao_rounding_counterexample :
    (calculate_plantao_score 3 0 4 0 0 5.555 0 10).score
      ≠ (10 + (4 - 3) * 2 + Real.log (1 + 0) * 5 + Real.sqrt 4 * 3
          + max 0 (min 10 (5.555 : ℝ)) * 0.8 - max 0 (min 20 (0 : ℝ)))
        * Real.exp (-(((0 : ℝ) - 0) / 3600 / 2)) := by
  have hsqrt : Real.sqrt 4 = 2 := by
    rw [show (4 : ℝ) = 2 ^ 2 by norm_num, Real.sqrt_sq (by norm_num : (0 : ℝ) ≤ 2)]
  have hmin : min (10 : ℝ) 5.555 = 5.555 := min_eq_right (by norm_num)
  have hmax : max (0 : ℝ) 5.555 = 5.555 := max_eq_right (by norm_num)
  have hmin2 : min (20 : ℝ) 0 = 0 := min_eq_right (by norm_num)
  have hmax2 : max (0 : ℝ) (0 : ℝ) = 0 := max_self 0
  have hrhs : (10 + (4 - 3) * 2 + Real.log (1 + 0) * 5 + Real.sqrt 4 * 3
          + max 0 (min 10 (5.555 : ℝ)) * 0.8 - max 0 (min 20 (0 : ℝ)))
        * Real.exp (-(((0 : ℝ) - 0) / 3600 / 2)) = 22.444 := by
    rw [hsqrt, hmin, hmax, hmin2, hmax2,
      show (1 : ℝ) + 0 = 1 by norm_num, Real.log_one,
      show -(((0 : ℝ) - 0) / 3600 / 2) = 0 by norm_num, Real.exp_zero]
    norm_num
  have hlhs : (calculate_plantao_score 3 0 4 0 0 5.555 0 10).score = 22.44 := by
    show pyRound2 _ = _
    rw [show (1 : ℝ) + 0 = 1 from by norm_num] at *
    unfold pyRound2
    rw [hsqrt, hmin, hmax, hmin2, hmax2, Real.log_one,
      show -(((0 : ℝ) - 0) / 3600 / 2) = 0 by norm_num, Real.exp_zero]
    rw [show ((10 : ℝ) + (4 - 3) * 2 + 0 * 5 + 2 * 3 + 5.555 * 0.8 - 0) * 1 * 100 + 1 / 2
        = 2244.9 by norm_num]
    rw [show ⌊(2244.9 : ℝ)⌋ = 2244 from Int.floor_eq_iff.mpr (by norm_num)]
    norm_num
  rw [hlhs, hrhs]
  norm_num

/-- **C3, amended.**  The score returned by `calculate_plantao_score` equals
the specification's closed-form value **rounded to two decimals**, and the
four reason codes are attached exactly under the stated conditions
(`velocity > 5`, `tier = 1`, `diversity > 2`, decay factor `< 0.8`). -/
theorem plantao_score_rounded_formula_reasons
    (tier velocity source_count nowS firstSeenS impact trust : ℝ) :
    (calculate_plantao_score tier velocity source_count nowS firstSeenS
        impact trust 10).score
      = pyRound2 ((10 + (4 - tier) * 2 + Real.log (1 + velocity) * 5
          + Real.sqrt source_count * 3 + max 0 (min 10 impact) * 0.8
          - max 0 (min 20 trust))
        * Real.exp (-((nowS - firstSeenS) / 3600 / 2)))
    ∧ ("PLANTAO_VELOCITY_SPIKE" ∈ (calculate_plantao_score tier velocity source_count
        nowS firstSeenS impact trust 10).reasons ↔ 5 < velocity)
    ∧ ("PLANTAO_TIER_WEIGHT" ∈ (calculate_plantao_score tier velocity source_count
        nowS firstSeenS impact trust 10).reasons ↔ tier = 1)
    ∧ ("PLANTAO_DIVERSITY" ∈ (calculate_plantao_score tier velocity source_count
        nowS firstSeenS impact trust 10).reasons ↔ 2 < source_count)
    ∧ ("PLANTAO_DECAY" ∈ (calculate_plantao_score tier velocity source_count
        nowS firstSeenS impact trust 10).reasons
        ↔ Real.exp (-((nowS - firstSeenS) / 3600 / 2)) < 0.8) := by
  refine ⟨?_, ?_, ?_, ?_, ?_⟩
  · rfl
  all_goals
    show _ ∈ (if _ then _ else _) ++ _ ++ _ ++ _ ++ _ ++ _ ↔ _
    simp only [List.mem_append, mem_ite_singleton]
    try simp

/-- **C7 (code bug).**  Gating a `MERGE` on a HYDRATING event reads
`settings.HYDRATION_TIMEOUT_FAST_S` (state_engine.py:42), an attribute that
`config.py` never declares, so `action_gating_decision` raises
`AttributeError` instead of returning `(False, "ACTION_BLOCKED_HYDRATING")`
— its own tests (`test_state_engine.py:31-44`) expect the latter, and the
feedback endpoint turns the exception into a 500 instead of the claimed 409.
The remaining blocked cases of the claim do behave as stated: MERGED,
IGNORED and EXPIRED events are blocked with their stable reason codes. -/
theorem gating_hydrating_attribute_error :
    action_gating_decision {} { id := 1, status := .HYDRATING, first_seen_at := some 0 }
        "MERGE" "FAST_POOL" none 5
      = .error ("AttributeError: 'Settings' object has no attribute "
          ++ "'HYDRATION_TIMEOUT_FAST_S'")
    ∧ action_gating_decision {} { id := 1, status := .MERGED } "PAUTAR" "FAST_POOL" none 5
      = .ok (false, some "ACTION_BLOCKED_MERGED_TOMBSTONE")
    ∧ action_gating_decision {} { id := 1, status := .IGNORED } "MERGE" "FAST_POOL" none 5
      = .ok (false, some "ACTION_BLOCKED_IGNORED")
    ∧ action_gating_decision {} { id := 1, status := .EXPIRED } "SPLIT" "FAST_POOL" none 5
      = .ok (false, some "ACTION_BLOCKED_EXPIRED") := by
  refine ⟨rfl, rfl, rfl, rfl⟩

lemma get?_setk_same (r : RedisState) (k : RKey) (v : ℤ) :
    (r.setk k v).get? k = some v := by
  simp [RedisState.get?, RedisState.setk, List.lookup]

lemma get?_setk_other {r : RedisState} {k k' : RKey} {v : ℤ} (h : k' ≠ k) :
    (r.setk k v).get? k' = r.get? k' := by
  simp only [RedisState.get?, RedisState.setk, List.lookup]
  rw [show (k' == k) = false from beq_eq_false_iff_ne.mpr h]

lemma preflight_pass
    (p : SourceProfileM) (bucket : String) (pk : ℕ) (url : String) (j : ℕ)
    (hid : p.id = some pk)
    (hhost : urlHostname url ≠ "")
    (hconc : 1 ≤ p.limits.concurrency_per_domain)
    (r : RedisState)
    (hcb : r.get? (.cbOpen pk) = none)
    (hrl : (r.get? (.rlSource pk bucket)).getD 0 = (j : ℤ))
    (hc0 : (r.get? (.conc (urlHostname url))).getD 0 = 0)
    (hj : (j : ℤ) + 1 ≤ p.limits.rate_limit_req_per_min) :
    preflight_limits p url r bucket
      = (none, (r.setk (.rlSource pk bucket) ((j : ℤ) + 1)).setk
          (.conc (urlHostname url)) 1) := by
  simp only [preflight_limits, hid, RedisState.incr, hcb, Option.isSome_none,
    Bool.false_eq_true, if_false, hrl]
  rw [if_neg (by omega : ¬ p.limits.rate_limit_req_per_min < (j : ℤ) + 1)]
  rw [if_pos hhost]
  rw [get?_setk_other (by simp), hc0]
  rw [if_neg (by omega : ¬ p.limits.concurrency_per_domain < 0 + 1)]
  norm_num

lemma fetch_tick_pass
    (ssrfSafe : String → Bool) (p : SourceProfileM) (bucket : String)
    (pk : ℕ) (url : String) (j : ℕ)
    (hid : p.id = some pk)
    (hurl : select_fetch_url p = some url) (hne : url ≠ "")
    (hssrf : ssrfSafe url = true)
    (hhost : urlHostname url ≠ "")
    (hconc : 1 ≤ p.limits.concurrency_per_domain)
    (r : RedisState) (db : FetchDB)
    (hcb : r.get? (.cbOpen pk) = none)
    (hrl : (r.get? (.rlSource pk bucket)).getD 0 = (j : ℤ))
    (hc0 : (r.get? (.conc (urlHostname url))).getD 0 = 0)
    (hj : (j : ℤ) + 1 ≤ p.limits.rate_limit_req_per_min) :
    fetch_tick ssrfSafe p bucket r db
        = (.proceeded,
           ((r.setk (.rlSource pk bucket) ((j : ℤ) + 1)).setk
              (.conc (urlHostname url)) 1).setk (.conc (urlHostname url)) 0,
           db)
      ∧ (((r.setk (.rlSource pk bucket) ((j : ℤ) + 1)).setk
              (.conc (urlHostname url)) 1).setk (.conc (urlHostname url)) 0).get?
            (.cbOpen pk) = none
      ∧ ((((r.setk (.rlSource pk bucket) ((j : ℤ) + 1)).setk
              (.conc (urlHostname url)) 1).setk (.conc (urlHostname url)) 0).get?
            (.rlSource pk bucket)).getD 0 = (j : ℤ) + 1
      ∧ ((((r.setk (.rlSource pk bucket) ((j : ℤ) + 1)).setk
              (.conc (urlHostname url)) 1).setk (.conc (urlHostname url)) 0).get?
            (.conc (urlHostname url))).getD 0 = 0 := by
  refine ⟨?_, ?_, ?_, ?_⟩
  · simp only [fetch_tick, hurl, Option.getD_some]
    rw [if_neg (by simp [pyTruthyStrOpt, hne])]
    rw [if_neg (by simp [hssrf])]
    rw [preflight_pass p bucket pk url j hid hhost hconc r hcb hrl hc0 hj]
    simp only [release_domain_concurrency]
    rw [if_pos hhost]
    simp only [RedisState.decr, get?_setk_same, Option.getD_some]
    norm_num
  · rw [get?_setk_other (by simp),
      get?_setk_other (by simp),
      get?_setk_other (by simp)]
    exact hcb
  · rw [get?_setk_other (by simp),
      get?_setk_other (by simp), get?_setk_same]
    rfl
  · rw [get?_setk_same]
    rfl


lemma preflight_blocked
    (p : SourceProfileM) (bucket : String) (pk : ℕ) (url : String) (j : ℕ)
    (hid : p.id = some pk)
    (r : RedisState)
    (hcb : r.get? (.cbOpen pk) = none)
    (hrl : (r.get? (.rlSource pk bucket)).getD 0 = (j : ℤ))
    (hj : p.limits.rate_limit_req_per_min < (j : ℤ) + 1) :
    preflight_limits p url r bucket
      = (some "RateLimited", r.setk (.rlSource pk bucket) ((j : ℤ) + 1)) := by
  simp only [preflight_limits, hid, RedisState.incr, hcb, Option.isSome_none,
    Bool.false_eq_true, if_false, hrl]
  rw [if_pos hj]

lemma fetch_tick_blocked
    (ssrfSafe : String → Bool) (p : SourceProfileM) (bucket : String)
    (pk : ℕ) (url : String) (j : ℕ)
    (hid : p.id = some pk)
    (hurl : select_fetch_url p = some url) (hne : url ≠ "")
    (hssrf : ssrfSafe url = true)
    (r : RedisState) (db : FetchDB)
    (hcb : r.get? (.cbOpen pk) = none)
    (hrl : (r.get? (.rlSource pk bucket)).getD 0 = (j : ℤ))
    (hj : p.limits.rate_limit_req_per_min < (j : ℤ) + 1) :
    fetch_tick ssrfSafe p bucket r db
      = (.blocked "RateLimited", r.setk (.rlSource pk bucket) ((j : ℤ) + 1),
         { db with attempts := db.attempts
             ++ [⟨pk, url, 0, some "RateLimited", 0, 0, p.pool, none⟩] }) := by
  simp only [fetch_tick, hurl, Option.getD_some]
  rw [if_neg (by simp [pyTruthyStrOpt, hne])]
  rw [if_neg (by simp [hssrf])]
  rw [preflight_blocked p bucket pk url j hid r hcb hrl hj]
  simp only [hid]

lemma fetch_ticks_boundary
    (ssrfSafe : String → Bool) (p : SourceProfileM) (bucket : String)
    (pk : ℕ) (url : String)
    (hid : p.id = some pk)
    (hurl : select_fetch_url p = some url) (hne : url ≠ "")
    (hssrf : ssrfSafe url = true)
    (hhost : urlHostname url ≠ "")
    (hconc : 1 ≤ p.limits.concurrency_per_domain) :
    ∀ (k j : ℕ), ((j : ℤ) + k = p.limits.rate_limit_req_per_min) →
    ∀ (r : RedisState) (db : FetchDB),
      r.get? (.cbOpen pk) = none →
      (r.get? (.rlSource pk bucket)).getD 0 = (j : ℤ) →
      (r.get? (.conc (urlHostname url))).getD 0 = 0 →
      ∃ rf, fetch_ticks ssrfSafe p bucket (k + 1) r db
        = (List.replicate k FetchOutcome.proceeded ++ [.blocked "RateLimited"], rf,
           { db with attempts := db.attempts
               ++ [⟨pk, url, 0, some "RateLimited", 0, 0, p.pool, none⟩] }) := by
  intro k
  induction k with
  | zero =>
    intro j hj r db hcb hrl hc0
    refine ⟨r.setk (.rlSource pk bucket) ((j : ℤ) + 1), ?_⟩
    simp only [fetch_ticks]
    rw [fetch_tick_blocked ssrfSafe p bucket pk url j hid hurl hne hssrf r db hcb hrl
      (by omega)]
    simp [fetch_ticks]
  | succ k ih =>
    intro j hj r db hcb hrl hc0
    have hpass := fetch_tick_pass ssrfSafe p bucket pk url j hid hurl hne hssrf hhost
      hconc r db hcb hrl hc0 (by omega)
    obtain ⟨htick, hcb', hrl', hc0'⟩ := hpass
    have hrl'' : ((((r.setk (.rlSource pk bucket) ((j : ℤ) + 1)).setk
        (.conc (urlHostname url)) 1).setk (.conc (urlHostname url)) 0).get?
          (.rlSource pk bucket)).getD 0 = ((j + 1 : ℕ) : ℤ) := by
      rw [hrl']; push_cast; ring
    obtain ⟨rf, hrest⟩ := ih (j + 1) (by push_cast; omega) _ db hcb' hrl'' hc0'
    refine ⟨rf, ?_⟩
    show (let (o, r', db') := fetch_tick ssrfSafe p bucket r db
      let (os, r'', db'') := fetch_ticks ssrfSafe p bucket (k + 1) r' db'
      (o :: os, r'', db'')) = _
    rw [htick]
    simp only []
    rw [hrest]
    simp [List.replicate_succ]

/-- **C6.**  With `rate_per_min = N` (circuit closed, fresh minute bucket,
free per-domain slot), the first `N` fetch ticks of the minute pass the
preflight and the `N+1`-st is blocked with error class `RateLimited`; the
blocked tick appends exactly one `FetchAttempt` row with `status_code = 0`
and `error_class = "RateLimited"` and creates no snapshot. -/
theorem rate_limit_boundary
    (ssrfSafe : String → Bool) (p : SourceProfileM) (bucket : String)
    (pk : ℕ) (url : String) (N : ℕ)
    (hid : p.id = some pk)
    (hrate : p.limits.rate_limit_req_per_min = (N : ℤ))
    (hconc : 1 ≤ p.limits.concurrency_per_domain)
    (hurl : select_fetch_url p = some url) (hne : url ≠ "")
    (hssrf : ssrfSafe url = true)
    (hhost : urlHostname url ≠ "")
    (r0 : RedisState) (db0 : FetchDB)
    (hcb : r0.get? (.cbOpen pk) = none)
    (hrl : r0.get? (.rlSource pk bucket) = none)
    (hc0 : (r0.get? (.conc (urlHostname url))).getD 0 = 0) :
    (fetch_ticks ssrfSafe p bucket (N + 1) r0 db0).1
        = List.replicate N FetchOutcome.proceeded ++ [.blocked "RateLimited"]
    ∧ (fetch_ticks ssrfSafe p bucket (N + 1) r0 db0).2.2.attempts
        = db0.attempts ++ [⟨pk, url, 0, some "RateLimited", 0, 0, p.pool, none⟩]
    ∧ (fetch_ticks ssrfSafe p bucket (N + 1) r0 db0).2.2.snapshots
        = db0.snapshots := by
  obtain ⟨rf, h⟩ := fetch_ticks_boundary ssrfSafe p bucket pk url hid hurl hne hssrf
    hhost hconc N 0 (by omega) r0 db0 hcb (by rw [hrl]; rfl) hc0
  rw [h]
  exact ⟨rfl, rfl, rfl⟩


/-- Witness for C6 with `rate_per_min = 2`: three ticks in one minute bucket
give pass, pass, `RateLimited`, one blocked `FetchAttempt` with
`status_code = 0`, and no snapshot. -/
theorem rate_limit_boundary_witness :
    c6Profile.id = some 7
    ∧ c6Profile.limits.rate_limit_req_per_min = ((2 : ℕ) : ℤ)
    ∧ (fetch_ticks (fun _ => true) c6Profile "202501011200" (2 + 1) {} {}).1
        = List.replicate 2 FetchOutcome.proceeded ++ [.blocked "RateLimited"]
    ∧ (fetch_ticks (fun _ => true) c6Profile "202501011200" (2 + 1) {} {}).2.2.attempts
        = ({} : FetchDB).attempts
          ++ [⟨7, "https://exemplo.gov.br/feed", 0, some "RateLimited", 0, 0,
              "FAST_POOL", none⟩]
    ∧ (fetch_ticks (fun _ => true) c6Profile "202501011200" (2 + 1) {} {}).2.2.snapshots
        = ({} : FetchDB).snapshots := by
  have h := rate_limit_boundary (fun _ => true) c6Profile "202501011200" 7
    "https://exemplo.gov.br/feed" 2 rfl rfl (by decide) rfl (by decide) rfl
    (by decide) {} {} rfl rfl rfl
  exact ⟨rfl, rfl, h.1, h.2.1, h.2.2⟩


lemma find?_map_pres {α : Type} (g : α → α) (p : α → Bool)
    (hp : ∀ x, p (g x) = p x) :
    ∀ l : List α, (l.map g).find? p = (l.find? p).map g
  | [] => rfl
  | x :: xs => by
    simp only [List.map_cons, List.find?]
    rw [hp x]
    cases hpx : p x
    · exact find?_map_pres g p hp xs
    · rfl

lemma findEvent_updateEvents (events : List EventRow) (eid : ℕ)
    (f : EventRow → EventRow) (hf : ∀ e, (f e).id = e.id) (B : ℕ) :
    (updateEvents events eid f).find? (fun e => e.id == B)
      = (events.find? (fun e => e.id == B)).map
          (fun e => if e.id = eid then f e else e) := by
  unfold updateEvents
  refine find?_map_pres _ _ ?_ events
  intro x
  by_cases hx : x.id = eid
  · simp [hx, hf]
  · simp [hx]

lemma findEvent_found_id {db : DB} {B : ℕ} {e : EventRow}
    (h : findEvent db B = some e) : e.id = B := by
  have := List.find?_some h
  simpa using this

lemma transition_audits (db : DB) (eid : ℕ) (s : EventStatus) (r : Option String)
    (fh : Bool) (now : ℤ) :
    ((transition_event_status db eid s r fh now).2).merge_audits = db.merge_audits := by
  unfold transition_event_status
  cases findEvent db eid
  · rfl
  · dsimp only
    split
    · rfl
    · rfl

lemma transition_docs (db : DB) (eid : ℕ) (s : EventStatus) (r : Option String)
    (fh : Bool) (now : ℤ) :
    ((transition_event_status db eid s r fh now).2).event_docs = db.event_docs := by
  unfold transition_event_status
  cases findEvent db eid
  · rfl
  · dsimp only
    split
    · rfl
    · rfl

lemma transition_events (db : DB) (eid : ℕ) (s : EventStatus) (r : Option String)
    (fh : Bool) (now : ℤ) :
    ((transition_event_status db eid s r fh now).2).events = db.events
    ∨ ((transition_event_status db eid s r fh now).2).events
        = updateEvents db.events eid
            (fun ev => { ev with status := s, updated_at := some now }) := by
  unfold transition_event_status
  cases findEvent db eid
  · exact Or.inl rfl
  · dsimp only
    split
    · exact Or.inl rfl
    · exact Or.inr rfl


lemma mergeTimelineStep_audits (db : DB) (a c : EventRow) (now aLast : ℤ) :
    (mergeTimelineStep db a c now aLast).merge_audits = db.merge_audits := rfl

lemma scoreMergeStep_audits (d : DB) (cid aid : ℕ) :
    (scoreMergeStep d cid aid).merge_audits = d.merge_audits := by
  unfold scoreMergeStep
  cases h1 : d.event_scores.find? (fun s => s.event_id == cid) <;>
    cases h2 : d.event_scores.find? (fun s => s.event_id == aid) <;> rfl

lemma mergePointerStep_audits (d : DB) (aid cid : ℕ) :
    (mergePointerStep d aid cid).merge_audits = d.merge_audits := rfl

lemma scoreMergeStep_events (d : DB) (cid aid : ℕ) :
    (scoreMergeStep d cid aid).events = d.events := by
  unfold scoreMergeStep
  cases h1 : d.event_scores.find? (fun s => s.event_id == cid) <;>
    cases h2 : d.event_scores.find? (fun s => s.event_id == aid) <;> rfl

lemma mergeTimelineStep_events (db : DB) (a c : EventRow) (now aLast : ℤ) :
    ∃ f : EventRow → EventRow,
      (∀ e, (f e).id = e.id) ∧ (∀ e, (f e).canonical_event_id = e.canonical_event_id) ∧
      (mergeTimelineStep db a c now aLast).events = updateEvents db.events c.id f := by
  refine ⟨_, ?_, ?_, rfl⟩
  · intro e; rfl
  · intro e; rfl

lemma mergePointerStep_events (d : DB) (aid cid : ℕ) :
    ∃ f : EventRow → EventRow,
      (∀ e, (f e).id = e.id) ∧ (∀ e, (f e).canonical_event_id = some cid) ∧
      (mergePointerStep d aid cid).events = updateEvents d.events aid f := by
  refine ⟨_, ?_, ?_, rfl⟩
  · intro e; rfl
  · intro e; rfl

lemma mergeSuccess_audits (db : DB) (absorbed canonical : EventRow) (rc sr : String)
    (ev : List (String × String)) (now aLast : ℤ) :
    (mergeSuccess db absorbed canonical rc sr ev now aLast).2.merge_audits
      = db.merge_audits
        ++ [⟨absorbed.id, canonical.id, rc, ev,
            (mergeLoopStateOf db absorbed canonical).moved,
            (mergeLoopStateOf db absorbed canonical).deduped⟩] := by
  unfold mergeSuccess
  dsimp only
  rw [transition_audits, mergePointerStep_audits, scoreMergeStep_audits,
    mergeTimelineStep_audits]

lemma mergeSuccess_findEvent (db : DB) (absorbed canonical : EventRow) (rc sr : String)
    (ev : List (String × String)) (now aLast : ℤ) :
    ∃ g : EventRow → EventRow,
      (∀ e, (g e).id = e.id) ∧
      (∀ e, (g e).canonical_event_id =
        if e.id = absorbed.id then some canonical.id else e.canonical_event_id) ∧
      ∀ X, findEvent (mergeSuccess db absorbed canonical rc sr ev now aLast).2 X
        = (findEvent db X).map g := by
  obtain ⟨f1, hf1id, hf1c, h1⟩ := mergeTimelineStep_events db absorbed canonical now aLast
  obtain ⟨f3, hf3id, hf3c, h3⟩ := mergePointerStep_events
    (scoreMergeStep (mergeTimelineStep db absorbed canonical now aLast)
      canonical.id absorbed.id) absorbed.id canonical.id
  obtain ⟨fC, hfCid, hfCc, hC⟩ :
      ∃ fC : EventRow → EventRow,
        (∀ e, (fC e).id = e.id) ∧ (∀ e, (fC e).canonical_event_id = e.canonical_event_id) ∧
        (transition_event_status
            (mergePointerStep (scoreMergeStep (mergeTimelineStep db absorbed canonical now aLast)
              canonical.id absorbed.id) absorbed.id canonical.id)
            absorbed.id .MERGED (some sr) false now).2.events
          = updateEvents
              (mergePointerStep (scoreMergeStep (mergeTimelineStep db absorbed canonical now aLast)
                canonical.id absorbed.id) absorbed.id canonical.id).events
              absorbed.id fC := by
    obtain htr | htr := transition_events
      (mergePointerStep (scoreMergeStep (mergeTimelineStep db absorbed canonical now aLast)
        canonical.id absorbed.id) absorbed.id canonical.id)
      absorbed.id .MERGED (some sr) false now
    · exact ⟨fun e => e, fun e => rfl, fun e => rfl,
        by rw [htr]; unfold updateEvents; simp⟩
    · refine ⟨_, ?_, ?_, htr⟩
      · intro e; rfl
      · intro e; rfl
  have hfind : ∀ X, findEvent (mergeSuccess db absorbed canonical rc sr ev now aLast).2 X
      = (findEvent db X).map
          (((fun e => if e.id = absorbed.id then fC e else e) ∘
            (fun e => if e.id = absorbed.id then f3 e else e)) ∘
           (fun e => if e.id = canonical.id then f1 e else e)) := by
    intro X
    have hev : (mergeSuccess db absorbed canonical rc sr ev now aLast).2.events
        = (transition_event_status
            (mergePointerStep (scoreMergeStep (mergeTimelineStep db absorbed canonical now aLast)
              canonical.id absorbed.id) absorbed.id canonical.id)
            absorbed.id .MERGED (some sr) false now).2.events := rfl
    unfold findEvent
    rw [hev, hC, h3, scoreMergeStep_events, h1]
    rw [findEvent_updateEvents _ absorbed.id fC hfCid X]
    rw [findEvent_updateEvents _ absorbed.id f3 hf3id X]
    rw [findEvent_updateEvents _ canonical.id f1 hf1id X]
    rw [Option.map_map, Option.map_map]
  have sid : ∀ (f : EventRow → EventRow), (∀ x, (f x).id = x.id) →
      ∀ (eid : ℕ) (x : EventRow), (if x.id = eid then f x else x).id = x.id := by
    intro f hid eid x
    split
    · exact hid x
    · rfl
  have scp : ∀ (f : EventRow → EventRow),
      (∀ x, (f x).canonical_event_id = x.canonical_event_id) →
      ∀ (eid : ℕ) (x : EventRow),
        (if x.id = eid then f x else x).canonical_event_id = x.canonical_event_id := by
    intro f hc eid x
    split
    · exact hc x
    · rfl
  have s3c : ∀ (x : EventRow) (eid : ℕ),
      (if x.id = eid then f3 x else x).canonical_event_id
        = if x.id = eid then some canonical.id else x.canonical_event_id := by
    intro x eid
    by_cases h : x.id = eid <;> simp [h, hf3c]
  refine ⟨_, ?_, ?_, hfind⟩
  · intro e
    have hin : (if e.id = canonical.id then f1 e else e).id = e.id :=
      sid f1 hf1id canonical.id e
    simp only [Function.comp_apply, sid fC hfCid, hin]
    by_cases hb : e.id = absorbed.id
    · rw [if_pos hb, hf3id, hin]
    · rw [if_neg hb, hin]
  · intro e
    have hin : (if e.id = canonical.id then f1 e else e).id = e.id :=
      sid f1 hf1id canonical.id e
    have hinc : (if e.id = canonical.id then f1 e else e).canonical_event_id
        = e.canonical_event_id := scp f1 hf1c canonical.id e
    simp only [Function.comp_apply, scp fC hfCc, hin]
    by_cases hb : e.id = absorbed.id
    · rw [if_pos hb, if_pos hb, hf3c]
    · rw [if_neg hb, if_neg hb, hinc]

/-- C1: merging event B into canonical event A is idempotent.  After a
successful `merge_event_into` (`merged = true`), any further call with the
same `(B, A, reason_code)` is skipped: it returns `merged = false` with the
database unchanged, because `B.canonical_event_id` already equals `A`
(guard at merge_service.py:53) or the `(B, A, reason)` merge-audit row
exists (merge_service.py:58-66).  The success itself required that no such
audit row existed, so exactly one `(from, to, reason)` audit row exists
afterwards, and the state after merging twice equals the state after
merging once. -/
theorem merge_into_idempotent_audit_unique
    (db : DB) (B A : ℕ) (rc sr : String) (ev : List (String × String))
    (now now2 : ℤ) (res : MergeResult) (db1 : DB)
    (h : merge_event_into db B A rc sr ev now = .ok (res, db1))
    (hm : res.merged = true) :
    merge_event_into db1 B A rc sr ev now2
        = .ok ({ merged := false, from_event_id := B, to_event_id := A,
                 reason_code := rc }, db1)
      ∧ auditCount db B A rc = 0 ∧ auditCount db1 B A rc = 1 := by
  unfold merge_event_into at h
  cases hfa : findEvent db B with
  | none =>
    rw [hfa] at h
    cases hfb : findEvent db A <;> rw [hfb] at h <;> simp at h
  | some absorbed =>
    rw [hfa] at h
    cases hfb : findEvent db A with
    | none => rw [hfb] at h; simp at h
    | some canonical =>
      rw [hfb] at h
      dsimp only at h
      by_cases h1 : absorbed.id = canonical.id
      · rw [if_pos h1] at h
        simp only [Except.ok.injEq, Prod.mk.injEq] at h
        rw [← h.1] at hm
        simp at hm
      rw [if_neg h1] at h
      by_cases h2 : pyTruthyOptNat absorbed.canonical_event_id = true
          ∧ absorbed.canonical_event_id.getD 0 = canonical.id
      · rw [if_pos h2] at h
        simp only [Except.ok.injEq, Prod.mk.injEq] at h
        rw [← h.1] at hm
        simp at hm
      rw [if_neg h2] at h
      by_cases h3 : pyTruthyOptNat canonical.canonical_event_id = true
      · rw [if_pos h3] at h
        simp at h
      rw [if_neg h3] at h
      by_cases h4 : db.merge_audits.any (fun a =>
          a.from_event_id == absorbed.id && a.to_event_id == canonical.id
            && a.reason_code == rc) = true
      · rw [if_pos h4] at h
        simp only [Except.ok.injEq, Prod.mk.injEq] at h
        rw [← h.1] at hm
        simp at hm
      rw [if_neg h4] at h
      cases hal : absorbed.last_seen_at <|> absorbed.first_seen_at with
      | none => rw [hal] at h; simp at h
      | some aLast =>
        rw [hal] at h
        simp only [Except.ok.injEq] at h
        have hdb1 : (mergeSuccess db absorbed canonical rc sr ev now aLast).2 = db1 :=
          congrArg Prod.snd h
        subst hdb1
        have hBid : absorbed.id = B := findEvent_found_id hfa
        have hAid : canonical.id = A := findEvent_found_id hfb
        have hBA : B ≠ A := by rw [← hBid, ← hAid]; exact h1
        have h4' : db.merge_audits.any (fun a =>
            a.from_event_id == B && a.to_event_id == A
              && a.reason_code == rc) = false := by
          rw [← hBid, ← hAid]
          simpa using h4
        have h0 : auditCount db B A rc = 0 := by
          unfold auditCount
          rw [List.length_eq_zero, List.filter_eq_nil_iff]
          intro a ha
          simp only [List.any_eq_false] at h4'
          exact h4' a ha
        obtain ⟨g, hgid, hgc, hgfind⟩ :=
          mergeSuccess_findEvent db absorbed canonical rc sr ev now aLast
        have hfB : findEvent (mergeSuccess db absorbed canonical rc sr ev now aLast).2 B
            = some (g absorbed) := by rw [hgfind, hfa]; rfl
        have hfA : findEvent (mergeSuccess db absorbed canonical rc sr ev now aLast).2 A
            = some (g canonical) := by rw [hgfind, hfb]; rfl
        have hga_id : (g absorbed).id = B := by rw [hgid, hBid]
        have hgcn_id : (g canonical).id = A := by rw [hgid, hAid]
        have hga_c : (g absorbed).canonical_event_id = some canonical.id := by
          rw [hgc, if_pos rfl]
        have hgcn_c : (g canonical).canonical_event_id = canonical.canonical_event_id := by
          rw [hgc, if_neg (fun hcontra => h1 hcontra.symm)]
        refine ⟨?_, h0, ?_⟩
        · unfold merge_event_into
          rw [hfB, hfA]
          dsimp only
          rw [if_neg (show ¬ ((g absorbed).id = (g canonical).id) by
            rw [hga_id, hgcn_id]; exact hBA)]
          by_cases hA0 : canonical.id = 0
          · rw [if_neg (show ¬ (pyTruthyOptNat (g absorbed).canonical_event_id = true
                ∧ (g absorbed).canonical_event_id.getD 0 = (g canonical).id) by
              rintro ⟨hx, -⟩
              rw [hga_c, hA0] at hx
              simp [pyTruthyOptNat] at hx)]
            rw [if_neg (show ¬ (pyTruthyOptNat (g canonical).canonical_event_id = true) by
              rw [hgcn_c]; exact h3)]
            rw [if_pos (show (mergeSuccess db absorbed canonical rc sr ev now
                aLast).2.merge_audits.any (fun a =>
                  a.from_event_id == (g absorbed).id && a.to_event_id == (g canonical).id
                    && a.reason_code == rc) = true by
              rw [mergeSuccess_audits, hga_id, hgcn_id]
              simp [hBid, hAid])]
            rw [hga_id, hgcn_id]
          · rw [if_pos (show pyTruthyOptNat (g absorbed).canonical_event_id = true
                ∧ (g absorbed).canonical_event_id.getD 0 = (g canonical).id by
              constructor
              · rw [hga_c]; simp [pyTruthyOptNat, hA0]
              · rw [hga_c, hgid]; rfl)]
            rw [hga_id, hgcn_id]
        · unfold auditCount
          rw [mergeSuccess_audits, List.filter_append, List.length_append]
          have h0' : (db.merge_audits.filter (fun a =>
              a.from_event_id == B && a.to_event_id == A
                && a.reason_code == rc)).length = 0 := h0
          rw [h0']
          simp [hBid, hAid]

theorem merge_into_idempotent_audit_unique_witness :
    merge_event_into c1Run.2 2 1 "HARD_ANCHOR_MATCH" "MERGED_INTO_CANONICAL" [] 200
        = .ok ({ merged := false, from_event_id := 2, to_event_id := 1,
                 reason_code := "HARD_ANCHOR_MATCH" }, c1Run.2)
      ∧ auditCount c1DB 2 1 "HARD_ANCHOR_MATCH" = 0
      ∧ auditCount c1Run.2 2 1 "HARD_ANCHOR_MATCH" = 1 :=
  merge_into_idempotent_audit_unique c1DB 2 1 "HARD_ANCHOR_MATCH" "MERGED_INTO_CANONICAL" [] 100 200
    c1Run.1 c1Run.2 (by rfl) (by rfl)

lemma countP_insertSorted {α : Type} (p : α → Bool) (le : α → α → Bool)
    (x : α) : ∀ l : List α,
    (insertSorted le x l).countP p = (x :: l).countP p
  | [] => rfl
  | y :: ys => by
    unfold insertSorted
    split
    · rfl
    · simp only [List.countP_cons, countP_insertSorted p le x ys]
      omega

lemma countP_stableSort {α : Type} (p : α → Bool) (le : α → α → Bool) :
    ∀ l : List α, (stableSort le l).countP p = l.countP p
  | [] => rfl
  | x :: xs => by
    unfold stableSort
    rw [countP_insertSorted, List.countP_cons, List.countP_cons,
      countP_stableSort p le xs]

lemma mem_insertSorted {α : Type} {le : α → α → Bool} {x r : α} :
    ∀ {l : List α}, r ∈ insertSorted le x l → r = x ∨ r ∈ l := by
  intro l
  induction l with
  | nil =>
    intro h
    simp only [insertSorted] at h
    exact Or.inl (by simpa using h)
  | cons y ys ih =>
    unfold insertSorted
    split
    · intro h
      rcases List.mem_cons.mp h with h | h
      · exact Or.inl h
      · exact Or.inr h
    · intro h
      rcases List.mem_cons.mp h with h | h
      · exact Or.inr (List.mem_cons.mpr (Or.inl h))
      · rcases ih h with h | h
        · exact Or.inl h
        · exact Or.inr (List.mem_cons.mpr (Or.inr h))

lemma mem_stableSort {α : Type} {le : α → α → Bool} {r : α} :
    ∀ {l : List α}, r ∈ stableSort le l → r ∈ l := by
  intro l
  induction l with
  | nil =>
    intro h
    simp only [stableSort] at h
    exact absurd h (List.not_mem_nil r)
  | cons y ys ih =>
    unfold stableSort
    intro h
    rcases mem_insertSorted h with h | h
    · exact List.mem_cons.mpr (Or.inl h)
    · exact List.mem_cons.mpr (Or.inr (ih h))

lemma mergeLoopStep_inv (c : ℕ) (st : MergeLoopState) (x : EventDocRow) :
    (mergeLoopStep c st x).newRels.countP (fun r => r.is_primary)
        + (if st.canonicalHasPrimary then 1 else 0)
      = st.newRels.countP (fun r => r.is_primary)
        + (if (mergeLoopStep c st x).canonicalHasPrimary then 1 else 0)
    ∧ (st.canonicalHasPrimary = true → (mergeLoopStep c st x).canonicalHasPrimary = true)
    ∧ ((∀ r ∈ st.newRels, r.event_id = c) →
        ∀ r ∈ (mergeLoopStep c st x).newRels, r.event_id = c) := by
  unfold mergeLoopStep
  split
  · exact ⟨rfl, fun h => h, fun h => h⟩
  dsimp only
  split
  · rename_i hcond
    refine ⟨?_, fun h => h, ?_⟩
    · simp [List.countP_append, List.countP_cons]
    · intro h r hr
      rcases List.mem_append.mp hr with hr | hr
      · exact h r hr
      · simp only [List.mem_singleton] at hr
        subst hr; rfl
  split
  · rename_i hcond
    refine ⟨?_, ?_, ?_⟩
    · have hprim : x.is_primary = true := hcond.1
      have hno : st.canonicalHasPrimary = false := Bool.eq_false_iff.mpr hcond.2
      simp [List.countP_append, List.countP_cons, hprim, hno]
    · intro h; rfl
    · intro h r hr
      rcases List.mem_append.mp hr with hr | hr
      · exact h r hr
      · simp only [List.mem_singleton] at hr
        subst hr; rfl
  split
  · rename_i hcond
    refine ⟨?_, ?_, ?_⟩
    · have hno : st.canonicalHasPrimary = false := Bool.eq_false_iff.mpr hcond.1
      simp [List.countP_append, List.countP_cons, hno]
    · intro h; rfl
    · intro h r hr
      rcases List.mem_append.mp hr with hr | hr
      · exact h r hr
      · simp only [List.mem_singleton] at hr
        subst hr; rfl
  · rename_i h1 h2 h3
    refine ⟨?_, fun h => h, ?_⟩
    · have hnp : x.is_primary = false := by
        by_cases hp : x.is_primary = true
        · by_cases hh : st.canonicalHasPrimary = true
          · exact absurd ⟨hp, hh⟩ h1
          · exact absurd ⟨hp, hh⟩ h2
        · exact Bool.eq_false_iff.mpr hp
      simp [List.countP_append, List.countP_cons, hnp]
    · intro h r hr
      rcases List.mem_append.mp hr with hr | hr
      · exact h r hr
      · simp only [List.mem_singleton] at hr
        subst hr; rfl

lemma mergeLoop_fold_inv (c : ℕ) : ∀ (l : List EventDocRow) (st : MergeLoopState),
    (l.foldl (mergeLoopStep c) st).newRels.countP (fun r => r.is_primary)
        + (if st.canonicalHasPrimary then 1 else 0)
      = st.newRels.countP (fun r => r.is_primary)
        + (if (l.foldl (mergeLoopStep c) st).canonicalHasPrimary then 1 else 0)
    ∧ (st.canonicalHasPrimary = true →
        (l.foldl (mergeLoopStep c) st).canonicalHasPrimary = true)
    ∧ ((∀ r ∈ st.newRels, r.event_id = c) →
        ∀ r ∈ (l.foldl (mergeLoopStep c) st).newRels, r.event_id = c)
  | [], st => ⟨rfl, fun h => h, fun h => h⟩
  | x :: xs, st => by
    simp only [List.foldl_cons]
    obtain ⟨e1, m1, p1⟩ := mergeLoopStep_inv c st x
    obtain ⟨e2, m2, p2⟩ := mergeLoop_fold_inv c xs (mergeLoopStep c st x)
    refine ⟨?_, fun h => m2 (m1 h), fun h => p2 (p1 h)⟩
    split_ifs at e1 e2 ⊢ <;> omega

lemma countP_eq_zero_of_event_ne {l : List EventDocRow} {c eid : ℕ}
    (hl : ∀ r ∈ l, r.event_id = c) (hne : eid ≠ c) :
    l.countP (fun r => r.event_id == eid && r.is_primary) = 0 := by
  rw [List.countP_eq_zero]
  intro r hr
  simp only [hl r hr, Bool.and_eq_true, beq_iff_eq]
  rintro ⟨hc, -⟩
  exact hne hc.symm

lemma countP_eq_prim_of_event_eq {l : List EventDocRow} {c : ℕ}
    (hl : ∀ r ∈ l, r.event_id = c) :
    l.countP (fun r => r.event_id == c && r.is_primary)
      = l.countP (fun r => r.is_primary) := by
  apply List.countP_congr
  intro r hr
  simp [hl r hr]

lemma scoreMergeStep_docs (d : DB) (cid aid : ℕ) :
    (scoreMergeStep d cid aid).event_docs = d.event_docs := by
  unfold scoreMergeStep
  cases h1 : d.event_scores.find? (fun s => s.event_id == cid) <;>
    cases h2 : d.event_scores.find? (fun s => s.event_id == aid) <;> rfl

lemma mergeSuccess_docs (db : DB) (absorbed canonical : EventRow) (rc sr : String)
    (ev : List (String × String)) (now aLast : ℤ) :
    (mergeSuccess db absorbed canonical rc sr ev now aLast).2.event_docs
      = (mergeTimelineStep db absorbed canonical now aLast).event_docs := by
  unfold mergeSuccess
  dsimp only
  rw [transition_docs]
  exact scoreMergeStep_docs _ _ _

lemma mergeLoopStateOf_facts (db : DB) (absorbed canonical : EventRow) :
    (mergeLoopStateOf db absorbed canonical).newRels.countP (fun r => r.is_primary)
        + (if (db.event_docs.filter (fun r => r.event_id == canonical.id)).any
              EventDocRow.is_primary then 1 else 0)
      = (if (mergeLoopStateOf db absorbed canonical).canonicalHasPrimary then 1 else 0)
    ∧ ((db.event_docs.filter (fun r => r.event_id == canonical.id)).any
          EventDocRow.is_primary = true →
        (mergeLoopStateOf db absorbed canonical).canonicalHasPrimary = true)
    ∧ ∀ r ∈ (mergeLoopStateOf db absorbed canonical).newRels,
        r.event_id = canonical.id := by
  unfold mergeLoopStateOf
  dsimp only
  obtain ⟨e, m, p⟩ := mergeLoop_fold_inv canonical.id
    (stableSort absorbedRelLE (db.event_docs.filter (fun r => r.event_id == absorbed.id)))
    { canonicalDocIds := (db.event_docs.filter (fun r => r.event_id == canonical.id)).map
        EventDocRow.doc_id,
      canonicalHasPrimary := (db.event_docs.filter (fun r => r.event_id == canonical.id)).any
        EventDocRow.is_primary }
  refine ⟨by simpa using e, m, p ?_⟩
  intro r hr
  simp at hr

lemma countP_prim_filter_le (db : DB) (hinv : singlePrimaryInv db) (c : ℕ) :
    (db.event_docs.filter (fun r => r.event_id == c)).countP
      (fun r => r.is_primary) ≤ 1 := by
  have h := hinv c
  unfold primaryCount at h
  rw [List.countP_eq_length_filter, List.filter_filter]
  calc (db.event_docs.filter (fun a => a.is_primary && a.event_id == c)).length
      = (db.event_docs.filter (fun r => r.event_id == c && r.is_primary)).length := by
        rw [List.filter_congr]
        intro a _
        rw [Bool.and_comm]
    _ ≤ 1 := h

lemma mergeTimelineStep_single_primary (db : DB) (a c : EventRow) (now aLast : ℤ)
    (hinv : singlePrimaryInv db) (eid : ℕ) :
    (mergeTimelineStep db a c now aLast).event_docs.countP
      (fun r => r.event_id == eid && r.is_primary) ≤ 1 := by
  obtain ⟨hfold, hmono, hNmem⟩ := mergeLoopStateOf_facts db a c
  have hcrmem : ∀ r ∈ db.event_docs.filter (fun r => r.event_id == c.id),
      r.event_id = c.id := by
    intro r hr
    have := (List.mem_filter.mp hr).2
    simpa using this
  have hF : ∀ e : ℕ, (db.event_docs.filter (fun r =>
      !(r.event_id == c.id) && !(r.event_id == a.id))).countP
      (fun r => r.event_id == e && r.is_primary)
      ≤ if e = c.id then 0 else 1 := by
    intro e
    by_cases hec : e = c.id
    · rw [if_pos hec]
      rw [Nat.le_zero, List.countP_eq_zero]
      intro r hr
      have h2 := (List.mem_filter.mp hr).2
      simp only [Bool.and_eq_true, Bool.not_eq_true'] at h2
      subst hec
      simp [h2.1]
    · rw [if_neg hec]
      calc (db.event_docs.filter (fun r =>
              !(r.event_id == c.id) && !(r.event_id == a.id))).countP
            (fun r => r.event_id == e && r.is_primary)
          ≤ db.event_docs.countP (fun r => r.event_id == e && r.is_primary) :=
            (List.filter_sublist _).countP_le _
        _ = primaryCount db e := by
            unfold primaryCount
            rw [List.countP_eq_length_filter]
        _ ≤ 1 := hinv e
  unfold mergeTimelineStep
  dsimp only
  rw [List.countP_append, List.countP_append]
  by_cases hhas : (mergeLoopStateOf db a c).canonicalHasPrimary = true
  · rw [if_neg (not_not_intro hhas)]
    rw [hhas, if_pos rfl] at hfold
    by_cases hec : eid = c.id
    · subst hec
      have h1 := hF c.id
      rw [if_pos rfl] at h1
      have h3 : (mergeLoopStateOf db a c).newRels.countP
          (fun r => r.event_id == c.id && r.is_primary)
            = (mergeLoopStateOf db a c).newRels.countP (fun r => r.is_primary) :=
        countP_eq_prim_of_event_eq hNmem
      rw [h3]
      by_cases hany : (db.event_docs.filter (fun r => r.event_id == c.id)).any
          EventDocRow.is_primary = true
      · rw [hany, if_pos rfl] at hfold
        have h2 : (db.event_docs.filter (fun r => r.event_id == c.id)).countP
            (fun r => r.event_id == c.id && r.is_primary) ≤ 1 := by
          rw [countP_eq_prim_of_event_eq hcrmem]
          exact countP_prim_filter_le db hinv c.id
        omega
      · have hany' : (db.event_docs.filter (fun r => r.event_id == c.id)).any
            EventDocRow.is_primary = false := Bool.eq_false_iff.mpr hany
        rw [hany', if_neg (by simp)] at hfold
        have h2 : (db.event_docs.filter (fun r => r.event_id == c.id)).countP
            (fun r => r.event_id == c.id && r.is_primary) = 0 := by
          rw [countP_eq_prim_of_event_eq hcrmem, List.countP_eq_zero]
          intro x hx
          have hx' := List.any_eq_false.mp hany' x hx
          simp only [Bool.not_eq_true] at hx'
          simp [hx']
        omega
    · have h1 := hF eid
      rw [if_neg hec] at h1
      have h2 := countP_eq_zero_of_event_ne hcrmem hec
      have h3 := countP_eq_zero_of_event_ne hNmem hec
      omega
  · rw [if_pos hhas]
    have hany : (db.event_docs.filter (fun r => r.event_id == c.id)).any
        EventDocRow.is_primary = false := by
      by_cases ha : (db.event_docs.filter (fun r => r.event_id == c.id)).any
          EventDocRow.is_primary = true
      · exact absurd (hmono ha) hhas
      · exact Bool.eq_false_iff.mpr ha
    have hallnp : ∀ r ∈ db.event_docs.filter (fun r => r.event_id == c.id),
        r.is_primary = false := by
      intro r hr
      have := List.any_eq_false.mp hany r hr
      exact Bool.eq_false_iff.mpr this
    rw [hany, if_neg (by simp)] at hfold
    have hhasf : (mergeLoopStateOf db a c).canonicalHasPrimary = false :=
      Bool.eq_false_iff.mpr hhas
    rw [hhasf, if_neg (by simp)] at hfold
    have hN0 : (mergeLoopStateOf db a c).newRels.countP (fun r => r.is_primary) = 0 := by
      omega
    by_cases hec : eid = c.id
    · subst hec
      have h1 := hF c.id
      rw [if_pos rfl] at h1
      have h3 : (mergeLoopStateOf db a c).newRels.countP
          (fun r => r.event_id == c.id && r.is_primary) = 0 := by
        rw [countP_eq_prim_of_event_eq hNmem]
        exact hN0
      cases hcr : db.event_docs.filter (fun r => r.event_id == c.id) with
      | nil =>
        dsimp only
        simp only [List.countP_nil]
        omega
      | cons r rs =>
        dsimp only
        have hrs : rs.countP (fun x => x.is_primary) = 0 := by
          rw [List.countP_eq_zero]
          intro x hx
          have : x.is_primary = false := hallnp x (by rw [hcr]; exact List.mem_cons_of_mem r hx)
          simp [this]
        have hC : (({ r with is_primary := true } : EventDocRow) :: rs).countP
            (fun x => x.event_id == c.id && x.is_primary) ≤ 1 := by
          rw [List.countP_cons]
          have hrs' : rs.countP (fun x => x.event_id == c.id && x.is_primary) = 0 := by
            rw [List.countP_eq_zero]
            intro x hx
            have : x.is_primary = false := hallnp x (by rw [hcr]; exact List.mem_cons_of_mem r hx)
            simp [this]
          rw [hrs']
          split <;> omega
        rw [h3]
        omega
    · have h1 := hF eid
      rw [if_neg hec] at h1
      have h3 := countP_eq_zero_of_event_ne hNmem hec
      have hC'mem : ∀ x ∈ (match db.event_docs.filter (fun r => r.event_id == c.id) with
          | [] => ([] : List EventDocRow)
          | r :: rs => { r with is_primary := true } :: rs),
          x.event_id = c.id := by
        cases hcr : db.event_docs.filter (fun r => r.event_id == c.id) with
        | nil => intro x hx; simp at hx
        | cons r rs =>
          intro x hx
          rcases List.mem_cons.mp hx with hx | hx
          · subst hx
            exact hcrmem r (by rw [hcr]; exact List.mem_cons_self r rs)
          · exact hcrmem x (by rw [hcr]; exact List.mem_cons_of_mem r hx)
      have h2 := countP_eq_zero_of_event_ne hC'mem hec
      omega

lemma merge_event_into_preserves (db : DB) (B A : ℕ) (rc sr : String)
    (ev : List (String × String)) (now : ℤ) (res : MergeResult) (db1 : DB)
    (h : merge_event_into db B A rc sr ev now = .ok (res, db1))
    (hinv : singlePrimaryInv db) : singlePrimaryInv db1 := by
  unfold merge_event_into at h
  cases hfa : findEvent db B with
  | none =>
    rw [hfa] at h
    cases hfb : findEvent db A <;> rw [hfb] at h <;> simp at h
  | some absorbed =>
    rw [hfa] at h
    cases hfb : findEvent db A with
    | none => rw [hfb] at h; simp at h
    | some canonical =>
      rw [hfb] at h
      dsimp only at h
      by_cases h1 : absorbed.id = canonical.id
      · rw [if_pos h1] at h
        simp only [Except.ok.injEq, Prod.mk.injEq] at h
        rw [← h.2]; exact hinv
      rw [if_neg h1] at h
      by_cases h2 : pyTruthyOptNat absorbed.canonical_event_id = true
          ∧ absorbed.canonical_event_id.getD 0 = canonical.id
      · rw [if_pos h2] at h
        simp only [Except.ok.injEq, Prod.mk.injEq] at h
        rw [← h.2]; exact hinv
      rw [if_neg h2] at h
      by_cases h3 : pyTruthyOptNat canonical.canonical_event_id = true
      · rw [if_pos h3] at h; simp at h
      rw [if_neg h3] at h
      by_cases h4 : db.merge_audits.any (fun a =>
          a.from_event_id == absorbed.id && a.to_event_id == canonical.id
            && a.reason_code == rc) = true
      · rw [if_pos h4] at h
        simp only [Except.ok.injEq, Prod.mk.injEq] at h
        rw [← h.2]; exact hinv
      rw [if_neg h4] at h
      cases hal : absorbed.last_seen_at <|> absorbed.first_seen_at with
      | none => rw [hal] at h; simp at h
      | some aLast =>
        rw [hal] at h
        simp only [Except.ok.injEq] at h
        have hdb1 : (mergeSuccess db absorbed canonical rc sr ev now aLast).2 = db1 :=
          congrArg Prod.snd h
        subst hdb1
        intro eid
        unfold primaryCount
        rw [mergeSuccess_docs, ← List.countP_eq_length_filter]
        exact mergeTimelineStep_single_primary db absorbed canonical now aLast hinv eid

lemma ensure_initial_docs (db : DB) (eid : ℕ) (now : ℤ) :
    (ensure_event_has_initial_state db eid now).event_docs = db.event_docs := by
  unfold ensure_event_has_initial_state
  split
  · rfl
  · cases findEvent db eid <;> rfl

lemma le_foldl_max : ∀ (l : List ℕ) (a : ℕ),
    a ≤ l.foldl max a ∧ ∀ x ∈ l, x ≤ l.foldl max a
  | [], a => ⟨le_refl a, by simp⟩
  | y :: ys, a => by
    obtain ⟨h1, h2⟩ := le_foldl_max ys (max a y)
    refine ⟨le_trans (le_max_left a y) h1, ?_⟩
    intro x hx
    rcases List.mem_cons.mp hx with hx | hx
    · rw [hx]; exact le_trans (le_max_right a y) h1
    · exact h2 x hx

lemma event_id_lt_fresh (db : DB) : ∀ e ∈ db.events, e.id < freshEventId db := by
  intro e he
  unfold freshEventId
  have := (le_foldl_max (db.events.map EventRow.id) 0).2 e.id
    (List.mem_map_of_mem EventRow.id he)
  omega

lemma fresh_not_doc (db : DB) (href : docsRefEvents db) :
    ∀ r ∈ db.event_docs, r.event_id ≠ freshEventId db := by
  intro r hr
  obtain ⟨e, he, heq⟩ := href r hr
  rw [heq]
  exact Nat.ne_of_lt (event_id_lt_fresh db e he)

lemma append_nonprimary_count (docs : List EventDocRow) (row : EventDocRow)
    (hrow : row.is_primary = false) (eid : ℕ) :
    ((docs ++ [row]).filter (fun r => r.event_id == eid && r.is_primary)).length
      = (docs.filter (fun r => r.event_id == eid && r.is_primary)).length := by
  rw [List.filter_append]
  simp [hrow]

lemma organizer_preserves (db : DB) (target : Option ℕ) (docId sourceId : ℕ)
    (lane title : Option String) (dom : String) (tier now : ℤ)
    (hinv : singlePrimaryInv db) (href : docsRefEvents db) :
    singlePrimaryInv
      (organizer_finalize db target docId sourceId lane title dom tier now).1 := by
  unfold organizer_finalize
  by_cases ht : pyTruthyOptNat target = true
  · rw [if_pos ht]
    dsimp only
    intro eid
    unfold primaryCount
    dsimp only
    cases hmt : findEvent db (target.getD 0) with
    | none =>
      dsimp only
      rw [append_nonprimary_count _ _ rfl]
      exact hinv eid
    | some e =>
      dsimp only
      rw [ensure_initial_docs]
      rw [append_nonprimary_count _ _ rfl]
      exact hinv eid
  · rw [if_neg ht]
    dsimp only
    intro eid
    unfold primaryCount
    dsimp only
    rw [show ∀ d : DB, (transition_event_status d (freshEventId db) .HYDRATING
        (some "FAST_PATH_EVENT_CREATED") true now).2.event_docs = d.event_docs
      from fun d => transition_docs d _ _ _ _ _]
    dsimp only
    rw [List.filter_append, List.length_append]
    by_cases heq : eid = freshEventId db
    · subst heq
      have h0 : (db.event_docs.filter (fun r =>
          r.event_id == freshEventId db && r.is_primary)).length = 0 := by
        rw [List.length_eq_zero, List.filter_eq_nil_iff]
        intro r hr
        have := fresh_not_doc db href r hr
        simp [this]
      rw [h0]
      simp
    · have h1 : (([⟨freshEventId db, docId, sourceId, some now, true⟩] :
          List EventDocRow).filter (fun r => r.event_id == eid && r.is_primary)).length
            = 0 := by
        simp [Ne.symm heq]
      rw [h1]
      have := hinv eid
      unfold primaryCount at this
      omega

lemma demote_countP : ∀ (seen : Bool) (l : List EventDocRow),
    (demoteExtraPrimaries seen l).countP (fun r => r.is_primary)
      ≤ if seen then 0 else 1
  | _, [] => by simp [demoteExtraPrimaries]
  | seen, r :: rest => by
    unfold demoteExtraPrimaries
    split
    · rename_i hp
      have ih := demote_countP true rest
      rw [if_pos rfl] at ih
      cases seen with
      | true =>
        rw [if_pos rfl]
        simp only [if_pos rfl, List.countP_cons]
        simp only [Nat.le_zero] at ih ⊢
        simp [ih]
      | false =>
        rw [if_neg (by simp)]
        simp only [if_neg (by simp : ¬ (false = true)), List.countP_cons]
        simp only [Nat.le_zero] at ih
        simp [ih, hp]
    · rename_i hp
      have ih := demote_countP seen rest
      rw [List.countP_cons]
      have hp' : r.is_primary = false := Bool.eq_false_iff.mpr hp
      cases seen <;> simp_all <;> omega

lemma demote_event {c : ℕ} : ∀ (seen : Bool) (l : List EventDocRow),
    (∀ r ∈ l, r.event_id = c) →
    ∀ x ∈ demoteExtraPrimaries seen l, x.event_id = c
  | _, [], _ => by simp [demoteExtraPrimaries]
  | seen, r :: rest, h => by
    unfold demoteExtraPrimaries
    have hr := h r (List.mem_cons_self r rest)
    have hrest : ∀ x ∈ rest, x.event_id = c :=
      fun x hx => h x (List.mem_cons_of_mem r hx)
    split
    · intro x hx
      rcases List.mem_cons.mp hx with hx | hx
      · subst hx
        cases seen <;> simpa using hr
      · exact demote_event true rest hrest x hx
    · intro x hx
      rcases List.mem_cons.mp hx with hx | hx
      · subst hx; exact hr
      · exact demote_event seen rest hrest x hx

lemma ensure_single_primary_countP (now : ℤ) (rels : List EventDocRow) :
    (ensure_single_primary now rels).countP (fun r => r.is_primary) ≤ 1 := by
  unfold ensure_single_primary
  split
  · rename_i h0
    simp [h0]
  split
  · exact le_trans (demote_countP false rels) (by simp)
  · rename_i hne hany
    cases hsort : stableSort (ensureKeyLE now) rels with
    | nil => simp
    | cons r rs =>
      rw [List.countP_cons]
      have hall : ∀ x ∈ rels, x.is_primary = false := by
        intro x hx
        have := List.any_eq_false.mp (Bool.eq_false_iff.mpr hany) x hx
        simpa using this
      have hrs0 : rs.countP (fun x => x.is_primary) = 0 := by
        rw [List.countP_eq_zero]
        intro x hx
        have hx' : x ∈ rels := mem_stableSort (by rw [hsort]; exact List.mem_cons_of_mem r hx)
        simp [hall x hx']
      simp [hrs0]

lemma ensure_single_primary_event {c : ℕ} (now : ℤ) (rels : List EventDocRow)
    (h : ∀ r ∈ rels, r.event_id = c) :
    ∀ x ∈ ensure_single_primary now rels, x.event_id = c := by
  unfold ensure_single_primary
  split
  · rename_i h0
    rw [h0]
    intro x hx
    simp at hx
  split
  · exact demote_event false rels h
  · cases hsort : stableSort (ensureKeyLE now) rels with
    | nil => simp
    | cons r rs =>
      intro x hx
      rcases List.mem_cons.mp hx with hx | hx
      · subst hx
        exact h r (mem_stableSort (by rw [hsort]; exact List.mem_cons_self r rs))
      · exact h x (mem_stableSort (by rw [hsort]; exact List.mem_cons_of_mem r hx))

lemma split_docs_single_primary (db : DB) (source : EventRow) (now : ℤ)
    (hinv : singlePrimaryInv db) (href : docsRefEvents db)
    (hsrc : source ∈ db.events)
    (srels trels : List EventDocRow)
    (hsr : ∀ r ∈ srels, r.event_id = source.id)
    (htr : ∀ r ∈ trels, r.event_id = source.id) (eid : ℕ) :
    ((db.event_docs.filter (fun r => !(r.event_id == source.id))
      ++ ensure_single_primary now srels
      ++ (ensure_single_primary now trels).map
          (fun r => { r with event_id := freshEventId db }) :
        List EventDocRow)).countP
      (fun r => r.event_id == eid && r.is_primary) ≤ 1 := by
  have hSR : ∀ x ∈ ensure_single_primary now srels, x.event_id = source.id :=
    ensure_single_primary_event now srels hsr
  have hTR : ∀ x ∈ ensure_single_primary now trels, x.event_id = source.id :=
    ensure_single_primary_event now trels htr
  have hmap_mem : ∀ x ∈ (ensure_single_primary now trels).map
      (fun r => { r with event_id := freshEventId db }),
      x.event_id = freshEventId db := by
    intro x hx
    obtain ⟨r, -, hr⟩ := List.mem_map.mp hx
    rw [← hr]
  have hsne : source.id ≠ freshEventId db :=
    Nat.ne_of_lt (event_id_lt_fresh db source hsrc)
  rw [List.countP_append, List.countP_append]
  by_cases he1 : eid = source.id
  · subst he1
    have hF : (db.event_docs.filter (fun r => !(r.event_id == source.id))).countP
        (fun r => r.event_id == source.id && r.is_primary) = 0 := by
      rw [List.countP_eq_zero]
      intro r hr
      have := (List.mem_filter.mp hr).2
      simp only [Bool.not_eq_true'] at this
      simp [this]
    have hS := countP_eq_prim_of_event_eq hSR
    have hS1 := ensure_single_primary_countP now srels
    have hM := countP_eq_zero_of_event_ne hmap_mem hsne
    omega
  · by_cases he2 : eid = freshEventId db
    · subst he2
      have hF : (db.event_docs.filter (fun r => !(r.event_id == source.id))).countP
          (fun r => r.event_id == freshEventId db && r.is_primary) = 0 := by
        rw [List.countP_eq_zero]
        intro r hr
        have := fresh_not_doc db href r (List.mem_filter.mp hr).1
        simp [this]
      have hS := countP_eq_zero_of_event_ne hSR (Ne.symm hsne)
      have hMp : ((ensure_single_primary now trels).map
          (fun r => { r with event_id := freshEventId db })).countP
          (fun r => r.event_id == freshEventId db && r.is_primary)
            = (ensure_single_primary now trels).countP (fun r => r.is_primary) := by
        rw [List.countP_map]
        apply List.countP_congr
        intro r hr
        simp [Function.comp]
      have hM1 := ensure_single_primary_countP now trels
      omega
    · have hF : (db.event_docs.filter (fun r => !(r.event_id == source.id))).countP
          (fun r => r.event_id == eid && r.is_primary) ≤ 1 := by
        calc (db.event_docs.filter (fun r => !(r.event_id == source.id))).countP
              (fun r => r.event_id == eid && r.is_primary)
            ≤ db.event_docs.countP (fun r => r.event_id == eid && r.is_primary) :=
              (List.filter_sublist _).countP_le _
          _ = primaryCount db eid := by
              unfold primaryCount
              rw [List.countP_eq_length_filter]
          _ ≤ 1 := hinv eid
      have hS := countP_eq_zero_of_event_ne hSR he1
      have hM := countP_eq_zero_of_event_ne hmap_mem he2
      omega

lemma split_preserves (db : DB) (srcId : ℕ) (docIds : List ℤ)
    (ns nl : Option String) (now : ℤ) (sres : SplitResult) (db6 : DB)
    (h : split_event_by_docs db srcId docIds ns nl now = .ok (sres, db6))
    (hinv : singlePrimaryInv db) (href : docsRefEvents db) :
    singlePrimaryInv db6 := by
  unfold split_event_by_docs at h
  cases hfs : findEvent db srcId with
  | none => rw [hfs] at h; simp at h
  | some source =>
    rw [hfs] at h
    dsimp only at h
    by_cases g1 : pyTruthyOptNat source.canonical_event_id = true
    · rw [if_pos g1] at h; simp at h
    rw [if_neg g1] at h
    by_cases g2 : statusName source.status = "MERGED"
    · rw [if_pos g2] at h; simp at h
    rw [if_neg g2] at h
    by_cases g3 : normalize_doc_ids docIds = []
    · rw [if_pos g3] at h; simp at h
    rw [if_neg g3] at h
    by_cases g4 : (stableSort seenDocLE (db.event_docs.filter
        (fun r => r.event_id == source.id))).length < 2
    · rw [if_pos g4] at h; simp at h
    rw [if_neg g4] at h
    by_cases g5 : (stableSort seenDocLE (db.event_docs.filter
        (fun r => r.event_id == source.id))).filter
        (fun r => (normalize_doc_ids docIds).contains r.doc_id) = []
    · rw [if_pos g5] at h; simp at h
    rw [if_neg g5] at h
    by_cases g6 : (stableSort seenDocLE (db.event_docs.filter
        (fun r => r.event_id == source.id))).length ≤
        ((stableSort seenDocLE (db.event_docs.filter
          (fun r => r.event_id == source.id))).filter
          (fun r => (normalize_doc_ids docIds).contains r.doc_id)).length
    · rw [if_pos g6] at h; simp at h
    rw [if_neg g6] at h
    simp only [Except.ok.injEq, Prod.mk.injEq] at h
    obtain ⟨-, hdb6⟩ := h
    subst hdb6
    have hall : ∀ r ∈ stableSort seenDocLE (db.event_docs.filter
        (fun r => r.event_id == source.id)), r.event_id = source.id := by
      intro r hr
      have := (List.mem_filter.mp (mem_stableSort hr)).2
      simpa using this
    intro eid
    unfold primaryCount
    dsimp only
    rw [transition_docs]
    dsimp only
    rw [ensure_initial_docs]
    rw [transition_docs]
    dsimp only
    rw [← List.countP_eq_length_filter]
    exact split_docs_single_primary db source now hinv href
      (List.mem_of_find?_eq_some hfs) _ _
      (fun r hr => hall r (List.mem_filter.mp hr).1)
      (fun r hr => hall r (List.mem_filter.mp hr).1) eid

/-- C2: the at-most-one-primary-doc-per-event invariant holds after each of
the three operations, whenever it holds before: the organizer's
link-or-create step (organizer.py:276-334, linking with `is_primary=False`
and creating a primary only on the fresh event), a successful
`merge_event_into` (merge_service.py:79-111, whose reassignment loop
demotes or promotes so the canonical event keeps at most one primary), and
a successful `split_event_by_docs` (split_service.py:51-62,
`_ensure_single_primary` on both the remaining and the split-off relation
lists).  `docsRefEvents` is the `event_docs.event_id` foreign-key
integrity enforced by the schema. -/
theorem single_primary_invariant_preserved
    (db : DB) (hinv : singlePrimaryInv db) (href : docsRefEvents db)
    (target : Option ℕ) (docId sourceId : ℕ) (lane title : Option String)
    (dom : String) (tier now1 : ℤ)
    (B A : ℕ) (rc sr : String) (ev : List (String × String)) (now2 : ℤ)
    (mres : MergeResult) (mdb : DB)
    (hm : merge_event_into db B A rc sr ev now2 = .ok (mres, mdb))
    (srcId : ℕ) (docIds : List ℤ) (ns nl : Option String) (now3 : ℤ)
    (sres : SplitResult) (sdb : DB)
    (hs : split_event_by_docs db srcId docIds ns nl now3 = .ok (sres, sdb)) :
    singlePrimaryInv
      (organizer_finalize db target docId sourceId lane title dom tier now1).1
    ∧ singlePrimaryInv mdb ∧ singlePrimaryInv sdb :=
  ⟨organizer_preserves db target docId sourceId lane title dom tier now1 hinv href,
   merge_event_into_preserves db B A rc sr ev now2 mres mdb hm hinv,
   split_preserves db srcId docIds ns nl now3 sres sdb hs hinv href⟩

theorem single_primary_invariant_preserved_witness :
    singlePrimaryInv (organizer_finalize c2DB (some 1) 400 7 none none "gov.br" 1 100).1
    ∧ singlePrimaryInv c2Merge.2 ∧ singlePrimaryInv c2Split.2 :=
  single_primary_invariant_preserved c2DB
    (by
      intro eid
      by_cases h1 : eid = 1
      · subst h1; decide
      by_cases h2 : eid = 2
      · subst h2; decide
      by_cases h3 : eid = 3
      · subst h3; decide
      have b1 : ((1 : ℕ) == eid) = false := beq_eq_false_iff_ne.mpr (Ne.symm h1)
      have b2 : ((2 : ℕ) == eid) = false := beq_eq_false_iff_ne.mpr (Ne.symm h2)
      have b3 : ((3 : ℕ) == eid) = false := beq_eq_false_iff_ne.mpr (Ne.symm h3)
      simp [primaryCount, c2DB, b1, b2, b3])
    (by unfold docsRefEvents; decide)
    (some 1) 400 7 none none "gov.br" 1 100
    2 1 "HARD_ANCHOR_MATCH" "MERGED_INTO_CANONICAL" [] 100 c2Merge.1 c2Merge.2 (by rfl)
    3 [301] none none 100 c2Split.1 c2Split.2 (by rfl)


lemma char_toNat_ofNat {n : ℕ} (h : n < 55296) : (Char.ofNat n).toNat = n := by
  have hv : n.isValidChar := Or.inl h
  rw [Char.ofNat, dif_pos hv]
  simp [Char.ofNatAux, Char.toNat, UInt32.toNat, UInt32.ofNat', BitVec.toNat_ofNatLt]


lemma char_eq_iff_toNat {c d : Char} : c = d ↔ c.toNat = d.toNat := by
  constructor
  · intro h; rw [h]
  · intro h
    have := congrArg Char.ofNat h
    rwa [Char.ofNat_toNat, Char.ofNat_toNat] at this

lemma pyIsSpace_iff {c : Char} : pyIsSpace c = true ↔
    c.toNat = 32 ∨ c.toNat = 9 ∨ c.toNat = 10 ∨ c.toNat = 13
      ∨ c.toNat = 11 ∨ c.toNat = 12 := by
  unfold pyIsSpace
  simp only [Bool.or_eq_true, decide_eq_true_eq]
  constructor
  · rintro (((((h | h) | h) | h) | h) | h) <;>
      rw [char_eq_iff_toNat] at h <;> simp [h] <;> omega
  · rintro (h | h | h | h | h | h) <;>
      rw [char_eq_iff_toNat (d := ' ')] at * <;>
      simp_all [char_eq_iff_toNat]

lemma toUpperAscii_toNat (c : Char) :
    (toUpperAscii c).toNat
      = if 97 ≤ c.toNat ∧ c.toNat ≤ 122 then c.toNat - 32 else c.toNat := by
  unfold toUpperAscii
  split
  · rename_i h
    exact char_toNat_ofNat (by omega)
  · rfl

lemma toLowerAscii_toNat (c : Char) :
    (toLowerAscii c).toNat
      = if 65 ≤ c.toNat ∧ c.toNat ≤ 90 then c.toNat + 32 else c.toNat := by
  unfold toLowerAscii
  split
  · rename_i h
    exact char_toNat_ofNat (by omega)
  · rfl

lemma toUpperAscii_idem (c : Char) :
    toUpperAscii (toUpperAscii c) = toUpperAscii c := by
  rw [char_eq_iff_toNat, toUpperAscii_toNat, toUpperAscii_toNat]
  split_ifs <;> omega

lemma toLowerAscii_idem (c : Char) :
    toLowerAscii (toLowerAscii c) = toLowerAscii c := by
  rw [char_eq_iff_toNat, toLowerAscii_toNat, toLowerAscii_toNat]
  split_ifs <;> omega

lemma pyIsSpace_toUpperAscii (c : Char) :
    pyIsSpace (toUpperAscii c) = pyIsSpace c := by
  cases hs : pyIsSpace c with
  | true =>
    have h := pyIsSpace_iff.mp hs
    have : toUpperAscii c = c := by
      rw [char_eq_iff_toNat, toUpperAscii_toNat]
      split <;> omega
    rw [this, hs]
  | false =>
    cases hu : pyIsSpace (toUpperAscii c) with
    | false => rfl
    | true =>
      exfalso
      have h := pyIsSpace_iff.mp hu
      rw [toUpperAscii_toNat] at h
      have : pyIsSpace c = true := by
        rw [pyIsSpace_iff]
        rcases h with h | h | h | h | h | h <;> split at h <;> omega
      rw [this] at hs
      exact Bool.noConfusion hs

lemma pyIsSpace_toLowerAscii (c : Char) :
    pyIsSpace (toLowerAscii c) = pyIsSpace c := by
  cases hs : pyIsSpace c with
  | true =>
    have h := pyIsSpace_iff.mp hs
    have : toLowerAscii c = c := by
      rw [char_eq_iff_toNat, toLowerAscii_toNat]
      split <;> omega
    rw [this, hs]
  | false =>
    cases hu : pyIsSpace (toLowerAscii c) with
    | false => rfl
    | true =>
      exfalso
      have h := pyIsSpace_iff.mp hu
      rw [toLowerAscii_toNat] at h
      have : pyIsSpace c = true := by
        rw [pyIsSpace_iff]
        rcases h with h | h | h | h | h | h <;> split at h <;> omega
      rw [this] at hs
      exact Bool.noConfusion hs

lemma punct_contains_iff {c : Char} : punctSet.contains c = true ↔
    c.toNat = 46 ∨ c.toNat = 44 ∨ c.toNat = 59 ∨ c.toNat = 41
      ∨ c.toNat = 93 ∨ c.toNat = 125 ∨ c.toNat = 62 := by
  rw [show punctSet.contains c = punctSet.elem c from rfl, List.elem_eq_mem,
    decide_eq_true_eq]
  simp only [punctSet, List.mem_cons, List.not_mem_nil, or_false]
  constructor
  · rintro (h | h | h | h | h | h | h) <;>
      simp_all [char_eq_iff_toNat]
  · rintro (h | h | h | h | h | h | h) <;>
      simp_all [char_eq_iff_toNat]

lemma punct_contains_toLowerAscii (c : Char) :
    punctSet.contains (toLowerAscii c) = punctSet.contains c := by
  cases hs : punctSet.contains c with
  | true =>
    have h := punct_contains_iff.mp hs
    have : toLowerAscii c = c := by
      rw [char_eq_iff_toNat, toLowerAscii_toNat]
      split <;> omega
    rw [this, hs]
  | false =>
    cases hu : punctSet.contains (toLowerAscii c) with
    | false => rfl
    | true =>
      exfalso
      have h := punct_contains_iff.mp hu
      rw [toLowerAscii_toNat] at h
      have : punctSet.contains c = true := by
        rw [punct_contains_iff]
        rcases h with h | h | h | h | h | h | h <;> split at h <;> omega
      rw [this] at hs
      exact Bool.noConfusion hs

lemma dropWhile_head_false {α : Type} (p : α → Bool) :
    ∀ (l : List α) {c : α} {t : List α}, l.dropWhile p = c :: t → p c = false := by
  intro l
  induction l with
  | nil => intro c t h; simp at h
  | cons a as ih =>
    intro c t h
    rw [List.dropWhile_cons] at h
    split at h
    · exact ih h
    · rename_i ha
      obtain ⟨rfl, -⟩ := List.cons.injEq .. ▸ h
      exact Bool.eq_false_iff.mpr ha

lemma dropWhile_idem {α : Type} (p : α → Bool) (l : List α) :
    (l.dropWhile p).dropWhile p = l.dropWhile p := by
  cases h : l.dropWhile p with
  | nil => rfl
  | cons c t =>
    rw [List.dropWhile_cons, if_neg]
    rw [dropWhile_head_false p l h]
    simp

lemma pyStrip_eq (l : List Char) :
    pyStrip l = rstripWs (l.dropWhile pyIsSpace) := rfl

lemma rstripWs_idem (l : List Char) : rstripWs (rstripWs l) = rstripWs l := by
  unfold rstripWs
  rw [List.reverse_reverse, dropWhile_idem]

lemma rstripWs_pref (l : List Char) : rstripWs l <+: l := by
  unfold rstripWs
  conv_rhs => rw [← List.reverse_reverse l]
  exact List.reverse_prefix.mpr (List.dropWhile_suffix pyIsSpace)

lemma pyStrip_idem (l : List Char) : pyStrip (pyStrip l) = pyStrip l := by
  rw [pyStrip_eq, pyStrip_eq]
  have hmid : (rstripWs (l.dropWhile pyIsSpace)).dropWhile pyIsSpace
      = rstripWs (l.dropWhile pyIsSpace) := by
    cases hm : l.dropWhile pyIsSpace with
    | nil => rfl
    | cons c t =>
      have hc : pyIsSpace c = false := dropWhile_head_false pyIsSpace l hm
      obtain ⟨s, hs⟩ := rstripWs_pref (c :: t)
      cases hrw : rstripWs (c :: t) with
      | nil => rfl
      | cons d t' =>
        rw [hrw] at hs
        have hdc : d = c := by
          have := congrArg (fun x => x.head?) hs
          simpa using this
        subst hdc
        rw [List.dropWhile_cons, if_neg (by rw [hc]; simp)]
  rw [hmid, rstripWs_idem]

lemma dropWhile_eq_self_of_noWs {l : List Char} (h : noWs l) :
    l.dropWhile pyIsSpace = l := by
  cases l with
  | nil => rfl
  | cons c t =>
    rw [List.dropWhile_cons, if_neg]
    rw [h c (List.mem_cons_self c t)]
    simp

lemma noWs_reverse {l : List Char} (h : noWs l) : noWs l.reverse := by
  intro c hc
  exact h c (List.mem_reverse.mp hc)

lemma pyStrip_eq_self_of_noWs {l : List Char} (h : noWs l) : pyStrip l = l := by
  rw [pyStrip_eq, dropWhile_eq_self_of_noWs h]
  unfold rstripWs
  rw [dropWhile_eq_self_of_noWs (noWs_reverse h), List.reverse_reverse]

lemma rstripSet_pref (set : List Char) (l : List Char) : rstripSet set l <+: l := by
  unfold rstripSet
  conv_rhs => rw [← List.reverse_reverse l]
  exact List.reverse_prefix.mpr (List.dropWhile_suffix _)

lemma noWs_of_pref {l m : List Char} (h : noWs l) (hp : m <+: l) : noWs m :=
  fun c hc => h c (hp.sublist.mem hc)

lemma noWs_map_toLowerAscii {l : List Char} (h : noWs l) :
    noWs (l.map toLowerAscii) := by
  intro c hc
  obtain ⟨d, hd, rfl⟩ := List.mem_map.mp hc
  rw [pyIsSpace_toLowerAscii]
  exact h d hd

lemma rstripSet_map_toLowerAscii (l : List Char) :
    rstripSet punctSet (l.map toLowerAscii)
      = (rstripSet punctSet l).map toLowerAscii := by
  unfold rstripSet
  rw [← List.map_reverse, List.dropWhile_map, ← List.map_reverse]
  have hp : ((fun c => punctSet.contains c) ∘ toLowerAscii)
      = (fun c : Char => punctSet.contains c) := by
    funext c
    simp only [Function.comp_apply]
    exact punct_contains_toLowerAscii c
  rw [hp]

lemma rstripSet_idem (set : List Char) (l : List Char) :
    rstripSet set (rstripSet set l) = rstripSet set l := by
  unfold rstripSet
  rw [List.reverse_reverse, dropWhile_idem]

lemma map_toLowerAscii_idem (l : List Char) :
    (l.map toLowerAscii).map toLowerAscii = l.map toLowerAscii := by
  rw [List.map_map]
  apply List.map_congr_left
  intro c _
  exact toLowerAscii_idem c

lemma wsCollapseGo_wsOnlySpace (b : Bool) (l : List Char) :
    wsOnlySpace (wsCollapseGo b l) := by
  induction l generalizing b with
  | nil => intro c hc; simp [wsCollapseGo] at hc
  | cons a t ih =>
    intro c hc hws
    unfold wsCollapseGo at hc
    split at hc
    · split at hc
      · exact ih true c hc hws
      · rcases List.mem_cons.mp hc with rfl | hc
        · rfl
        · exact ih true c hc hws
    · rcases List.mem_cons.mp hc with rfl | hc
      · rename_i ha
        exact absurd hws ha
      · exact ih false c hc hws

lemma wsCollapseGo_chain (l : List Char) :
    noWsRun (wsCollapseGo true l) ∧ noWsRun (wsCollapseGo false l)
    ∧ (∀ c t, wsCollapseGo true l = c :: t → pyIsSpace c = false) := by
  induction l with
  | nil =>
    refine ⟨List.chain'_nil, List.chain'_nil, ?_⟩
    intro c t h
    simp [wsCollapseGo] at h
  | cons a rest ih =>
    obtain ⟨ih1, ih2, ih3⟩ := ih
    by_cases ha : pyIsSpace a = true
    · have e1 : wsCollapseGo true (a :: rest) = wsCollapseGo true rest := by
        rw [wsCollapseGo]
        rw [if_pos ha, if_pos rfl]
      have e2 : wsCollapseGo false (a :: rest) = ' ' :: wsCollapseGo true rest := by
        rw [wsCollapseGo]
        rw [if_pos ha, if_neg (by simp)]
      refine ⟨e1 ▸ ih1, e2 ▸ ?_, fun c t h => ih3 c t (e1 ▸ h)⟩
      rw [noWsRun, List.chain'_cons']
      refine ⟨?_, ih1⟩
      intro y hy
      cases hgo : wsCollapseGo true rest with
      | nil => rw [hgo] at hy; simp at hy
      | cons d t' =>
        rw [hgo] at hy
        simp only [List.head?_cons, Option.mem_some_iff] at hy
        subst hy
        rw [not_and]
        intro _
        rw [ih3 d t' hgo]
        simp
    · have ha' : pyIsSpace a = false := Bool.eq_false_iff.mpr ha
      have e1 : wsCollapseGo true (a :: rest) = a :: wsCollapseGo false rest := by
        rw [wsCollapseGo]
        rw [if_neg (by rw [ha']; simp)]
      have e2 : wsCollapseGo false (a :: rest) = a :: wsCollapseGo false rest := by
        rw [wsCollapseGo]
        rw [if_neg (by rw [ha']; simp)]
      have hch : noWsRun (a :: wsCollapseGo false rest) := by
        rw [noWsRun, List.chain'_cons']
        refine ⟨?_, ih2⟩
        intro y hy
        rw [not_and]
        intro hws
        rw [ha'] at hws
        exact absurd hws (by simp)
      refine ⟨e1 ▸ hch, e2 ▸ hch, ?_⟩
      intro c t h
      rw [e1] at h
      obtain ⟨rfl, -⟩ := List.cons.injEq .. ▸ h
      exact ha'

lemma wsCollapseGo_fixed : ∀ (l : List Char), wsOnlySpace l → noWsRun l →
    wsCollapseGo false l = l
    ∧ ((∀ c t, l = c :: t → pyIsSpace c = false) → wsCollapseGo true l = l)
  | [], _, _ => ⟨rfl, fun _ => rfl⟩
  | c :: rest, hos, hrun => by
    have hos' : wsOnlySpace rest := fun x hx => hos x (List.mem_cons_of_mem c hx)
    have hrun' : noWsRun rest := (List.chain'_cons'.mp hrun).2
    obtain ⟨ih1, ih2⟩ := wsCollapseGo_fixed rest hos' hrun'
    by_cases hc : pyIsSpace c = true
    · have hcsp : c = ' ' := hos c (List.mem_cons_self c rest) hc
      have hhead : ∀ d t', rest = d :: t' → pyIsSpace d = false := by
        intro d t' hd
        have := (List.chain'_cons'.mp hrun).1 d (by rw [hd]; rfl)
        rw [not_and] at this
        have := this hc
        exact Bool.eq_false_iff.mpr this
      have hgt : wsCollapseGo true rest = rest := by
        cases hr : rest with
        | nil => rfl
        | cons d t' =>
          rw [← hr]
          exact ih2 (fun d t' hd => hhead d t' hd)
      constructor
      · rw [wsCollapseGo]
        rw [if_pos hc, if_neg (by simp), hgt, hcsp]
      · intro h
        exact absurd hc (by rw [h c rest rfl]; simp)
    · have hc' : pyIsSpace c = false := Bool.eq_false_iff.mpr hc
      constructor
      · rw [wsCollapseGo]
        rw [if_neg (by rw [hc']; simp), ih1]
      · intro _
        rw [wsCollapseGo]
        rw [if_neg (by rw [hc']; simp), ih1]

lemma wsOnlySpace_of_sublist {l m : List Char} (h : wsOnlySpace l)
    (hs : m.Sublist l) : wsOnlySpace m :=
  fun c hc => h c (hs.mem hc)

lemma noWsRun_reverse {l : List Char} (h : noWsRun l) : noWsRun l.reverse := by
  unfold noWsRun at h ⊢
  rw [List.chain'_reverse]
  exact List.Chain'.imp (fun a b hab => fun hp => hab ⟨hp.2, hp.1⟩) h

lemma noWsRun_suffix {l m : List Char} (h : noWsRun l) (hs : m <:+ l) :
    noWsRun m := by
  obtain ⟨s, rfl⟩ := hs
  exact h.suffix ⟨s, rfl⟩

lemma noWsRun_pref {l m : List Char} (h : noWsRun l) (hs : m <+: l) :
    noWsRun m := by
  obtain ⟨s, rfl⟩ := hs
  exact h.prefix ⟨s, rfl⟩

lemma noWsRun_pyStrip {l : List Char} (h : noWsRun l) : noWsRun (pyStrip l) := by
  rw [pyStrip_eq]
  have h1 : noWsRun (l.dropWhile pyIsSpace) :=
    noWsRun_suffix h (List.dropWhile_suffix pyIsSpace)
  exact noWsRun_pref h1 (rstripWs_pref _)

lemma wsOnlySpace_pyStrip {l : List Char} (h : wsOnlySpace l) :
    wsOnlySpace (pyStrip l) := by
  rw [pyStrip_eq]
  refine wsOnlySpace_of_sublist (wsOnlySpace_of_sublist h
    (List.dropWhile_sublist pyIsSpace)) ?_
  exact (rstripWs_pref _).sublist

lemma wsCollapse_of_clean {l : List Char} (hos : wsOnlySpace l) (hrun : noWsRun l) :
    wsCollapse l = l := (wsCollapseGo_fixed l hos hrun).1

lemma map_toUpperAscii_idem (l : List Char) :
    (l.map toUpperAscii).map toUpperAscii = l.map toUpperAscii := by
  rw [List.map_map]
  apply List.map_congr_left
  intro c _
  exact toUpperAscii_idem c

lemma dropWhile_ws_map_toUpperAscii (l : List Char) :
    (l.map toUpperAscii).dropWhile pyIsSpace
      = (l.dropWhile pyIsSpace).map toUpperAscii := by
  rw [List.dropWhile_map]
  have hp : (pyIsSpace ∘ toUpperAscii) = pyIsSpace := by
    funext c
    exact pyIsSpace_toUpperAscii c
  rw [hp]

lemma pyStrip_map_toUpperAscii (l : List Char) :
    pyStrip (l.map toUpperAscii) = (pyStrip l).map toUpperAscii := by
  rw [pyStrip_eq, pyStrip_eq, dropWhile_ws_map_toUpperAscii]
  unfold rstripWs
  rw [← List.map_reverse, dropWhile_ws_map_toUpperAscii, ← List.map_reverse]

lemma wsCollapseGo_map_toUpperAscii : ∀ (l : List Char) (b : Bool),
    wsCollapseGo b (l.map toUpperAscii) = (wsCollapseGo b l).map toUpperAscii
  | [], _ => rfl
  | c :: rest, b => by
    rw [List.map_cons, wsCollapseGo, wsCollapseGo]
    rw [pyIsSpace_toUpperAscii]
    by_cases hc : pyIsSpace c = true
    · rw [if_pos hc, if_pos hc]
      cases b with
      | true =>
        rw [if_pos rfl, if_pos rfl]
        exact wsCollapseGo_map_toUpperAscii rest true
      | false =>
        rw [if_neg (by simp), if_neg (by simp), List.map_cons]
        rw [wsCollapseGo_map_toUpperAscii rest true]
        rfl
    · rw [if_neg hc, if_neg hc, List.map_cons]
      rw [wsCollapseGo_map_toUpperAscii rest false]

lemma plNormalize_idem (x : List Char) :
    pyStrip (wsCollapse ((pyStrip (pyStrip (wsCollapse
        ((pyStrip x).map toUpperAscii)))).map toUpperAscii))
      = pyStrip (wsCollapse ((pyStrip x).map toUpperAscii)) := by
  set n := pyStrip (wsCollapse ((pyStrip x).map toUpperAscii)) with hn
  have step1 : pyStrip n = n := by rw [hn, pyStrip_idem]
  have step2 : n.map toUpperAscii = n := by
    rw [hn, ← pyStrip_map_toUpperAscii]
    rw [show (wsCollapse ((pyStrip x).map toUpperAscii)).map toUpperAscii
        = wsCollapse (((pyStrip x).map toUpperAscii).map toUpperAscii) from
      (wsCollapseGo_map_toUpperAscii ((pyStrip x).map toUpperAscii) false).symm]
    rw [map_toUpperAscii_idem]
  have hos : wsOnlySpace n := by
    rw [hn]
    exact wsOnlySpace_pyStrip (wsCollapseGo_wsOnlySpace false _)
  have hrun : noWsRun n := by
    rw [hn]
    exact noWsRun_pyStrip (wsCollapseGo_chain _).2.1
  have step3 : wsCollapse n = n := wsCollapse_of_clean hos hrun
  rw [step1, step2, step3, step1]

lemma uint32_le_iff {a b : UInt32} : a ≤ b ↔ a.toNat ≤ b.toNat := by
  rw [UInt32.le_def, BitVec.le_def]
  exact Iff.rfl

lemma isDigit_iff_toNat {c : Char} :
    c.isDigit = true ↔ 48 ≤ c.toNat ∧ c.toNat ≤ 57 := by
  unfold Char.isDigit
  simp only [Bool.and_eq_true, decide_eq_true_eq, ge_iff_le]
  rw [uint32_le_iff, uint32_le_iff]
  exact Iff.rfl

lemma digitChar_toNat {d : ℕ} (h : d < 10) : (digitChar d).toNat = 48 + d :=
  char_toNat_ofNat (by omega)

lemma noWs_of_digit_range {l : List Char}
    (h : ∀ c ∈ l, (48 ≤ c.toNat ∧ c.toNat ≤ 57) ∨ c.toNat = 46 ∨ c.toNat = 45) :
    noWs l := by
  intro c hc
  cases hw : pyIsSpace c with
  | false => rfl
  | true =>
    exfalso
    have := pyIsSpace_iff.mp hw
    rcases h c hc with h1 | h1 | h1 <;> omega

lemma cnpj_digits_noWs (l : List Char) : noWs (l.filter Char.isDigit) := by
  intro c hc
  have hd := List.of_mem_filter hc
  cases hw : pyIsSpace c with
  | false => rfl
  | true =>
    exfalso
    have h1 := isDigit_iff_toNat.mp hd
    have h2 := pyIsSpace_iff.mp hw
    omega

lemma filter_isDigit_idem (l : List Char) :
    (l.filter Char.isDigit).filter Char.isDigit = l.filter Char.isDigit := by
  rw [List.filter_eq_self]
  intro c hc
  exact List.of_mem_filter hc

lemma natDigitsGo_range : ∀ (fuel n : ℕ), ∀ c ∈ natDigitsGo fuel n,
    48 ≤ c.toNat ∧ c.toNat ≤ 57 := by
  intro fuel
  induction fuel with
  | zero => intro n c hc; simp [natDigitsGo] at hc
  | succ f ih =>
    intro n c hc
    rw [natDigitsGo] at hc
    split at hc
    · rename_i hn
      simp only [List.mem_singleton] at hc
      subst hc
      rw [digitChar_toNat hn]
      omega
    · rcases List.mem_append.mp hc with hc | hc
      · exact ih (n / 10) c hc
      · simp only [List.mem_singleton] at hc
        subst hc
        rw [digitChar_toNat (Nat.mod_lt n (by omega))]
        have := Nat.mod_lt n (show 0 < 10 by omega)
        omega

lemma pad2_range (n : ℕ) : ∀ c ∈ pad2 n, 48 ≤ c.toNat ∧ c.toNat ≤ 57 := by
  intro c hc
  rcases List.mem_cons.mp hc with rfl | hc
  · rw [digitChar_toNat (Nat.mod_lt _ (by omega))]
    have := Nat.mod_lt (n / 10) (show 0 < 10 by omega)
    omega
  · simp only [pad2, List.mem_singleton] at hc
    subst hc
    rw [digitChar_toNat (Nat.mod_lt n (by omega))]
    have := Nat.mod_lt n (show 0 < 10 by omega)
    omega

lemma pad4_range (n : ℕ) : ∀ c ∈ pad4 n, 48 ≤ c.toNat ∧ c.toNat ≤ 57 := by
  intro c hc
  simp only [pad4, List.mem_cons, List.not_mem_nil, or_false] at hc
  rcases hc with rfl | rfl | rfl | rfl <;>
    · rw [digitChar_toNat (Nat.mod_lt _ (by omega))]
      have := Nat.mod_lt 5 (show 0 < 10 by omega)
      omega

lemma dropWhile_append_all {α : Type} (p : α → Bool) :
    ∀ (xs ys : List α), (∀ c ∈ xs, p c = true) →
      (xs ++ ys).dropWhile p = ys.dropWhile p
  | [], ys, _ => rfl
  | x :: xs, ys, h => by
    rw [List.cons_append, List.dropWhile_cons,
      if_pos (h x (List.mem_cons_self x xs))]
    exact dropWhile_append_all p xs ys (fun c hc => h c (List.mem_cons_of_mem x hc))

lemma fmtDate_noWs (y mo d : ℕ) : noWs (fmtDate y mo d) := by
  apply noWs_of_digit_range
  intro c hc
  unfold fmtDate at hc
  rcases List.mem_append.mp hc with hc | hc
  · exact Or.inl (pad4_range y c hc)
  · rcases List.mem_cons.mp hc with rfl | hc
    · exact Or.inr (Or.inr (by decide))
    · rcases List.mem_append.mp hc with hc | hc
      · exact Or.inl (pad2_range mo c hc)
      · rcases List.mem_cons.mp hc with rfl | hc
        · exact Or.inr (Or.inr (by decide))
        · exact Or.inl (pad2_range d c hc)

lemma parseDate_fmtDate (y mo d : ℕ) : parseDate (fmtDate y mo d) = none := by
  unfold parseDate fmtDate
  rw [dropWhile_append_all Char.isDigit (pad4 y) _ (fun c hc =>
    isDigit_iff_toNat.mpr (pad4_range y c hc))]
  rw [List.dropWhile_cons, if_neg (by decide)]
  rfl

lemma removeRS_eq_self : ∀ (l : List Char), (∀ c ∈ l, c ≠ '$') → removeRS l = l
  | [], _ => rfl
  | [c], _ => rfl
  | a :: b :: rest, h => by
    rw [removeRS, if_neg]
    · rw [removeRS_eq_self (b :: rest)
        (fun c hc => h c (List.mem_cons_of_mem a hc))]
    · rintro ⟨-, hb⟩
      exact h b (List.mem_cons_of_mem a (List.mem_cons_self b rest)) hb

lemma map_eq_self {α : Type} {f : α → α} : ∀ {l : List α},
    (∀ c ∈ l, f c = c) → l.map f = l := by
  intro l h
  calc l.map f = l.map id := List.map_congr_left h
    _ = l := List.map_id l

lemma toUpperAscii_eq_self_of_lt {c : Char} (h : c.toNat < 97) :
    toUpperAscii c = c := by
  unfold toUpperAscii
  rw [if_neg]
  omega

lemma fmt2_range (q : ℚ) : ∀ c ∈ fmt2 q,
    (48 ≤ c.toNat ∧ c.toNat ≤ 57) ∨ c.toNat = 46 ∨ c.toNat = 45 := by
  intro c hc
  unfold fmt2 at hc
  rcases List.mem_append.mp hc with hc | hc
  · rcases List.mem_append.mp hc with hc | hc
    · split at hc
      · simp only [List.mem_singleton] at hc
        subst hc
        exact Or.inr (Or.inr (by decide))
      · simp at hc
    · exact Or.inl (natDigitsGo_range _ _ c hc)
  · rcases List.mem_cons.mp hc with rfl | hc
    · exact Or.inr (Or.inl (by decide))
    · exact Or.inl (pad2_range _ c hc)

lemma noWs_commaToDot {l : List Char} (h : noWs l) : noWs (commaToDot l) := by
  intro c hc
  obtain ⟨d, hd, rfl⟩ := List.mem_map.mp hc
  by_cases hcomma : d = ','
  · subst hcomma
    rw [if_pos rfl]
    decide
  · rw [if_neg hcomma]
    exact h d hd

lemma noWs_dropDots {l : List Char} (h : noWs l) : noWs (dropDots l) :=
  fun c hc => h c ((List.filter_sublist l).mem hc)

lemma fmt2_noWs (q : ℚ) : noWs (fmt2 q) :=
  noWs_of_digit_range (fmt2_range q)

lemma brl_noWs (q : ℚ) : noWs ('B' :: 'R' :: 'L' :: ':' :: fmt2 q) := by
  intro c hc
  simp only [List.mem_cons] at hc
  rcases hc with rfl | rfl | rfl | rfl | hc
  · decide
  · decide
  · decide
  · decide
  · exact fmt2_noWs q c hc

lemma parseFloat_head_B (rest : List Char) (h : noWs ('B' :: rest)) :
    parseFloat ('B' :: rest) = none := by
  unfold parseFloat
  dsimp only
  rw [pyStrip_eq_self_of_noWs h]
  rfl

lemma valor_brl_cleaned (q : ℚ) :
    commaToDot (dropDots (pyStrip (removeRS
        (('B' :: 'R' :: 'L' :: ':' :: fmt2 q).map toUpperAscii))))
      = 'B' :: 'R' :: 'L' :: ':' :: commaToDot (dropDots (fmt2 q)) := by
  have hmap : ('B' :: 'R' :: 'L' :: ':' :: fmt2 q).map toUpperAscii
      = 'B' :: 'R' :: 'L' :: ':' :: fmt2 q := by
    apply map_eq_self
    intro c hc
    simp only [List.mem_cons] at hc
    rcases hc with rfl | rfl | rfl | rfl | hc
    · decide
    · decide
    · decide
    · decide
    · rcases fmt2_range q c hc with h1 | h1 | h1 <;>
        exact toUpperAscii_eq_self_of_lt (by omega)
  rw [hmap]
  rw [removeRS_eq_self _ (by
    intro c hc
    simp only [List.mem_cons] at hc
    rcases hc with rfl | rfl | rfl | rfl | hc
    · decide
    · decide
    · decide
    · decide
    · rcases fmt2_range q c hc with h1 | h1 | h1 <;>
        · intro hcd
          rw [hcd] at h1
          revert h1
          decide)]
  rw [pyStrip_eq_self_of_noWs (brl_noWs q)]
  rfl

/-- C8 (amended): `_normalize` is idempotent for every anchor type and every
string, provided the value contains no whitespace when the type is
`LINK_GOV` or `PDF` — which holds for every URL the extractor feeds it,
since `URL_RE` matches no whitespace character.  Without that restriction
the claim fails; see the counterexample. -/
theorem anchor_normalize_idempotent (t : AnchorType) (x : List Char)
    (h : t = .LINK_GOV ∨ t = .PDF → noWs x) :
    normalizeAnchor t (normalizeAnchor t x) = normalizeAnchor t x := by
  cases t with
  | CNPJ =>
    show (pyStrip ((pyStrip x).filter Char.isDigit)).filter Char.isDigit
      = (pyStrip x).filter Char.isDigit
    rw [pyStrip_eq_self_of_noWs (cnpj_digits_noWs _), filter_isDigit_idem]
  | CPF =>
    show (pyStrip ((pyStrip x).filter Char.isDigit)).filter Char.isDigit
      = (pyStrip x).filter Char.isDigit
    rw [pyStrip_eq_self_of_noWs (cnpj_digits_noWs _), filter_isDigit_idem]
  | CNJ => exact pyStrip_idem x
  | SEI => exact pyStrip_idem x
  | HORA => exact pyStrip_idem x
  | PL => exact plNormalize_idem x
  | ATO => exact plNormalize_idem x
  | TCU => exact plNormalize_idem x
  | LINK_GOV =>
    have hx := h (Or.inl rfl)
    show (rstripSet punctSet (pyStrip ((rstripSet punctSet (pyStrip x)).map
        toLowerAscii))).map toLowerAscii
      = (rstripSet punctSet (pyStrip x)).map toLowerAscii
    rw [pyStrip_eq_self_of_noWs hx]
    rw [pyStrip_eq_self_of_noWs (noWs_map_toLowerAscii
      (noWs_of_pref hx (rstripSet_pref punctSet x)))]
    rw [rstripSet_map_toLowerAscii, rstripSet_idem, map_toLowerAscii_idem]
  | PDF =>
    have hx := h (Or.inr rfl)
    show (rstripSet punctSet (pyStrip ((rstripSet punctSet (pyStrip x)).map
        toLowerAscii))).map toLowerAscii
      = (rstripSet punctSet (pyStrip x)).map toLowerAscii
    rw [pyStrip_eq_self_of_noWs hx]
    rw [pyStrip_eq_self_of_noWs (noWs_map_toLowerAscii
      (noWs_of_pref hx (rstripSet_pref punctSet x)))]
    rw [rstripSet_map_toLowerAscii, rstripSet_idem, map_toLowerAscii_idem]
  | DATA =>
    cases hp : parseDate (pyStrip x) with
    | none =>
      have e1 : normalizeAnchor .DATA x = pyStrip x := by
        unfold normalizeAnchor
        dsimp only
        rw [hp]
      rw [e1]
      show normalizeAnchor .DATA (pyStrip x) = pyStrip x
      unfold normalizeAnchor
      dsimp only
      rw [pyStrip_idem, hp]
    | some dmy =>
      obtain ⟨d, mo, y⟩ := dmy
      by_cases hv : 1 ≤ mo ∧ mo ≤ 12 ∧ 1 ≤ d
          ∧ d ≤ daysInMonth (if y < 100 then y + 2000 else y) mo
      · have e1 : normalizeAnchor .DATA x
            = fmtDate (if y < 100 then y + 2000 else y) mo d := by
          unfold normalizeAnchor
          dsimp only
          rw [hp]
          dsimp only
          rw [if_pos hv]
        rw [e1]
        unfold normalizeAnchor
        dsimp only
        rw [pyStrip_eq_self_of_noWs (fmtDate_noWs _ _ _), parseDate_fmtDate]
      · have e1 : normalizeAnchor .DATA x = pyStrip x := by
          unfold normalizeAnchor
          dsimp only
          rw [hp]
          dsimp only
          rw [if_neg hv]
        rw [e1]
        show normalizeAnchor .DATA (pyStrip x) = pyStrip x
        unfold normalizeAnchor
        dsimp only
        rw [pyStrip_idem, hp]
        dsimp only
        rw [if_neg hv]
  | VALOR =>
    cases hp : parseFloat (commaToDot (dropDots (pyStrip (removeRS
        ((pyStrip x).map toUpperAscii))))) with
    | none =>
      have e1 : normalizeAnchor .VALOR x = pyStrip x := by
        unfold normalizeAnchor
        dsimp only
        rw [hp]
      rw [e1]
      show normalizeAnchor .VALOR (pyStrip x) = pyStrip x
      unfold normalizeAnchor
      dsimp only
      rw [pyStrip_idem, hp]
    | some q =>
      have e1 : normalizeAnchor .VALOR x = 'B' :: 'R' :: 'L' :: ':' :: fmt2 q := by
        unfold normalizeAnchor
        dsimp only
        rw [hp]
      rw [e1]
      unfold normalizeAnchor
      dsimp only
      rw [pyStrip_eq_self_of_noWs (brl_noWs q)]
      rw [valor_brl_cleaned]
      rw [parseFloat_head_B _ (by
        intro c hc
        simp only [List.mem_cons] at hc
        rcases hc with rfl | rfl | rfl | rfl | hc
        · decide
        · decide
        · decide
        · decide
        · exact noWs_commaToDot (noWs_dropDots (fmt2_noWs q)) c hc)]

/-- C8 counterexample: on the `LINK_GOV` value `"abc ."`, the
`rstrip(".,;)]}>")` of regex_pack.py:68 exposes a trailing space which the
second pass's leading `strip()` then removes, so applying `_normalize`
twice differs from applying it once. -/
theorem anchor_normalize_idempotence_counterexample :
    normalizeAnchor .LINK_GOV
        (normalizeAnchor .LINK_GOV ['a', 'b', 'c', ' ', '.'])
      ≠ normalizeAnchor .LINK_GOV ['a', 'b', 'c', ' ', '.'] := by decide

theorem anchor_normalize_idempotent_witness :
    normalizeAnchor .LINK_GOV (normalizeAnchor .LINK_GOV
        ['h', 't', 't', 'p', 's', ':', '/', '/', 'X', '.', 'g', 'o', 'v', '.',
         'b', 'r', '/', 'd', 'o', 'c', '.', 'p', 'd', 'f', '.'])
      = normalizeAnchor .LINK_GOV
        ['h', 't', 't', 'p', 's', ':', '/', '/', 'X', '.', 'g', 'o', 'v', '.',
         'b', 'r', '/', 'd', 'o', 'c', '.', 'p', 'd', 'f', '.'] :=
  anchor_normalize_idempotent .LINK_GOV
    ['h', 't', 't', 'p', 's', ':', '/', '/', 'X', '.', 'g', 'o', 'v', '.',
     'b', 'r', '/', 'd', 'o', 'c', '.', 'p', 'd', 'f', '.'] (by decide)

end PautaNews
